import Mathlib

/-!
# Name resolution in `source3/libsmb/namequery.c`, with `regdb_key_exists` and `idmap_autorid`

A shallow embedding of the address-list post-processing, of the resolution
dispatcher, of the server affinity cache, of the node status parser, of the
asynchronous name query engines and of the domain controller lookup of
`namequery.c`, of `regdb_key_exists` of `registry/reg_backend_db.c` and of the
id ranges of `winbindd/idmap_autorid.c`, with the properties of the
specification stated and proved (or refuted) over it.

Conventions of the embedding:

* a C array together with its element count is a `List`; loops over an index with
  a fixed bound recurse on the number of iterations left, loops whose bound
  moves carry the guard of the C loop and a fuel that is shown to suffice;
* `int`/`unsigned` values are `Nat`/`Int`; counts of list entries, bit counts
  up to 256, ports and record lengths cannot overflow, and the `uint32_t`
  arithmetic of `idmap_autorid.c` is taken modulo 2^32;
* heap allocation is taken to succeed: the `NT_STATUS_NO_MEMORY` exits that
  only follow a failed `malloc`/`talloc` are not part of the model; the
  exits taken for a request of no entries, for which `SMB_MALLOC_ARRAY` and
  `talloc_realloc` return a null pointer, are;
* a write outside an allocated array, a read outside the buffer a pointer
  points into and a read through a null pointer have no result: the function
  returns an error or `none` there;
* functions of the code base that are called here but defined in other
  files are either modelled (and marked so) or taken as parameters;
* an asynchronous request is its state structure together with the state of
  the request itself: `none` while it is in progress, `some status` once it
  has ended; a callback is a function on that state, and what the network
  does is a list of events or a function giving the outcome of each query.
-/

namespace Samba

/-! ## Data model -/

/-- Address family of IPv4 sockets (`AF_INET` of `<sys/socket.h>`). -/
def AF_INET : Nat := 2

/-- Address family of IPv6 sockets (`AF_INET6` of `<sys/socket.h>`). -/
def AF_INET6 : Nat := 10

/-- The part of `struct sockaddr_storage` the code reads: the family and the
bytes of the address (`sin_addr`, 4 bytes, or `sin6_addr`, 16 bytes) in
network order. Bytes past the end of `addr` read as zero. -/
structure sockaddr_storage where
  ss_family : Nat
  addr : List Nat
deriving DecidableEq, Repr, Inhabited

/-- The first `len` bytes of the address of `ss`. -/
def addr_bytes (len : Nat) (ss : sockaddr_storage) : List Nat :=
  (List.range len).map (fun k => ss.addr.getD k 0)

/-- Modelled from the spec: `PORT_NONE` (declared in `smb.h`, not among the
sources), the sentinel "no port" value of an address+port pair. -/
def PORT_NONE : Nat := 0

/-- The C `struct ip_service`: an address and a port. -/
structure ip_service where
  ss : sockaddr_storage
  port : Nat
deriving DecidableEq, Repr, Inhabited

/-- Modelled from the spec: `is_zero_addr` (lib/util/util_net.c, not among the
sources): the address is the all-zero address of its family; an address of
another family than IPv4 or IPv6 is never zero. -/
def is_zero_addr (pss : sockaddr_storage) : Bool :=
  if pss.ss_family = AF_INET6 then (addr_bytes 16 pss).all (fun b => b == 0)
  else if pss.ss_family = AF_INET then (addr_bytes 4 pss).all (fun b => b == 0)
  else false

/-- Modelled from the spec: `zero_sockaddr` (lib/util/util_net.c, not among
the sources): "zero out" an address; the result is the IPv4 address 0.0.0.0. -/
def zero_sockaddr : sockaddr_storage :=
  { ss_family := AF_INET, addr := [0, 0, 0, 0] }

/-- Modelled from the spec: `sockaddr_equal` (lib/util/util_net.c, not among
the sources): two addresses are equal when they have the same family, IPv4 or
IPv6, and the same address bytes; the port inside the sockaddr is not looked
at. -/
def sockaddr_equal (ip1 ip2 : sockaddr_storage) : Bool :=
  if ip1.ss_family ≠ ip2.ss_family then false
  else if ip1.ss_family = AF_INET6 then addr_bytes 16 ip1 == addr_bytes 16 ip2
  else if ip1.ss_family = AF_INET then addr_bytes 4 ip1 == addr_bytes 4 ip2
  else false

/-! ## remove_duplicate_addrs2 -/

/-- The test of the inner loop of `remove_duplicate_addrs2`:
`sockaddr_equal(&a.ss, &b.ss) && a.port == b.port`. -/
def same_addr_port (a b : ip_service) : Bool :=
  sockaddr_equal a.ss b.ss && a.port == b.port

/-- The inner loop `for (j = ...; j < count; j++)` of the first pass of
`remove_duplicate_addrs2`, for a fixed `i`: `n` is the number of iterations
left (`count - j`). An entry `j` that matches entry `i` gets its address
zeroed; its port stays. -/
def dup_inner (i : Nat) : Nat → Nat → List ip_service → List ip_service
  | 0, _, iplist => iplist
  | n + 1, j, iplist =>
    if same_addr_port (iplist.getD i default) (iplist.getD j default) then
      dup_inner i n (j + 1)
        (iplist.set j { iplist.getD j default with ss := zero_sockaddr })
    else
      dup_inner i n (j + 1) iplist

/-- The first pass `for (i = ...; i < count; i++)` of
`remove_duplicate_addrs2`: `n` is the number of iterations left
(`count - i`). A zero entry is skipped (`continue`). -/
def dup_outer (count : Nat) : Nat → Nat → List ip_service → List ip_service
  | 0, _, iplist => iplist
  | n + 1, i, iplist =>
    if is_zero_addr (iplist.getD i default).ss then
      dup_outer count n (i + 1) iplist
    else
      dup_outer count n (i + 1) (dup_inner i (count - (i + 1)) (i + 1) iplist)

/-- The C call `memmove(&iplist[i], &iplist[i+1], n * sizeof(iplist[i]))`:
entries `i+1 .. i+n` are copied over entries `i .. i+n-1`; every other
entry keeps its value. -/
def memmove_down (iplist : List ip_service) (i n : Nat) : List ip_service :=
  iplist.take i ++ (iplist.drop (i + 1)).take n ++ iplist.drop (i + n)

/-- The second pass `for (i = 0; i < count; )` of `remove_duplicate_addrs2`,
which closes the holes: a zero entry at `i` is overwritten by moving the tail
down and `count` drops by one, otherwise `i` advances. Each iteration lowers
`count - i` by one, so `count - i` units of fuel run the loop to its end. -/
def dup_compact : Nat → Nat → Nat → List ip_service → List ip_service × Nat
  | 0, _, count, iplist => (iplist, count)
  | fuel + 1, i, count, iplist =>
    if i < count then
      if is_zero_addr (iplist.getD i default).ss then
        if i ≠ count - 1 then
          dup_compact fuel i (count - 1) (memmove_down iplist i (count - i - 1))
        else
          dup_compact fuel i (count - 1) iplist
      else
        dup_compact fuel (i + 1) count iplist
    else
      (iplist, count)

/-- The C function `remove_duplicate_addrs2(iplist, count)`: the array after
the call and the returned count. The caller goes on with the first
`count` entries of the array. -/
def remove_duplicate_addrs2 (iplist : List ip_service) (count : Nat) :
    List ip_service × Nat :=
  dup_compact count 0 count (dup_outer count count 0 iplist)

/-- The list a caller of `remove_duplicate_addrs2` holds afterwards: the first
`count` entries of the array, `count` being the returned value. -/
def dedup (L : List ip_service) : List ip_service :=
  ((remove_duplicate_addrs2 L L.length).1).take (remove_duplicate_addrs2 L L.length).2

/-- Whether the dedup pass drops the entry `e` found at index `j` of `L`: its
address is zero, or an entry before it has an equal address and an equal
port. -/
def removed_at (L : List ip_service) (j : Nat) (e : ip_service) : Bool :=
  is_zero_addr e.ss || (L.take j).any (fun q => same_addr_port q e)

/-- The reading of the dedup pass in the specification: an entry goes exactly
when an entry before it has an equal address and an equal port. -/
def removed_at_as_specified (L : List ip_service) (j : Nat) (e : ip_service) : Bool :=
  (L.take j).any (fun q => same_addr_port q e)

/-- The entries the specification of the dedup pass keeps, `earlier` being the
entries that precede the list in the input: an entry goes when its address is
zero or when an entry before it has an equal address and an equal port; every
other entry stays, in place. -/
def kept_from (earlier : List ip_service) : List ip_service → List ip_service
  | [] => []
  | e :: rest =>
    if is_zero_addr e.ss || earlier.any (fun p => same_addr_port p e) then
      kept_from (earlier ++ [e]) rest
    else
      e :: kept_from (earlier ++ [e]) rest

/-! ## prioritize_ipv4_list -/

/-- One copy loop of `prioritize_ipv4_list`,
`for (i = ...; i < count; i++) if (test(iplist[i])) iplist_new[j++] = iplist[i];`
with `n` the number of iterations left; the state is the new array and `j`. -/
def copy_loop (test : ip_service → Bool) (iplist : List ip_service) :
    Nat → Nat → List ip_service × Nat → List ip_service × Nat
  | 0, _, st => st
  | n + 1, i, (iplist_new, j) =>
    if test (iplist.getD i default) then
      copy_loop test iplist n (i + 1) (iplist_new.set j (iplist.getD i default), j + 1)
    else
      copy_loop test iplist n (i + 1) (iplist_new, j)

/-- The C function `prioritize_ipv4_list(iplist, count)`: the returned flag and
the array after the call. `iplist_new` is a fresh array of `count` entries;
the first loop copies the entries of family `AF_INET`, the second the others,
and `memcpy` writes the `count` entries of `iplist_new` back over `iplist`. -/
def prioritize_ipv4_list (iplist : List ip_service) (count : Nat) :
    Bool × List ip_service :=
  let iplist_new : List ip_service := List.replicate count default
  let st1 := copy_loop (fun e => e.ss.ss_family == AF_INET) iplist count 0 (iplist_new, 0)
  let st2 := copy_loop (fun e => e.ss.ss_family != AF_INET) iplist count 0 st1
  (true, st2.1.take count ++ iplist.drop count)

/-! ## addr_compare and ip_service_compare -/

/-- The interface table the comparison consults: `n_bcast` lists
`iface_n_bcast(i)` for `i < iface_count()`, and `is_local` is `iface_local`.
Both come from `interface.c`, which is not among the sources, and are taken as
given. -/
structure Interfaces where
  n_bcast : List sockaddr_storage
  is_local : sockaddr_storage → Bool

/-- The bit loop of `matching_len_bits`: the number of equal leading bits of the
bytes `b1` and `b2`, from bit `j` on, with `n` iterations left. -/
def matching_bits_of_byte (b1 b2 : Nat) : Nat → Nat → Nat
  | 0, _ => 0
  | n + 1, j =>
    if (b1 &&& (0x80 >>> j)) ≠ (b2 &&& (0x80 >>> j)) then 0
    else 1 + matching_bits_of_byte b1 b2 n (j + 1)

/-- Modelled from the spec: `matching_len_bits` (lib/util, not among the
sources), "the longest common prefix length (in bits)" of two byte strings of
the same length: 8 for every equal leading byte, then the equal leading bits
of the first byte that differs. -/
def matching_len_bits : List Nat → List Nat → Nat
  | b1 :: p1, b2 :: p2 =>
    if b1 ≠ b2 then matching_bits_of_byte b1 b2 8 0
    else 8 + matching_len_bits p1 p2
  | _, _ => 0

/-- The length of the address the interface loop of `addr_compare` compares for
an interface of family `family`: 4 for `AF_INET`, 16 for `AF_INET6` (the
build has `HAVE_IPV6`), and 0, which makes the loop skip the interface, for
any other family. -/
def iface_addr_len (family : Nat) : Nat :=
  if family = AF_INET6 then 16 else if family = AF_INET then 4 else 0

/-- The body of the interface loop of `addr_compare` for the interface whose
broadcast address is `pss`: the pair `(max_bits1, max_bits2)` after it. -/
def addr_compare_iface (ss1 ss2 pss : sockaddr_storage) (acc : Nat × Nat) : Nat × Nat :=
  if pss.ss_family ≠ ss1.ss_family then acc
  else if iface_addr_len pss.ss_family = 0 then acc
  else
    (max (matching_len_bits (addr_bytes (iface_addr_len pss.ss_family) ss1)
            (addr_bytes (iface_addr_len pss.ss_family) pss)) acc.1,
     max (matching_len_bits (addr_bytes (iface_addr_len pss.ss_family) ss2)
            (addr_bytes (iface_addr_len pss.ss_family) pss)) acc.2)

/-- The bias "towards directly reachable IPs" of `addr_compare`. -/
def local_bias (ifs : Interfaces) (ss : sockaddr_storage) (max_bits : Nat) : Nat :=
  if ifs.is_local ss then
    if ss.ss_family = AF_INET then max_bits + 32 else max_bits + 128
  else max_bits

/-- The C function `addr_compare(ss1, ss2)`. -/
def addr_compare (ifs : Interfaces) (ss1 ss2 : sockaddr_storage) : Int :=
  if ss1.ss_family ≠ ss2.ss_family then
    if ss2.ss_family = AF_INET then 1 else -1
  else
    let max_bits := ifs.n_bcast.foldl (fun acc pss => addr_compare_iface ss1 ss2 pss acc) (0, 0)
    (local_bias ifs ss2 max_bits.2 : Int) - (local_bias ifs ss1 max_bits.1 : Int)

/-- The C function `ip_service_compare(ss1, ss2)`. -/
def ip_service_compare (ifs : Interfaces) (ss1 ss2 : ip_service) : Int :=
  if addr_compare ifs ss1.ss ss2.ss ≠ 0 then addr_compare ifs ss1.ss ss2.ss
  else if ss1.port > ss2.port then 1
  else if ss1.port < ss2.port then -1
  else 0

/-- The affinity score of one address, as `addr_compare` computes it for each
of its arguments: the largest number of leading bits shared with the
broadcast address of an interface of the same family, plus the bias when the
address is local. -/
def affinity_score (ifs : Interfaces) (ss : sockaddr_storage) : Nat :=
  local_bias ifs ss
    (ifs.n_bcast.foldl
      (fun acc pss =>
        if pss.ss_family ≠ ss.ss_family then acc
        else if iface_addr_len pss.ss_family = 0 then acc
        else max (matching_len_bits (addr_bytes (iface_addr_len pss.ss_family) ss)
                    (addr_bytes (iface_addr_len pss.ss_family) pss)) acc)
      0)

/-- The C function `sort_addr_list(sslist, count)`. `TYPESAFE_QSORT` (tsort.h,
not among the sources) hands the array to the C library's `qsort`, which is
taken as the parameter `qsort`. -/
def sort_addr_list
    (qsort : (sockaddr_storage → sockaddr_storage → Int) →
      List sockaddr_storage → List sockaddr_storage)
    (ifs : Interfaces) (sslist : List sockaddr_storage) : List sockaddr_storage :=
  if sslist.length ≤ 1 then sslist else qsort (addr_compare ifs) sslist

/-- The C function `sort_service_list(servlist, count)`, with `qsort` as in
`sort_addr_list`. -/
def sort_service_list
    (qsort : (ip_service → ip_service → Int) → List ip_service → List ip_service)
    (ifs : Interfaces) (servlist : List ip_service) : List ip_service :=
  if servlist.length ≤ 1 then servlist else qsort (ip_service_compare ifs) servlist

/-- What the C standard asks of `qsort`: `output` holds the entries of `input`,
and no entry comes before one that the comparison places strictly before
it. -/
def qsort_sorted {α : Type} (compare : α → α → Int) (input output : List α) : Prop :=
  output.Perm input ∧ output.Pairwise (fun a b => compare a b ≤ 0)

/-- Stability as the specification words it, for `sort_service_list`: two
candidates with the same affinity score keep their relative order. -/
def stable_on_equal_scores
    (qsort : (ip_service → ip_service → Int) → List ip_service → List ip_service)
    (ifs : Interfaces) (servlist : List ip_service) : Prop :=
  ∀ a b : ip_service, affinity_score ifs a.ss = affinity_score ifs b.ss →
    [a, b].Sublist servlist → [a, b].Sublist (sort_service_list qsort ifs servlist)

/-! ## The resolution dispatcher -/

/-- The status codes the dispatcher and its backends return; `other` stands for
any further `NTSTATUS` value a backend may hand up. -/
inductive NTSTATUS where
  | NT_STATUS_OK
  | NT_STATUS_UNSUCCESSFUL
  | NT_STATUS_INVALID_PARAMETER
  | NT_STATUS_NO_MEMORY
  | NT_STATUS_NOT_FOUND
  | NT_STATUS_IO_TIMEOUT
  | NT_STATUS_DOMAIN_CONTROLLER_NOT_FOUND
  | other (code : Nat)
deriving DecidableEq, Repr

open NTSTATUS

/-- Special name type used to cause a _kerberos DNS lookup. -/
def KDC_NAME_TYPE : Nat := 0xDCDC

/-- The flag `AI_NUMERICHOST` of `<netdb.h>`. -/
def AI_NUMERICHOST : Nat := 4

/-- The fields of `struct dns_rr_srv` that `resolve_ads` reads. `ss_s` is the
array of inline addresses, `none` for a null pointer; `num_ips` is its
length. -/
structure dns_rr_srv where
  hostname : String
  port : Nat
  ss_s : Option (List sockaddr_storage)
deriving Repr, Inhabited

/-- The C field `num_ips` of a `dns_rr_srv`. -/
def dns_rr_srv.num_ips (dc : dns_rr_srv) : Nat :=
  match dc.ss_s with
  | none => 0
  | some ips => ips.length

/-- What the dispatcher and the resolvers it calls directly get from the rest
of the code base and from the system, none of it among the sources: the
string helpers, the name cache read, the configuration, the resolver library,
the DNS SRV queries, and the two network resolvers `resolve_wins` and
`name_resolve_bcast`, whose answer is whatever the network says.
`interpret_string_addr` gives its boolean result and the address it leaves in
its out parameter; `next_token_talloc` gives the tokens that the successive
calls with `LIST_SEP` cut from a string; an entry `none` of `getaddrinfo` is a
result without `ai_addr`. -/
structure ResolveEnv where
  is_ipaddress : String → Bool
  interpret_string_addr : String → Nat → Bool × sockaddr_storage
  namecache_fetch : String → Nat → Option (List ip_service)
  next_token_talloc : String → List String
  strequal : String → String → Bool
  dns_hosts_file : Option String
  resolve_dns_hosts_file_as_sockaddr : String → String → NTSTATUS × List sockaddr_storage
  getaddrinfo : String → List (Option sockaddr_storage)
  get_dyn_LMHOSTSFILE : String
  resolve_lmhosts_file_as_sockaddr : String → String → Nat → NTSTATUS × List sockaddr_storage
  ads_dns_query_pdc : String → NTSTATUS × List dns_rr_srv
  ads_dns_query_dcs : String → Option String → NTSTATUS × List dns_rr_srv
  ads_dns_query_kdcs : String → Option String → NTSTATUS × List dns_rr_srv
  resolve_wins : String → Nat → NTSTATUS × List sockaddr_storage
  name_resolve_bcast : String → Nat → NTSTATUS × List sockaddr_storage

/-- The C function `convert_ss2service(return_iplist, ss_list, count)`: `none`
is the result `false`, which leaves `*return_iplist` as it was. -/
def convert_ss2service (ss_list : List sockaddr_storage) : Option (List ip_service) :=
  if ss_list.length = 0 then none
  else some (ss_list.map (fun ss => { ss := ss, port := PORT_NONE }))

/-- The C function `resolve_lmhosts`: the status and `*return_iplist`. -/
def resolve_lmhosts (env : ResolveEnv) (name : String) (name_type : Nat) :
    NTSTATUS × List ip_service :=
  let r := env.resolve_lmhosts_file_as_sockaddr env.get_dyn_LMHOSTSFILE name name_type
  if r.1 = NT_STATUS_OK then
    match convert_ss2service r.2 with
    | some iplist => (NT_STATUS_OK, iplist)
    | none => (NT_STATUS_NO_MEMORY, [])
  else (r.1, [])

/-- The loop `for (res = ailist; res; res = res->ai_next)` of `resolve_hosts`:
a result without address is skipped, every other one is appended with
`PORT_NONE`. -/
def resolve_hosts_collect : List (Option sockaddr_storage) → List ip_service
  | [] => []
  | none :: rest => resolve_hosts_collect rest
  | some ss :: rest => { ss := ss, port := PORT_NONE } :: resolve_hosts_collect rest

/-- The C function `resolve_hosts`: the status and `*return_iplist`. -/
def resolve_hosts (env : ResolveEnv) (name : String) (name_type : Nat) :
    NTSTATUS × List ip_service :=
  if name_type ≠ 0x20 ∧ name_type ≠ 0x0 then (NT_STATUS_INVALID_PARAMETER, [])
  else
    match env.dns_hosts_file with
    | some dns_hosts_file =>
      let r := env.resolve_dns_hosts_file_as_sockaddr dns_hosts_file name
      if r.1 = NT_STATUS_OK then
        match convert_ss2service r.2 with
        | some iplist => (NT_STATUS_OK, iplist)
        | none => (NT_STATUS_NO_MEMORY, [])
      else (NT_STATUS_UNSUCCESSFUL, [])
    | none =>
      let iplist := resolve_hosts_collect (env.getaddrinfo name)
      if iplist.length ≠ 0 then (NT_STATUS_OK, iplist) else (NT_STATUS_UNSUCCESSFUL, [])

/-- The entry `r` that one round of the unrolling loop of `resolve_ads` has
filled is counted, `(*return_count)++`, only when its address is not zero;
otherwise the next round writes over it. -/
def ads_count_entry (out : List ip_service) (ss : sockaddr_storage) (port : Nat) :
    List ip_service :=
  if !is_zero_addr ss then out ++ [{ ss := ss, port := port }] else out

/-- The loop `while (i < numdcs && (*return_count < numaddrs))` of
`resolve_ads`; `out` holds the `*return_count` entries counted so far. Every
round raises `i` or `j`, and a target takes at most `num_ips + 1` rounds, so
`numaddrs + numdcs` units of fuel are enough. -/
def ads_unroll (env : ResolveEnv) (dcs : List dns_rr_srv) (numaddrs : Nat) :
    Nat → Nat → Nat → List ip_service → List ip_service
  | 0, _, _, out => out
  | fuel + 1, i, j, out =>
    if i < dcs.length ∧ out.length < numaddrs then
      match (dcs.getD i default).ss_s with
      | none =>
        ads_unroll env dcs numaddrs fuel (i + 1) 0
          (ads_count_entry out
            (env.interpret_string_addr (dcs.getD i default).hostname 0).2
            (dcs.getD i default).port)
      | some ips =>
        if j ≥ ips.length then ads_unroll env dcs numaddrs fuel (i + 1) 0 out
        else
          ads_unroll env dcs numaddrs fuel i (j + 1)
            (ads_count_entry out (ips.getD j default) (dcs.getD i default).port)
    else out

/-- The C function `resolve_ads`: the status and the `*return_count` entries of
`*return_iplist`. `SMB_MALLOC_ARRAY` (not among the sources) returns a null
pointer for a count of 0, so an SRV answer without target, for which
`numaddrs` is 0, ends in `NT_STATUS_NO_MEMORY`. -/
def resolve_ads (env : ResolveEnv) (name : String) (name_type : Nat)
    (sitename : Option String) : NTSTATUS × List ip_service :=
  if name_type ≠ 0x1c ∧ name_type ≠ KDC_NAME_TYPE ∧ name_type ≠ 0x1b then
    (NT_STATUS_INVALID_PARAMETER, [])
  else
    let r :=
      if name_type = 0x1b then env.ads_dns_query_pdc name
      else if name_type = 0x1c then env.ads_dns_query_dcs name sitename
      else if name_type = KDC_NAME_TYPE then env.ads_dns_query_kdcs name sitename
      else (NT_STATUS_INVALID_PARAMETER, [])
    if r.1 ≠ NT_STATUS_OK then (r.1, [])
    else
      let numaddrs := (r.2.map (fun dc => max dc.num_ips 1)).sum
      if numaddrs = 0 then (NT_STATUS_NO_MEMORY, [])
      else (NT_STATUS_OK, ads_unroll env r.2 numaddrs (numaddrs + r.2.length) 0 0 [])

/-- The resolution backends `internal_resolve_name` can call. -/
inductive Backend where
  | hosts | kdc | ads | lmhosts | wins | bcast
deriving DecidableEq, Repr

/-- What `internal_resolve_name` does that is seen from outside, in order: the
read of the name cache, the call of a backend with the name type it is given,
and the write to the name cache. -/
inductive Event where
  | namecache_fetch (name : String) (name_type : Nat)
  | backend (b : Backend) (name_type : Nat)
  | namecache_store (name : String) (name_type : Nat) (count : Nat)
      (iplist : List ip_service)
deriving DecidableEq, Repr

/-- The outcome of `internal_resolve_name`: the status, `*return_iplist` (its
`*return_count` entries), `*return_count`, and what it did. -/
structure Resolved where
  status : NTSTATUS
  return_iplist : List ip_service
  return_count : Nat
  events : List Event
deriving DecidableEq, Repr

/-- The code of `internal_resolve_name` from the label `done` on: duplicates are
removed when the count is not zero, the list is handed to `namecache_store`,
and `status` is returned. -/
def resolve_done (name : String) (name_type : Nat) (status : NTSTATUS)
    (iplist : List ip_service) (events : List Event) : Resolved :=
  let deduped :=
    if iplist.length ≠ 0 then
      ((remove_duplicate_addrs2 iplist iplist.length).1.take
          (remove_duplicate_addrs2 iplist iplist.length).2,
        (remove_duplicate_addrs2 iplist iplist.length).2)
    else (iplist, iplist.length)
  { status := status
    return_iplist := deduped.1
    return_count := deduped.2
    events := events ++ [Event.namecache_store name name_type deduped.2 deduped.1] }

/-- The loop `while (next_token_talloc(frame, &ptr, &tok, LIST_SEP))` of
`internal_resolve_name` over the tokens left, and what follows it. -/
def resolve_tokens (env : ResolveEnv) (name : String) (sitename : Option String) :
    List String → Nat → List Event → Resolved
  | [], _, events =>
    { status := NT_STATUS_UNSUCCESSFUL, return_iplist := [], return_count := 0,
      events := events }
  | tok :: rest, name_type, events =>
    if env.strequal tok "host" || env.strequal tok "hosts" then
      if (resolve_hosts env name name_type).1 = NT_STATUS_OK then
        resolve_done name name_type NT_STATUS_OK (resolve_hosts env name name_type).2
          (events ++ [Event.backend Backend.hosts name_type])
      else
        resolve_tokens env name sitename rest name_type
          (events ++ [Event.backend Backend.hosts name_type])
    else if env.strequal tok "kdc" then
      if (resolve_ads env name KDC_NAME_TYPE sitename).1 = NT_STATUS_OK then
        resolve_done name KDC_NAME_TYPE NT_STATUS_OK
          (resolve_ads env name KDC_NAME_TYPE sitename).2
          (events ++ [Event.backend Backend.kdc KDC_NAME_TYPE])
      else
        resolve_tokens env name sitename rest name_type
          (events ++ [Event.backend Backend.kdc KDC_NAME_TYPE])
    else if env.strequal tok "ads" then
      if (resolve_ads env name name_type sitename).1 = NT_STATUS_OK then
        resolve_done name name_type NT_STATUS_OK (resolve_ads env name name_type sitename).2
          (events ++ [Event.backend Backend.ads name_type])
      else
        resolve_tokens env name sitename rest name_type
          (events ++ [Event.backend Backend.ads name_type])
    else if env.strequal tok "lmhosts" then
      if (resolve_lmhosts env name name_type).1 = NT_STATUS_OK then
        resolve_done name name_type NT_STATUS_OK (resolve_lmhosts env name name_type).2
          (events ++ [Event.backend Backend.lmhosts name_type])
      else
        resolve_tokens env name sitename rest name_type
          (events ++ [Event.backend Backend.lmhosts name_type])
    else if env.strequal tok "wins" then
      if name_type ≠ 0x1D then
        if (env.resolve_wins name name_type).1 = NT_STATUS_OK then
          match convert_ss2service (env.resolve_wins name name_type).2 with
          | some iplist =>
            resolve_done name name_type NT_STATUS_OK iplist
              (events ++ [Event.backend Backend.wins name_type])
          | none =>
            resolve_done name name_type NT_STATUS_NO_MEMORY []
              (events ++ [Event.backend Backend.wins name_type])
        else
          resolve_tokens env name sitename rest name_type
            (events ++ [Event.backend Backend.wins name_type])
      else resolve_tokens env name sitename rest name_type events
    else if env.strequal tok "bcast" then
      if (env.name_resolve_bcast name name_type).1 = NT_STATUS_OK then
        match convert_ss2service (env.name_resolve_bcast name name_type).2 with
        | some iplist =>
          resolve_done name name_type NT_STATUS_OK iplist
            (events ++ [Event.backend Backend.bcast name_type])
        | none =>
          resolve_done name name_type NT_STATUS_NO_MEMORY []
            (events ++ [Event.backend Backend.bcast name_type])
      else
        resolve_tokens env name sitename rest name_type
          (events ++ [Event.backend Backend.bcast name_type])
    else resolve_tokens env name sitename rest name_type events

/-- The C function `internal_resolve_name(name, name_type, sitename,
return_iplist, return_count, resolve_order)`. -/
def internal_resolve_name (env : ResolveEnv) (name : String) (name_type : Nat)
    (sitename : Option String) (resolve_order : String) : Resolved :=
  if env.is_ipaddress name then
    if !(env.interpret_string_addr name AI_NUMERICHOST).1 then
      { status := NT_STATUS_INVALID_PARAMETER, return_iplist := [], return_count := 0,
        events := [] }
    else
      { status := NT_STATUS_OK,
        return_iplist :=
          [{ ss := (env.interpret_string_addr name AI_NUMERICHOST).2, port := PORT_NONE }],
        return_count := 1, events := [] }
  else
    match env.namecache_fetch name name_type with
    | some iplist =>
      if iplist.length > 0 then
        { status := NT_STATUS_OK, return_iplist := iplist, return_count := iplist.length,
          events := [Event.namecache_fetch name name_type] }
      else
        { status := NT_STATUS_UNSUCCESSFUL, return_iplist := iplist,
          return_count := iplist.length, events := [Event.namecache_fetch name name_type] }
    | none =>
      if resolve_order = "NULL" then
        { status := NT_STATUS_INVALID_PARAMETER, return_iplist := [], return_count := 0,
          events := [Event.namecache_fetch name name_type] }
      else
        resolve_tokens env name sitename
          (env.next_token_talloc (if resolve_order = "" then "host" else resolve_order))
          name_type [Event.namecache_fetch name name_type]

/-- The backends a run has called, in order. -/
def Resolved.backends_invoked (r : Resolved) : List Backend :=
  r.events.filterMap (fun e => match e with
    | Event.backend b _ => some b
    | _ => none)

/-- The writes to the name cache a run has made, in order. -/
def Resolved.stores (r : Resolved) : List Event :=
  r.events.filter (fun e => match e with
    | Event.namecache_store _ _ _ _ => true
    | _ => false)

/-- The backend a token of the resolve order names, by the tests of the loop
of `internal_resolve_name` in their order; `none` for an unrecognised
token. -/
def token_backend (env : ResolveEnv) (tok : String) : Option Backend :=
  if env.strequal tok "host" || env.strequal tok "hosts" then some Backend.hosts
  else if env.strequal tok "kdc" then some Backend.kdc
  else if env.strequal tok "ads" then some Backend.ads
  else if env.strequal tok "lmhosts" then some Backend.lmhosts
  else if env.strequal tok "wins" then some Backend.wins
  else if env.strequal tok "bcast" then some Backend.bcast
  else none

/-- The status a backend returns for a lookup and the address list it hands
over, the addresses of the two network resolvers with `PORT_NONE`. -/
def backend_answer (env : ResolveEnv) (name : String) (name_type : Nat)
    (sitename : Option String) : Backend → NTSTATUS × List ip_service
  | Backend.hosts => resolve_hosts env name name_type
  | Backend.kdc => resolve_ads env name KDC_NAME_TYPE sitename
  | Backend.ads => resolve_ads env name name_type sitename
  | Backend.lmhosts => resolve_lmhosts env name name_type
  | Backend.wins =>
    ((env.resolve_wins name name_type).1,
      (env.resolve_wins name name_type).2.map (fun ss => { ss := ss, port := PORT_NONE }))
  | Backend.bcast =>
    ((env.name_resolve_bcast name name_type).1,
      (env.name_resolve_bcast name name_type).2.map (fun ss => { ss := ss, port := PORT_NONE }))

/-- The backends a resolve order asks for, in order: one for each recognised
token, except that `wins` is left out for the name type 0x1D. -/
def backend_plan (env : ResolveEnv) (name_type : Nat) (toks : List String) : List Backend :=
  (toks.filterMap (token_backend env)).filter
    (fun b => !(b = Backend.wins && name_type = 0x1D))

/-- Cut a string at the characters of `LIST_SEP` (blank, tab, comma, semicolon,
newline, carriage return): `cur` is the token being read, in reverse. -/
def split_list_sep : List Char → List Char → List String
  | [], cur => if cur.isEmpty then [] else [String.mk cur.reverse]
  | c :: rest, cur =>
    if c = ' ' ∨ c = '\t' ∨ c = ',' ∨ c = ';' ∨ c = '\n' ∨ c = '\r' then
      if cur.isEmpty then split_list_sep rest []
      else String.mk cur.reverse :: split_list_sep rest []
    else split_list_sep rest (c :: cur)

/-- A small network for concrete runs: `192.168.1.1` is the only literal
address, the name cache is empty, `fileserver` is known to the system resolver
as 10.0.0.5, `pc7` is in the lmhosts file as 10.0.0.7, the SRV lookup for the
domain controllers of `example.com` names `dc1.example.com` port 389 without
inline address and this host name does not resolve, and WINS and broadcast
find nothing. Tokens are compared as they are written. -/
def sample_env : ResolveEnv where
  is_ipaddress := fun s => s = "192.168.1.1"
  interpret_string_addr := fun s _ =>
    if s = "192.168.1.1" then (true, ⟨AF_INET, [192, 168, 1, 1]⟩) else (false, zero_sockaddr)
  namecache_fetch := fun _ _ => none
  next_token_talloc := fun s => split_list_sep s.data []
  strequal := fun a b => a = b
  dns_hosts_file := none
  resolve_dns_hosts_file_as_sockaddr := fun _ _ => (NT_STATUS_UNSUCCESSFUL, [])
  getaddrinfo := fun s => if s = "fileserver" then [some ⟨AF_INET, [10, 0, 0, 5]⟩] else []
  get_dyn_LMHOSTSFILE := "/etc/samba/lmhosts"
  resolve_lmhosts_file_as_sockaddr := fun _ s _ =>
    if s = "pc7" then (NT_STATUS_OK, [⟨AF_INET, [10, 0, 0, 7]⟩])
    else (NT_STATUS_DOMAIN_CONTROLLER_NOT_FOUND, [])
  ads_dns_query_pdc := fun _ => (NT_STATUS_UNSUCCESSFUL, [])
  ads_dns_query_dcs := fun s _ =>
    if s = "example.com" then (NT_STATUS_OK, [⟨"dc1.example.com", 389, none⟩])
    else (NT_STATUS_UNSUCCESSFUL, [])
  ads_dns_query_kdcs := fun _ _ => (NT_STATUS_UNSUCCESSFUL, [])
  resolve_wins := fun _ _ => (NT_STATUS_NOT_FOUND, [])
  name_resolve_bcast := fun _ _ => (NT_STATUS_NOT_FOUND, [])

/-- The event a call of backend `b` leaves: the `kdc` lookup passes
`KDC_NAME_TYPE`, every other one the name type of the request. -/
def backend_event (name_type : Nat) (b : Backend) : Event :=
  Event.backend b (if b = Backend.kdc then KDC_NAME_TYPE else name_type)

/-- The name type under which the answer of backend `b` goes to
`namecache_store`. -/
def store_name_type (name_type : Nat) (b : Backend) : Nat :=
  if b = Backend.kdc then KDC_NAME_TYPE else name_type

/-- The status `internal_resolve_name` returns once backend `b` has returned
`NT_STATUS_OK` with the list `iplist`: `NT_STATUS_NO_MEMORY` when
`convert_ss2service` refuses the empty answer of a network resolver. -/
def final_status (b : Backend) (iplist : List ip_service) : NTSTATUS :=
  if (b = Backend.wins ∨ b = Backend.bcast) ∧ iplist = [] then NT_STATUS_NO_MEMORY
  else NT_STATUS_OK

/-! ## Server affinity: saf_fetch and saf_delete -/

/-- Modelled from the spec: the store behind `gencache_get`, `gencache_set` and
`gencache_del` (lib/gencache.c, not among the sources), "a transactional
key-value store" in which "an expired entry is indistinguishable from
absence": the value, if any, that is live under each key. -/
structure gencache where
  live : String → Option String

/-- Modelled from the spec: `gencache_get(key, &value, &timeout)`, the value
live under the key, `none` for the result `false`. -/
def gencache_get (cache : gencache) (keystr : String) : Option String :=
  cache.live keystr

/-- The C function `saf_key`: `SAFKEY_FMT` filled with the domain and put in
upper case by `talloc_asprintf_strupper_m`, whose upper-casing `strupper_m` is
taken as given. -/
def saf_key (strupper_m : String → String) (domain : String) : String :=
  strupper_m ("SAF/DOMAIN/" ++ domain)

/-- The C function `saf_join_key`, with `SAFJOINKEY_FMT`. -/
def saf_join_key (strupper_m : String → String) (domain : String) : String :=
  strupper_m ("SAFJOIN/DOMAIN/" ++ domain)

/-- The C function `saf_fetch(domain)`; `none` is the null pointer, as argument
and as result. -/
def saf_fetch (strupper_m : String → String) (cache : gencache) (domain : Option String) :
    Option String :=
  match domain with
  | none => none
  | some d =>
    if d = "" then none
    else
      match gencache_get cache (saf_join_key strupper_m d) with
      | some server => some server
      | none => gencache_get cache (saf_key strupper_m d)

/-- The C `struct node_status` (smb.h, not among the sources): the name as a C
string, the bytes before its terminating NUL, the one-byte type and the
one-byte flags. -/
structure node_status where
  name : List Nat
  type : Nat
  flags : Nat
deriving DecidableEq, Repr

/-- The byte at offset `off` of the buffer `p`, `CVAL(p, off)`. The list holds
the bytes of the buffer; the functions that read through `CVAL` test first
that the offset is inside it. -/
def CVAL (p : List Nat) (off : Nat) : Nat :=
  p.getD off 0

/-- The `n` bytes of `p` from offset `off` on. -/
def bytes_at (p : List Nat) (off n : Nat) : List Nat :=
  (List.range n).map (fun k => CVAL p (off + k))

/-- Modelled from the spec: `StrnCpy(dest, src, n)` (lib/util, not among the
sources) copies at most `n` characters of the C string at `src`, so stops at
the first NUL, and terminates `dest`: the string `dest` then holds. -/
def StrnCpy (src : List Nat) (n : Nat) : List Nat :=
  (src.take n).takeWhile (fun c => c != 0)

/-- Modelled from the spec: `trim_char(s, '\0', ' ')` (lib/util, not among the
sources): "trailing spaces removed", nothing removed in front. -/
def trim_trailing_spaces (s : List Nat) : List Nat :=
  (s.reverse.dropWhile (fun c => c == 32)).reverse

/-- The record the loop of `parse_node_status` reads with `p` at offset `off`:
the name from the first 15 bytes, the type from byte 15, the flags from
byte 16. Byte 17 of the record is stepped over. -/
def parse_node_status_record (p : List Nat) (off : Nat) : node_status :=
  { name := trim_trailing_spaces (StrnCpy (bytes_at p off 15) 15)
    type := CVAL p (off + 15)
    flags := CVAL p (off + 16) }

/-- The loop `for (i = 0; i < *num_names; i++)` of `parse_node_status` with `n`
iterations left and `p` at offset `off`: the records read and the offset
`p` ends at. A round reads the bytes of the record up to byte 16; the result
is `none` when one of them is outside the buffer, of which the list `p`
holds all bytes. The code has no length to test this with. -/
def parse_node_status_loop (p : List Nat) : Nat → Nat → Option (List node_status × Nat)
  | 0, off => some ([], off)
  | n + 1, off =>
    if p.length < off + 17 then none
    else
      match parse_node_status_loop p n (off + 18) with
      | none => none
      | some (records, last) => some (parse_node_status_record p off :: records, last)

/-- The C function `parse_node_status(mem_ctx, p, num_names, extra)`: the
returned array (`none` for the null pointer), `*num_names`, and the MAC
address written to `extra` (`none` when nothing is written); `extra` says
whether the caller passes a non-null `extra`. The list `p` holds the bytes of
the buffer the pointer `p` points into (the `rdata` of the answer), and the
result is `none` where the code reads outside that buffer: the count byte of
an empty buffer, a record, or the six bytes of the MAC address. -/
def parse_node_status (p : List Nat) (extra : Bool) :
    Option (Option (List node_status) × Nat × Option (List Nat)) :=
  if p.length < 1 then none
  else if CVAL p 0 = 0 then some (none, 0, none)
  else
    match parse_node_status_loop p (CVAL p 0) 1 with
    | none => none
    | some (records, last) =>
      if extra then
        if p.length < last + 6 then none
        else some (some records, CVAL p 0, some (bytes_at p last 6))
      else some (some records, CVAL p 0, none)

/-- The flags of a record as the specification reads them, from the two flag
bytes 16 and 17 in network order. -/
def node_status_flags_as_specified (p : List Nat) (off : Nat) : Nat :=
  256 * CVAL p (off + 16) + CVAL p (off + 17)

/-! ## Requests, packets and name_query_recv -/

/-- The status `NT_STATUS_INTERNAL_ERROR`. -/
def NT_STATUS_INTERNAL_ERROR : NTSTATUS := NTSTATUS.other 0xC00000E5

/-- Modelled from the spec: `tevent_req_is_nterror(req, &status)` (tevent, not
among the sources). The state of a request is `none` while it is in
progress, `some NT_STATUS_OK` once `tevent_req_done` was called, and
`some status` after `tevent_req_nterror(req, status)` or, with
`NT_STATUS_IO_TIMEOUT`, after its end time passed. The result is the error
when there is one, `none` for the result `false`. -/
def tevent_req_is_nterror (req : Option NTSTATUS) : Option NTSTATUS :=
  match req with
  | none => some NT_STATUS_INTERNAL_ERROR
  | some NT_STATUS_OK => none
  | some status => some status

/-- Modelled from the spec: `tevent_req_nterror(req, status)` (tevent, not
among the sources): the request ends with the error `status`; nothing happens
for `NT_STATUS_OK`. The result is the state of the request afterwards. -/
def tevent_req_nterror (req : Option NTSTATUS) (status : NTSTATUS) : Option NTSTATUS :=
  if status = NT_STATUS_OK then req else some status

/-- The flag bits `nm_flags` of a NetBIOS name packet header (nameserv.h, not
among the sources). -/
structure nmb_flags where
  bcast : Bool
  recursion_available : Bool
  recursion_desired : Bool
  trunc : Bool
  authoritative : Bool
deriving DecidableEq, Repr, Inhabited

/-- The header of a NetBIOS name packet (nameserv.h, not among the sources). -/
structure nmb_header where
  name_trn_id : Int
  opcode : Nat
  response : Bool
  nm_flags : nmb_flags
  rcode : Nat
  qdcount : Nat
  ancount : Nat
  nscount : Nat
  arcount : Nat
deriving DecidableEq, Repr, Inhabited

/-- A resource record of a NetBIOS name packet (nameserv.h, not among the
sources). -/
structure res_rec where
  rr_type : Nat
  rdlength : Nat
  rdata : List Nat
deriving DecidableEq, Repr, Inhabited

/-- The part of `struct packet_struct` the name query code reads: the header
and the answer section (`none` for a null `answers`) of its `packet.nmb`. -/
structure packet_struct where
  header : nmb_header
  answers : Option res_rec
deriving DecidableEq, Repr, Inhabited

/-- Modelled from the spec: `packet_trn_id` (nmblib.c, not among the sources),
the "16-bit transaction ID" of a name packet. -/
def packet_trn_id (p : packet_struct) : Int :=
  p.header.name_trn_id

/-- The fields of `struct name_query_state` that the validator and
`name_query_recv` use. `addrs` is the array as allocated, of which the first
`num_addrs` entries are filled. -/
structure name_query_state where
  bcast : Bool
  validate_error : NTSTATUS
  flags : Nat
  addrs : List sockaddr_storage
  num_addrs : Nat
deriving DecidableEq, Repr

/-- What `name_query_recv` hands to its caller: the status and, on success,
`*addrs` (its `*num_addrs` entries), `*num_addrs` and `*flags`. On failure
the out parameters are left alone, shown as the empty list, 0 and `none`. -/
structure name_query_result where
  status : NTSTATUS
  addrs : List sockaddr_storage
  num_addrs : Nat
  flags : Option Nat
deriving DecidableEq, Repr

/-- The C function `name_query_recv(req, mem_ctx, addrs, num_addrs, flags)` for
a request in the state `req`; `qsort` and `ifs` are what `sort_addr_list`
needs. -/
def name_query_recv
    (qsort : (sockaddr_storage → sockaddr_storage → Int) →
      List sockaddr_storage → List sockaddr_storage)
    (ifs : Interfaces) (req : Option NTSTATUS) (state : name_query_state) :
    name_query_result :=
  let status :=
    match tevent_req_is_nterror req with
    | some status =>
      if state.bcast ∧ status = NT_STATUS_IO_TIMEOUT then NT_STATUS_OK else status
    | none => NT_STATUS_OK
  if status ≠ NT_STATUS_OK then
    { status := status, addrs := [], num_addrs := 0, flags := none }
  else if state.num_addrs = 0 then
    { status := NT_STATUS_NOT_FOUND, addrs := [], num_addrs := 0, flags := none }
  else
    { status := NT_STATUS_OK,
      addrs := sort_addr_list qsort ifs (state.addrs.take state.num_addrs),
      num_addrs := state.num_addrs,
      flags := some state.flags }

/-! ## sock_packet_read -/

/-- The fields of `struct sock_packet_read_state` that decide how a read ends:
`reader_req` and `socket_req` say whether the request to the packet reader
and the `recvfrom` on the socket are pending, `req` is the state of the read
request itself. The validator is taken as a test on the packet. -/
structure sock_packet_read_state where
  trn_id : Int
  reader : Bool
  reader_req : Bool
  socket_req : Bool
  validator : Option (packet_struct → Bool)
  packet : Option packet_struct
  req : Option NTSTATUS

/-- What `recvfrom_recv` and `parse_packet` (not among the sources) give for
one completed `recvfrom`: the byte count (-1 on error), the error as
`map_nt_error_from_unix` maps it, the family of the sender's address, and the
packet `parse_packet` makes of the datagram, `none` when it cannot be
parsed. -/
structure recvfrom_result where
  received : Int
  err : NTSTATUS
  ss_family : Nat
  parsed : Option packet_struct

/-- The C function `sock_packet_read_send`: the state of the read it starts;
`reader` says whether a packet reader is passed. -/
def sock_packet_read_send (reader : Bool) (trn_id : Int)
    (validator : Option (packet_struct → Bool)) : sock_packet_read_state :=
  { trn_id := trn_id, reader := reader, reader_req := reader, socket_req := true,
    validator := validator, packet := none, req := none }

/-- The test `(state->validator != NULL) && !state->validator(packet, ...)`. -/
def validator_rejects (validator : Option (packet_struct → Bool)) (p : packet_struct) : Bool :=
  match validator with
  | none => false
  | some v => !v p

/-- The code of `sock_packet_read_got_socket` from the label `retry` on: the
packet is freed and a new `recvfrom` is started. -/
def sock_packet_read_retry (state : sock_packet_read_state) : sock_packet_read_state :=
  { state with packet := none, socket_req := true }

/-- The callback `sock_packet_read_got_socket` for the completed `recvfrom`
`r`. -/
def sock_packet_read_got_socket (state : sock_packet_read_state) (r : recvfrom_result) :
    sock_packet_read_state :=
  if r.received = -1 then
    if state.reader_req then { state with socket_req := false }
    else { state with socket_req := false, req := tevent_req_nterror state.req r.err }
  else if r.ss_family ≠ AF_INET then
    sock_packet_read_retry { state with socket_req := false }
  else
    match r.parsed with
    | none => sock_packet_read_retry { state with socket_req := false, packet := none }
    | some p =>
      if state.trn_id ≠ -1 ∧ state.trn_id ≠ packet_trn_id p then
        sock_packet_read_retry { state with socket_req := false, packet := some p }
      else if validator_rejects state.validator p then
        sock_packet_read_retry { state with socket_req := false, packet := some p }
      else { state with socket_req := false, packet := some p, req := some NT_STATUS_OK }

/-- The callback `sock_packet_read_got_packet` for the result `status` of
`nb_packet_read_recv`, which on success has put `p` in `state->packet`. -/
def sock_packet_read_got_packet (state : sock_packet_read_state) (status : NTSTATUS)
    (p : packet_struct) : sock_packet_read_state :=
  if status ≠ NT_STATUS_OK then
    if state.socket_req then { state with reader_req := false }
    else { state with reader_req := false, req := tevent_req_nterror state.req status }
  else if validator_rejects state.validator p then
    { state with packet := none, reader_req := true }
  else
    { state with reader_req := false, packet := some p, socket_req := false,
                 req := some NT_STATUS_OK }

/-- What can happen to a pending read: the `recvfrom` on the socket completes,
or the packet reader delivers. -/
inductive sock_event where
  | socket (r : recvfrom_result)
  | reader (status : NTSTATUS) (p : packet_struct)

/-- One event of a read: the callback of a sub-request runs when that
sub-request is pending and the read is still in progress. -/
def sock_packet_read_step (state : sock_packet_read_state) :
    sock_event → sock_packet_read_state
  | sock_event.socket r =>
    if state.req.isNone ∧ state.socket_req then sock_packet_read_got_socket state r
    else state
  | sock_event.reader status p =>
    if state.req.isNone ∧ state.reader_req then sock_packet_read_got_packet state status p
    else state

/-- A read started by `sock_packet_read_send` after the events `events`. -/
def sock_packet_read_run (reader : Bool) (trn_id : Int)
    (validator : Option (packet_struct → Bool)) (events : List sock_event) :
    sock_packet_read_state :=
  events.foldl sock_packet_read_step (sock_packet_read_send reader trn_id validator)

/-! ## name_query_validator and name_query_done -/

/-- The C `struct in_addr`: the four bytes of an IPv4 address. -/
structure in_addr where
  s_addr : List Nat
deriving DecidableEq, Repr, Inhabited

/-- Modelled from the spec: `in_addr_to_sockaddr_storage` (lib/util/util_net.c,
not among the sources): the IPv4 socket address with the given address. -/
def in_addr_to_sockaddr_storage (ip : in_addr) : sockaddr_storage :=
  { ss_family := AF_INET, addr := ip.s_addr }

/-- Modelled from the spec: the flag bits `NM_FLAGS_RS`, `NM_FLAGS_AA`,
`NM_FLAGS_TC`, `NM_FLAGS_RD`, `NM_FLAGS_RA` and `NM_FLAGS_B` (nameserv.h, not
among the sources). -/
def NM_FLAGS_RS : Nat := 0x80

/-- See `NM_FLAGS_RS`. -/
def NM_FLAGS_AA : Nat := 0x40

/-- See `NM_FLAGS_RS`. -/
def NM_FLAGS_TC : Nat := 0x20

/-- See `NM_FLAGS_RS`. -/
def NM_FLAGS_RD : Nat := 0x10

/-- See `NM_FLAGS_RS`. -/
def NM_FLAGS_RA : Nat := 0x08

/-- See `NM_FLAGS_RS`. -/
def NM_FLAGS_B : Nat := 0x01

/-- Modelled from the spec: `RSVAL(buf, pos)` (byteorder.h, not among the
sources), the 16-bit value stored at `pos` in network byte order. -/
def RSVAL (buf : List Nat) (pos : Nat) : Nat :=
  256 * CVAL buf pos + CVAL buf (pos + 1)

/-- Modelled from the spec: `talloc_realloc(ctx, ptr, type, n)` (talloc, not
among the sources). For `n = 0` it frees the array and returns a null
pointer, `none`; otherwise, allocation being taken to succeed, the array has
`n` entries, the old ones as far as they fit, the new ones not yet written
(shown as the default value). -/
def talloc_realloc (addrs : List sockaddr_storage) (n : Nat) :
    Option (List sockaddr_storage) :=
  if n = 0 then none
  else some (addrs.take n ++ List.replicate (n - addrs.length) default)

/-- The state `name_query_send` creates before it sends the query: the
structure is zeroed and `bcast` is filled in. -/
def name_query_send (bcast : Bool) : name_query_state :=
  { bcast := bcast, validate_error := NT_STATUS_OK, flags := 0, addrs := [], num_addrs := 0 }

/-- The search `for (j=0; j<state->num_addrs; j++)` of `name_query_validator`:
whether it ends with `j < state->num_addrs`, that is whether `addr` is among
the collected addresses. -/
def already_got (state : name_query_state) (addr : sockaddr_storage) : Bool :=
  (state.addrs.take state.num_addrs).any (fun a => sockaddr_equal addr a)

/-- The loop `for (i=0; i<nmb->answers->rdlength/6; i++)` of
`name_query_validator` from index `i` on, with the number of iterations left
as first argument; it carries the state and `got_unique_netbios_name`. -/
def name_query_validator_loop (rdata : List Nat) :
    Nat → Nat → name_query_state × Bool → name_query_state × Bool
  | 0, _, acc => acc
  | n + 1, i, (state, got_unique_netbios_name) =>
    let flags := RSVAL rdata (i * 6)
    let got := got_unique_netbios_name || ((flags &&& 0x8000) == 0)
    let addr := in_addr_to_sockaddr_storage { s_addr := bytes_at rdata (2 + i * 6) 4 }
    if already_got state addr then
      name_query_validator_loop rdata n (i + 1) (state, got)
    else
      name_query_validator_loop rdata n (i + 1)
        ({ state with addrs := state.addrs.set state.num_addrs addr,
                      num_addrs := state.num_addrs + 1 }, got)

/-- The six `state->flags |= ...` statements of `name_query_validator`. -/
def add_flags_back (flags : Nat) (header : nmb_header) : Nat :=
  let flags := if header.response then flags ||| NM_FLAGS_RS else flags
  let flags := if header.nm_flags.authoritative then flags ||| NM_FLAGS_AA else flags
  let flags := if header.nm_flags.trunc then flags ||| NM_FLAGS_TC else flags
  let flags := if header.nm_flags.recursion_desired then flags ||| NM_FLAGS_RD else flags
  let flags := if header.nm_flags.recursion_available then flags ||| NM_FLAGS_RA else flags
  if header.nm_flags.bcast then flags ||| NM_FLAGS_B else flags

/-- The C function `name_query_validator(p, state)`: whether the packet is
accepted, and the state afterwards. The result is `none` where the code
dereferences a null `nmb->answers`. When `talloc_realloc` returns a null
pointer, which it does for `num_addrs + rdlength/6 = 0`, the packet is
accepted with `validate_error = NT_STATUS_NO_MEMORY` and `state->addrs` is
not assigned. -/
def name_query_validator (p : packet_struct) (state : name_query_state) :
    Option (Bool × name_query_state) :=
  if p.header.opcode = 0 ∧ state.bcast = false ∧ p.header.rcode ≠ 0 then
    some (true, { state with validate_error := NT_STATUS_NOT_FOUND })
  else if p.header.opcode ≠ 0 ∨ p.header.nm_flags.bcast = true ∨ p.header.rcode ≠ 0 ∨
      p.header.ancount = 0 then
    some (false, state)
  else
    match p.answers with
    | none => none
    | some answers =>
      match talloc_realloc state.addrs (state.num_addrs + answers.rdlength / 6) with
      | none => some (true, { state with validate_error := NT_STATUS_NO_MEMORY })
      | some tmp_addrs =>
        let state := { state with addrs := tmp_addrs }
        let (state, got_unique_netbios_name) :=
          name_query_validator_loop answers.rdata (answers.rdlength / 6) 0 (state, false)
        let state := { state with flags := add_flags_back state.flags p.header }
        if state.bcast then some (got_unique_netbios_name, state)
        else some (true, state)

/-- The callback `name_query_done` for the result `status` of `nb_trans_recv`:
the state of the name query request afterwards. -/
def name_query_done (state : name_query_state) (status : NTSTATUS) : Option NTSTATUS :=
  if status ≠ NT_STATUS_OK then tevent_req_nterror none status
  else if state.validate_error ≠ NT_STATUS_OK then tevent_req_nterror none state.validate_error
  else some NT_STATUS_OK

/-- A negative name query response with return code 3, "the name requested
does not exist". -/
def negative_response : packet_struct :=
  { header := { name_trn_id := 1, opcode := 0, response := true,
                nm_flags := { bcast := false, recursion_available := true,
                              recursion_desired := true, trunc := false,
                              authoritative := true },
                rcode := 3, qdcount := 0, ancount := 0, nscount := 0, arcount := 0 },
    answers := none }

/-- What `name_query_recv` returns for a query to a WINS server that the
server answers with the one packet `p`: the validator accepts or rejects
it; when accepted the transaction ends with success and `name_query_done`
runs, otherwise the query runs into its end time. -/
def wins_query_outcome
    (qsort : (sockaddr_storage → sockaddr_storage → Int) →
      List sockaddr_storage → List sockaddr_storage)
    (ifs : Interfaces) (p : packet_struct) : Option name_query_result :=
  match name_query_validator p (name_query_send false) with
  | none => none
  | some (true, state) =>
    some (name_query_recv qsort ifs (name_query_done state NT_STATUS_OK) state)
  | some (false, state) =>
    some (name_query_recv qsort ifs (some NT_STATUS_IO_TIMEOUT) state)

/-! ## query_wins_list -/

/-- The fields of `struct query_wins_list_state` the engine uses, the state
`req` of its request, and what it has done so far: `queried` lists the
destinations of its `name_query_send` calls, `died` the servers it has
reported to `wins_srv_died`, both in order. -/
structure query_wins_list_state where
  servers : List in_addr
  num_servers : Nat
  server : sockaddr_storage
  num_sent : Nat
  addrs : List sockaddr_storage
  num_addrs : Nat
  flags : Nat
  req : Option NTSTATUS
  queried : List sockaddr_storage
  died : List in_addr
deriving DecidableEq, Repr

/-- The C function `query_wins_list_send`: the state of the request it
returns. -/
def query_wins_list_send (servers : List in_addr) : query_wins_list_state :=
  if servers.length = 0 then
    { servers := servers, num_servers := servers.length, server := default, num_sent := 0,
      addrs := [], num_addrs := 0, flags := 0,
      req := some NT_STATUS_NOT_FOUND, queried := [], died := [] }
  else
    { servers := servers, num_servers := servers.length,
      server := in_addr_to_sockaddr_storage (servers.getD 0 default),
      num_sent := 1, addrs := [], num_addrs := 0, flags := 0, req := none,
      queried := [in_addr_to_sockaddr_storage (servers.getD 0 default)], died := [] }

/-- The callback `query_wins_list_done`, run when the pending name query has
ended; `r` is what `name_query_recv` returns for it. -/
def query_wins_list_done (state : query_wins_list_state) (r : name_query_result) :
    query_wins_list_state :=
  if r.status = NT_STATUS_OK then
    { state with addrs := r.addrs, num_addrs := r.num_addrs, flags := r.flags.getD state.flags,
                 req := some NT_STATUS_OK }
  else if r.status ≠ NT_STATUS_IO_TIMEOUT then
    { state with req := some r.status }
  else if state.num_sent = state.num_servers then
    { state with died := state.died ++ [state.servers.getD (state.num_sent - 1) default],
                 req := some NT_STATUS_NOT_FOUND }
  else
    { state with died := state.died ++ [state.servers.getD (state.num_sent - 1) default],
                 server := in_addr_to_sockaddr_storage (state.servers.getD state.num_sent default),
                 queried := state.queried ++
                   [in_addr_to_sockaddr_storage (state.servers.getD state.num_sent default)],
                 num_sent := state.num_sent + 1 }

/-- The event loop around the engine: as long as the request is in progress
the pending name query, the `num_sent`-th, ends with the outcome
`reply (num_sent - 1)` and the callback runs. One unit of fuel is one name
query; `num_servers` units are enough. -/
def query_wins_list_loop (reply : Nat → name_query_result) :
    Nat → query_wins_list_state → query_wins_list_state
  | 0, state => state
  | fuel + 1, state =>
    match state.req with
    | some _ => state
    | none =>
      query_wins_list_loop reply fuel (query_wins_list_done state (reply (state.num_sent - 1)))

/-- A run of the sequential engine on the server list `servers`, the `k`-th
name query it sends ending with the outcome `reply k`. -/
def query_wins_list (servers : List in_addr) (reply : Nat → name_query_result) :
    query_wins_list_state :=
  query_wins_list_loop reply servers.length (query_wins_list_send servers)

/-- The C function `query_wins_list_recv`: the status and, on success, the
addresses, their number and the flags. -/
def query_wins_list_recv (state : query_wins_list_state) : name_query_result :=
  match tevent_req_is_nterror state.req with
  | some status => { status := status, addrs := [], num_addrs := 0, flags := none }
  | none =>
    { status := NT_STATUS_OK, addrs := state.addrs, num_addrs := state.num_addrs,
      flags := some state.flags }

/-- Two WINS servers, W1 and W2. -/
def sample_wins_servers : List in_addr :=
  [{ s_addr := [10, 0, 0, 1] }, { s_addr := [10, 0, 0, 2] }]

/-- The outcome of a name query that ran into its end time. -/
def timeout_outcome : name_query_result :=
  { status := NT_STATUS_IO_TIMEOUT, addrs := [], num_addrs := 0, flags := none }

/-- The outcome of a name query that a WINS server answered with a negative
response. -/
def not_found_outcome : name_query_result :=
  { status := NT_STATUS_NOT_FOUND, addrs := [], num_addrs := 0, flags := none }

/-- The outcome of a name query answered with the address 192.168.1.10. -/
def found_outcome : name_query_result :=
  { status := NT_STATUS_OK, addrs := [{ ss_family := AF_INET, addr := [192, 168, 1, 10] }],
    num_addrs := 1, flags := some 0 }

/-! ## name_queries -/

/-- The fields of `struct name_queries_state` the engine uses, the state `req`
of its request, and what it has done so far. A sub-request pointer is shown
as a number, the name query sent when `num_sent` is `k` being number `k`;
`subreqs` is the array of `num_addrs` pointers as allocated, `none` for a
null pointer. `wakeup` says whether a wakeup request is pending, and `sent`
lists the indices into `addrs` the name queries went to, in order. -/
structure name_queries_state where
  addrs : List sockaddr_storage
  num_addrs : Nat
  subreqs : List (Option Nat)
  num_received : Nat
  num_sent : Nat
  received_index : Nat
  result_addrs : List sockaddr_storage
  num_result_addrs : Nat
  flags : Nat
  wakeup : Bool
  sent : List Nat
  req : Option NTSTATUS
deriving DecidableEq, Repr

/-- The code that `name_queries_send` and `name_queries_next` share: a name
query is sent to `addrs[num_sent]`, its pointer is put into
`subreqs[num_sent]`, `num_sent` is raised, and a wakeup request is started
when `num_sent < num_addrs`. -/
def name_queries_issue (state : name_queries_state) : name_queries_state :=
  { state with
    subreqs := state.subreqs.set state.num_sent (some state.num_sent),
    sent := state.sent ++ [state.num_sent],
    num_sent := state.num_sent + 1,
    wakeup := decide (state.num_sent + 1 < state.num_addrs) }

/-- The C function `name_queries_send` for the destinations `addrs`: the state
of the request it returns. -/
def name_queries_send (addrs : List sockaddr_storage) : name_queries_state :=
  name_queries_issue
    { addrs := addrs, num_addrs := addrs.length,
      subreqs := List.replicate addrs.length none,
      num_received := 0, num_sent := 0, received_index := 0,
      result_addrs := [], num_result_addrs := 0, flags := 0,
      wakeup := false, sent := [], req := none }

/-- The search `for (i=0; i<state->num_sent; i++)` of `name_queries_done` from
index `i` on, with the number of iterations left as first argument: the
index at which it stops. -/
def find_subreq (subreqs : List (Option Nat)) (subreq : Nat) : Nat → Nat → Nat
  | 0, i => i
  | n + 1, i =>
    if subreqs.getD i none = some subreq then i else find_subreq subreqs subreq n (i + 1)

/-- The callback `name_queries_done` for the sub-request `subreq`; `r` is what
`name_query_recv` returns for it. -/
def name_queries_done (state : name_queries_state) (subreq : Nat) (r : name_query_result) :
    name_queries_state :=
  let state :=
    if r.status = NT_STATUS_OK then
      { state with result_addrs := r.addrs, num_result_addrs := r.num_addrs,
                   flags := r.flags.getD state.flags }
    else state
  let i := find_subreq state.subreqs subreq state.num_sent 0
  if i = state.num_sent then
    { state with req := tevent_req_nterror state.req NT_STATUS_INTERNAL_ERROR }
  else
    let state :=
      { state with subreqs := state.subreqs.set i none,
                   num_received := state.num_received + 1 }
    if r.status ≠ NT_STATUS_OK then
      if state.num_received ≥ state.num_addrs then
        { state with req := tevent_req_nterror state.req r.status }
      else state
    else { state with received_index := i, req := some NT_STATUS_OK }

/-- The callback `name_queries_next` of the wakeup request; `wakeup_ok` is the
result of `tevent_wakeup_recv`. -/
def name_queries_next (state : name_queries_state) (wakeup_ok : Bool) : name_queries_state :=
  if !wakeup_ok then
    { state with wakeup := false,
                 req := tevent_req_nterror state.req NT_STATUS_INTERNAL_ERROR }
  else name_queries_issue { state with wakeup := false }

/-- What `name_queries_recv` hands to its caller: the status and, on success,
the out parameters. -/
structure name_queries_result where
  status : NTSTATUS
  result_addrs : List sockaddr_storage
  num_result_addrs : Nat
  flags : Option Nat
  received_index : Option Nat
deriving DecidableEq, Repr

/-- The C function `name_queries_recv`. -/
def name_queries_recv (state : name_queries_state) : name_queries_result :=
  match tevent_req_is_nterror state.req with
  | some status =>
    { status := status, result_addrs := [], num_result_addrs := 0, flags := none,
      received_index := none }
  | none =>
    { status := NT_STATUS_OK, result_addrs := state.result_addrs,
      num_result_addrs := state.num_result_addrs, flags := some state.flags,
      received_index := some state.received_index }

/-- What can happen to a pending `name_queries` request: the name query
`subreq` ends, `r` being what `name_query_recv` returns for it, or the wakeup
request ends. -/
inductive name_queries_event where
  | done (subreq : Nat) (r : name_query_result)
  | next (wakeup_ok : Bool)
deriving DecidableEq, Repr

/-- One event of a `name_queries` request: the callback of a sub-request runs
when that sub-request is pending and the request is still in progress (the
caller frees the request, and with it the sub-requests, as soon as it has
ended). -/
def name_queries_step (state : name_queries_state) : name_queries_event → name_queries_state
  | name_queries_event.done subreq r =>
    if state.req = none ∧ some subreq ∈ state.subreqs then name_queries_done state subreq r
    else state
  | name_queries_event.next wakeup_ok =>
    if state.req = none ∧ state.wakeup = true then name_queries_next state wakeup_ok
    else state

/-- A request started by `name_queries_send` after the events `events`. -/
def name_queries (addrs : List sockaddr_storage) (events : List name_queries_event) :
    name_queries_state :=
  events.foldl name_queries_step (name_queries_send addrs)

/-- Two destinations of a name query, 10.0.0.255 and 10.0.1.255. -/
def sample_destinations : List sockaddr_storage :=
  [{ ss_family := AF_INET, addr := [10, 0, 0, 255] },
   { ss_family := AF_INET, addr := [10, 0, 1, 255] }]

/-! ## idmap_autorid: the id ranges -/

/-- The C `struct autorid_global_config`; the three fields are `uint32_t`. -/
structure autorid_global_config where
  minvalue : Nat
  rangesize : Nat
  maxranges : Nat
deriving DecidableEq, Repr

/-- The arithmetic of `uint32_t`: a value is kept modulo 2^32. -/
def uint32 (n : Nat) : Nat :=
  n % 4294967296

/-- The C `enum id_mapping` (idmap.h, not among the sources). -/
inductive id_mapping where
  | ID_UNKNOWN | ID_MAPPED | ID_UNMAPPED | ID_EXPIRED
deriving DecidableEq, Repr

/-- The part of `struct dom_sid` (dom_sid.h, not among the sources) that the
mapping uses: the sub-authorities, the last of which is the RID. -/
structure dom_sid where
  sub_auths : List Nat
deriving DecidableEq, Repr

/-- Modelled from the spec: `sid_peek_rid(sid, &rid)` (libcli/security, not
among the sources) reads the last sub-authority; `none` is the result
`false`, for a SID without sub-authority, which leaves `rid` unset. -/
def sid_peek_rid (sid : dom_sid) : Option Nat :=
  sid.sub_auths.getLast?

/-- Modelled from the spec: `sid_compose(dst, domain_sid, rid)`
(libcli/security, not among the sources): the domain SID with `rid` appended. -/
def sid_compose (domain_sid : dom_sid) (rid : Nat) : dom_sid :=
  { sub_auths := domain_sid.sub_auths ++ [rid] }

/-- The fields of `struct id_map` the two lookups read and write: the SID, the
id `xid.id`, and the status. -/
structure id_map where
  sid : dom_sid
  id : Nat
  status : id_mapping
deriving DecidableEq, Repr

/-- The C function `idmap_autorid_sid_to_id(global, domain, map)`, with
`domainnum` for `domain->domainnum`: the status and the map afterwards. The
result is `none` where the code reads a `rid` that `sid_peek_rid` has not
set. -/
def idmap_autorid_sid_to_id (global : autorid_global_config) (domainnum : Nat) (map : id_map) :
    Option (NTSTATUS × id_map) :=
  match sid_peek_rid map.sid with
  | none => none
  | some rid =>
    if rid ≥ global.rangesize then
      some (NT_STATUS_UNSUCCESSFUL, { map with status := id_mapping.ID_UNKNOWN })
    else
      some (NT_STATUS_OK,
        { map with
          id := uint32 (uint32 (global.minvalue + uint32 (global.rangesize * domainnum)) + rid),
          status := id_mapping.ID_MAPPED })

/-- What `idmap_autorid_id_to_sid` has done: the status it returns, the map
afterwards, and the keys it has fetched from the database, in order. -/
structure id_to_sid_result where
  status : NTSTATUS
  map : id_map
  fetched : List String
deriving DecidableEq, Repr

/-- The C function `idmap_autorid_id_to_sid(cfg, map)`. `autorid_db` is the
database as `dbwrap_fetch_bystring` reads it (`none` for a null `dptr`) and
`string_to_sid` the parser of the stored string, neither among the sources.
The result is `none` where the code divides by a `rangesize` of 0. -/
def idmap_autorid_id_to_sid (autorid_db : String → Option String)
    (string_to_sid : String → dom_sid) (cfg : autorid_global_config) (map : id_map) :
    Option id_to_sid_result :=
  if map.id < cfg.minvalue then
    some { status := NT_STATUS_OK, map := { map with status := id_mapping.ID_UNKNOWN },
           fetched := [] }
  else if map.id > uint32 (cfg.minvalue + uint32 (cfg.rangesize * cfg.maxranges)) then
    some { status := NT_STATUS_OK, map := { map with status := id_mapping.ID_UNKNOWN },
           fetched := [] }
  else if cfg.rangesize = 0 then none
  else
    let range := uint32 (map.id - cfg.minvalue) / cfg.rangesize
    let keystr := toString range
    match autorid_db keystr with
    | none =>
      some { status := NT_STATUS_OK, map := { map with status := id_mapping.ID_UNKNOWN },
             fetched := [keystr] }
    | some data =>
      some { status := NT_STATUS_OK,
             map := { map with
               sid := sid_compose (string_to_sid data)
                 (uint32 (uint32 (map.id - cfg.minvalue) - uint32 (range * cfg.rangesize))),
               status := id_mapping.ID_MAPPED },
             fetched := [keystr] }

/-- The configuration `idmap_autorid_initialize` computes from the id range
`low_id`..`high_id` of the idmap domain and the `rangesize` parameter, before
it compares it with the stored one: `none` where it refuses the parameters
with `NT_STATUS_INVALID_PARAMETER`, for a `rangesize` below 2000 or an id
range smaller than `rangesize`. -/
def idmap_autorid_config (low_id high_id rangesize : Nat) : Option autorid_global_config :=
  if rangesize < 2000 then none
  else if uint32 (high_id + 4294967296 - low_id + 1) / rangesize = 0 then none
  else
    some { minvalue := low_id, rangesize := rangesize,
           maxranges := uint32 (high_id + 4294967296 - low_id + 1) / rangesize }

/-- The range number `idmap_autorid_id_to_sid` computes for an id that has
passed its two range checks. -/
def autorid_range (cfg : autorid_global_config) (id : Nat) : Nat :=
  uint32 (id - cfg.minvalue) / cfg.rangesize

/-! ## name_query_validator over a sequence of responses -/

/-- The responses `packets` handed to `name_query_validator` one after the
other, whatever it answers for each, from the state `state` on: the state
afterwards, `none` when a response makes the validator dereference a null
`answers`. -/
def name_query_validate_all : List packet_struct → name_query_state → Option name_query_state
  | [], state => some state
  | p :: rest, state =>
    match name_query_validator p state with
    | none => none
    | some (_, state1) => name_query_validate_all rest state1

/-- A positive name query response with three answer records, for 10.0.0.1,
again for 10.0.0.1, and for 10.0.0.2. -/
def positive_response : packet_struct :=
  { header := { name_trn_id := 1, opcode := 0, response := true,
                nm_flags := { bcast := false, recursion_available := true,
                              recursion_desired := true, trunc := false,
                              authoritative := true },
                rcode := 0, qdcount := 0, ancount := 1, nscount := 0, arcount := 0 },
    answers := some { rr_type := 0x20, rdlength := 18,
                      rdata := [0, 0, 10, 0, 0, 1, 0, 0, 10, 0, 0, 1, 0, 0, 10, 0, 0, 2] } }

/-! ## name_resolve_bcast_send -/

/-- The loop `for (i=0; i<num_addrs; i++)` of `name_resolve_bcast_send` over the
broadcast addresses of the interfaces: those of family `AF_INET` are copied
to `bcast_addrs`, in order. -/
def bcast_addrs_loop : List sockaddr_storage → List sockaddr_storage
  | [] => []
  | pss :: rest =>
    if pss.ss_family ≠ AF_INET then bcast_addrs_loop rest
    else pss :: bcast_addrs_loop rest

/-- The C function `name_resolve_bcast_send`: the state of the request it
returns and, unless NetBIOS is disabled, the state of the `name_queries`
request it starts. `lp_disable_netbios` is the configuration switch. -/
def name_resolve_bcast_send (lp_disable_netbios : Bool) (ifs : Interfaces) :
    Option NTSTATUS × Option name_queries_state :=
  if lp_disable_netbios then (some NT_STATUS_INVALID_PARAMETER, none)
  else (none, some (name_queries_send (bcast_addrs_loop ifs.n_bcast)))

/-! ## regdb_key_exists -/

/-- The status `NT_STATUS_NO_LOGON_SERVERS`. -/
def NT_STATUS_NO_LOGON_SERVERS : NTSTATUS := NTSTATUS.other 0xC000005E

/-- Modelled from the spec: `LDAP_PORT` (smb.h, not among the sources). -/
def LDAP_PORT : Nat := 389

/-- The C `enum dc_lookup_type`. -/
inductive dc_lookup_type where
  | DC_NORMAL_LOOKUP | DC_ADS_ONLY | DC_KDC_ONLY
deriving DecidableEq, Repr

/-- What `get_dc_list` and `resolve_name` get, beyond `ResolveEnv`, from the
configuration and from helpers that are not among the sources:
`lp_security_ads` is `lp_security() == SEC_ADS`, `strstr` says whether the
needle occurs, `cache` is the cache `saf_fetch` reads, and `atoi` gives the
port as it is stored. -/
structure DcEnv where
  lp_name_resolve_order : String
  lp_workgroup : String
  lp_realm : String
  lp_passwordserver : String
  lp_security_ads : Bool
  strlower_m : String → String
  strupper_m : String → String
  strstr : String → String → Bool
  atoi : String → Nat
  cache : gencache
  sitename_fetch : String → Option String
  is_broadcast_addr : sockaddr_storage → Bool
  print_sockaddr : sockaddr_storage → String
  check_negative_conn_cache : String → String → NTSTATUS

/-- A write to `return_iplist[index]` where the array was allocated with `size`
entries and `index` is not below `size`. -/
structure out_of_bounds where
  index : Nat
  size : Nat
deriving DecidableEq, Repr

/-- The C function `resolve_name(name, return_ss, name_type, prefer_ipv4)`:
`*return_ss` when it returns true, `none` when it returns false. -/
def resolve_name (env : ResolveEnv) (dc : DcEnv) (name : String) (name_type : Nat)
    (prefer_ipv4 : Bool) : Option sockaddr_storage :=
  if env.is_ipaddress name then
    if (env.interpret_string_addr name AI_NUMERICHOST).1 then
      some (env.interpret_string_addr name AI_NUMERICHOST).2
    else none
  else
    let r := internal_resolve_name env name name_type (dc.sitename_fetch dc.lp_realm)
      dc.lp_name_resolve_order
    if r.status = NT_STATUS_OK then
      let ss_list := r.return_iplist.take r.return_count
      let first_ipv4 :=
        if prefer_ipv4 then
          ss_list.find? (fun e => !is_zero_addr e.ss && !dc.is_broadcast_addr e.ss &&
            e.ss.ss_family == AF_INET)
        else none
      match first_ipv4 with
      | some e => some e.ss
      | none =>
        match ss_list.find? (fun e => !is_zero_addr e.ss && !dc.is_broadcast_addr e.ss) with
        | some e => some e.ss
        | none => none
    else none

/-- The variables of `get_dc_list` that its first loop over the preferred
server list sets. -/
structure dc_count_state where
  num_addresses : Nat
  done_auto_lookup : Bool
  auto_ip_list : List ip_service
  auto_count : Nat
deriving DecidableEq, Repr

/-- The first loop of `get_dc_list` over the tokens of `pserver`: the first `*`
makes the auto lookup and adds its count when it succeeds, every other token,
a further `*` included, adds one. -/
def dc_count (env : ResolveEnv) (domain : String) (sitename : Option String)
    (resolve_order : String) : List String → dc_count_state → dc_count_state
  | [], st => st
  | name :: rest, st =>
    if !st.done_auto_lookup && env.strequal name "*" then
      let r := internal_resolve_name env domain 0x1C sitename resolve_order
      dc_count env domain sitename resolve_order rest
        { num_addresses :=
            if r.status = NT_STATUS_OK then st.num_addresses + r.return_count
            else st.num_addresses,
          done_auto_lookup := true,
          auto_ip_list := r.return_iplist,
          auto_count := r.return_count }
    else
      dc_count env domain sitename resolve_order rest
        { st with num_addresses := st.num_addresses + 1 }

/-- The variables of `get_dc_list` that its second loop sets: the array
`return_iplist`, allocated with `num_addresses` entries, `local_count`, and
`*ordered`. -/
structure dc_fill_state where
  return_iplist : List ip_service
  local_count : Nat
  ordered : Bool
deriving DecidableEq, Repr

/-- The two assignments to `return_iplist[local_count]` followed by
`local_count++`; an index outside the array is reported. -/
def dc_write (st : dc_fill_state) (e : ip_service) : Except out_of_bounds dc_fill_state :=
  if st.local_count < st.return_iplist.length then
    Except.ok { st with return_iplist := st.return_iplist.set st.local_count e,
                        local_count := st.local_count + 1 }
  else Except.error { index := st.local_count, size := st.return_iplist.length }

/-- The loop `for (j=0; j<auto_count; j++)` of `get_dc_list` over the entries
of the auto lookup still to copy. -/
def dc_copy_auto (dc : DcEnv) (domain : String) :
    List ip_service → dc_fill_state → Except out_of_bounds dc_fill_state
  | [], st => Except.ok st
  | e :: rest, st =>
    if dc.check_negative_conn_cache domain (dc.print_sockaddr e.ss) ≠ NT_STATUS_OK then
      dc_copy_auto dc domain rest st
    else
      match dc_write st e with
      | Except.error oob => Except.error oob
      | Except.ok st1 => dc_copy_auto dc domain rest st1

/-- The handling of the `address:port` syntax in `get_dc_list`: `strchr(name,
':')` cuts the name at its first colon; the result is the name and, when
there is a colon, the string after it. -/
def split_port (name : String) : String × Option String :=
  match name.data.dropWhile (fun c => c != ':') with
  | [] => (name, none)
  | _ :: port_str => (String.mk (name.data.takeWhile (fun c => c != ':')), some (String.mk port_str))

/-- The second loop of `get_dc_list`,
`while ((local_count<num_addresses) && next_token_talloc(...))`, over the
tokens of `pserver` still to read. -/
def dc_fill (env : ResolveEnv) (dc : DcEnv) (domain : String) (num_addresses : Nat)
    (auto : dc_count_state) :
    List String → dc_fill_state → Except out_of_bounds dc_fill_state
  | [], st => Except.ok st
  | name :: rest, st =>
    if ¬ st.local_count < num_addresses then Except.ok st
    else if env.strequal name "*" then
      match dc_copy_auto dc domain (auto.auto_ip_list.take auto.auto_count) st with
      | Except.error oob => Except.error oob
      | Except.ok st1 => dc_fill env dc domain num_addresses auto rest st1
    else
      let port :=
        match (split_port name).2 with
        | some port_str => dc.atoi port_str
        | none => if dc.lp_security_ads then LDAP_PORT else PORT_NONE
      match resolve_name env dc (split_port name).1 0x20 true with
      | none => dc_fill env dc domain num_addresses auto rest st
      | some name_ss =>
        if dc.check_negative_conn_cache domain (dc.print_sockaddr name_ss) ≠ NT_STATUS_OK then
          dc_fill env dc domain num_addresses auto rest st
        else
          match dc_write st { ss := name_ss, port := port } with
          | Except.error oob => Except.error oob
          | Except.ok st1 =>
            dc_fill env dc domain num_addresses auto rest { st1 with ordered := true }

/-- What `get_dc_list` hands to its caller: the status, `*ip_list` (its
`*count` entries), `*count` and `*ordered`. -/
structure dc_list where
  status : NTSTATUS
  ip_list : List ip_service
  count : Nat
  ordered : Bool
deriving DecidableEq, Repr

/-- The exits of `get_dc_list` that return what `internal_resolve_name` gives
for `DOMAIN<0x1c>`, through the label `out`, which clears the list on
failure. -/
def dc_list_of_resolved (r : Resolved) (ordered : Bool) : dc_list :=
  if r.status = NT_STATUS_OK then
    { status := NT_STATUS_OK, ip_list := r.return_iplist.take r.return_count,
      count := r.return_count, ordered := ordered }
  else { status := r.status, ip_list := [], count := 0, ordered := ordered }

/-- The resolve order `get_dc_list` uses and the value it gives `*ordered`
before it reads the preferred servers. -/
def dc_resolve_order (dc : DcEnv) (lookup_type : dc_lookup_type) : String × Bool :=
  match lookup_type with
  | dc_lookup_type.DC_ADS_ONLY =>
    if dc.strstr (dc.strlower_m dc.lp_name_resolve_order) "host" then ("ads", true)
    else ("NULL", false)
  | dc_lookup_type.DC_KDC_ONLY => ("kdc", true)
  | dc_lookup_type.DC_NORMAL_LOOKUP => (dc.strlower_m dc.lp_name_resolve_order, false)

/-- The preferred server list `pserver` of `get_dc_list`: the server affinity
entry, then the `password server` setting for the own workgroup or realm and
`*` for any other domain. -/
def dc_pserver (env : ResolveEnv) (dc : DcEnv) (domain : String) : String :=
  if env.strequal domain dc.lp_workgroup || env.strequal domain dc.lp_realm then
    (saf_fetch dc.strupper_m dc.cache (some domain)).getD "" ++ ", " ++ dc.lp_passwordserver
  else (saf_fetch dc.strupper_m dc.cache (some domain)).getD "" ++ ", *"

/-- The code of `get_dc_list` after its second loop: duplicates are removed,
IPv4 entries are moved to the front, and the status says whether an entry is
left. -/
def dc_finish (st : dc_fill_state) : dc_list :=
  let deduped :=
    if st.local_count ≠ 0 then remove_duplicate_addrs2 st.return_iplist st.local_count
    else (st.return_iplist, st.local_count)
  let return_iplist :=
    if deduped.2 ≠ 0 then (prioritize_ipv4_list deduped.1 deduped.2).2 else deduped.1
  if deduped.2 ≠ 0 then
    { status := NT_STATUS_OK, ip_list := return_iplist.take deduped.2, count := deduped.2,
      ordered := st.ordered }
  else
    { status := NT_STATUS_NO_LOGON_SERVERS, ip_list := [], count := 0, ordered := st.ordered }

/-- The C function `get_dc_list(domain, sitename, ip_list, count, lookup_type,
ordered)`; the result is an error where the second loop writes outside
`return_iplist`. -/
def get_dc_list (env : ResolveEnv) (dc : DcEnv) (domain : String) (sitename : Option String)
    (lookup_type : dc_lookup_type) : Except out_of_bounds dc_list :=
  let resolve_order := (dc_resolve_order dc lookup_type).1
  let ordered := (dc_resolve_order dc lookup_type).2
  let pserver := dc_pserver env dc domain
  if pserver = "" then
    Except.ok (dc_list_of_resolved
      (internal_resolve_name env domain 0x1C sitename resolve_order) ordered)
  else
    let auto := dc_count env domain sitename resolve_order (env.next_token_talloc pserver)
      { num_addresses := 0, done_auto_lookup := false, auto_ip_list := [], auto_count := 0 }
    if auto.num_addresses = 0 then
      if auto.done_auto_lookup then
        Except.ok { status := NT_STATUS_NO_LOGON_SERVERS, ip_list := [], count := 0,
                    ordered := ordered }
      else
        Except.ok (dc_list_of_resolved
          (internal_resolve_name env domain 0x1C sitename resolve_order) ordered)
    else
      match dc_fill env dc domain auto.num_addresses auto (env.next_token_talloc pserver)
          { return_iplist := List.replicate auto.num_addresses default, local_count := 0,
            ordered := ordered } with
      | Except.error oob => Except.error oob
      | Except.ok st => Except.ok (dc_finish st)

/-- What the inner loop of the first pass leaves of entry `e` when it is
compared with entry `x`. -/
def zap_if (x e : ip_service) : ip_service :=
  if same_addr_port x e then { e with ss := zero_sockaddr } else e

/-- The array after the first pass, entry by entry: the head stays, and when it
is not zero the entries after it that match it are zeroed before the pass goes
on with them. -/
def mark : Nat → List ip_service → List ip_service
  | 0, l => l
  | _ + 1, [] => []
  | n + 1, x :: xs =>
    x :: mark n (if is_zero_addr x.ss then xs else xs.map (zap_if x))

/-- The result of the second pass on an array `pre ++ mid ++ tail` whose
entries `mid` are still to be looked at. -/
def compact_ok (pre mid tail : List ip_service) (r : List ip_service × Nat) : Prop :=
  r.1.take r.2 = pre ++ mid.filter (fun e => !is_zero_addr e.ss) ∧
  r.2 = pre.length + (mid.filter (fun e => !is_zero_addr e.ss)).length ∧
  r.1.length = pre.length + mid.length + tail.length

/-- Whether a non-zero entry of `earlier` matches `e`. -/
def hits (earlier : List ip_service) (e : ip_service) : Bool :=
  earlier.any (fun p => !is_zero_addr p.ss && same_addr_port p e)

/-- What the first pass has done to entry `e` once the entries `earlier` have
been the `i` of the outer loop: zeroed when a non-zero one of them matches. -/
def zap_by (earlier : List ip_service) (e : ip_service) : ip_service :=
  if hits earlier e then { e with ss := zero_sockaddr } else e

/-- What a run of the token loop comes to: either some backend of the plan is
the first to return `NT_STATUS_OK`, and the loop has called the backends up to
it and gone to `done` with its answer, or every backend of the plan failed and
all of them were called. -/
def loop_outcome (env : ResolveEnv) (name : String) (name_type : Nat)
    (sitename : Option String) (plan : List Backend) (events : List Event)
    (r : Resolved) : Prop :=
  (∃ pre b post, plan = pre ++ b :: post ∧
      (∀ x ∈ pre, (backend_answer env name name_type sitename x).1 ≠ NT_STATUS_OK) ∧
      (backend_answer env name name_type sitename b).1 = NT_STATUS_OK ∧
      r = { status := final_status b (backend_answer env name name_type sitename b).2,
            return_iplist := dedup (backend_answer env name name_type sitename b).2,
            return_count := (dedup (backend_answer env name name_type sitename b).2).length,
            events := events ++ (pre ++ [b]).map (backend_event name_type) ++
              [Event.namecache_store name (store_name_type name_type b)
                (dedup (backend_answer env name name_type sitename b).2).length
                (dedup (backend_answer env name name_type sitename b).2)] }) ∨
  ((∀ x ∈ plan, (backend_answer env name name_type sitename x).1 ≠ NT_STATUS_OK) ∧
    r = { status := NT_STATUS_UNSUCCESSFUL, return_iplist := [], return_count := 0,
          events := events ++ plan.map (backend_event name_type) })

/-- What holds of a read for the transaction id `t` throughout: when it has
ended with success, the packet it returns has passed the validator, and it
carries `t` or is one of the packets `Q` that the packet reader handed
over. -/
def read_matches (t : Int) (validator : Option (packet_struct → Bool))
    (Q : packet_struct → Prop) (s : sock_packet_read_state) : Prop :=
  s.trn_id = t ∧ s.validator = validator ∧
    (s.req = some NT_STATUS_OK →
      ∃ p, s.packet = some p ∧ validator_rejects validator p = false ∧
        (packet_trn_id p = t ∨ Q p))

/-- What holds of the sequential engine between two name queries: it is in
progress, has sent `num_sent` queries, to the first `num_sent` servers in
order, and has reported all of them but the last as dead. -/
def wins_in_progress (servers : List in_addr) (s : query_wins_list_state) : Prop :=
  s.servers = servers ∧ s.num_servers = servers.length ∧ 1 ≤ s.num_sent ∧
  s.num_sent ≤ servers.length ∧
  s.queried = (servers.take s.num_sent).map in_addr_to_sockaddr_storage ∧
  s.died = servers.take (s.num_sent - 1) ∧ s.req = none

/-- How a run of the sequential engine has ended when the `k`-th name query was
the last one: the first `k + 1` servers were queried, in order; after a
timeout of the last one all servers are dead and the result is
`NT_STATUS_NOT_FOUND`; after any other outcome the `k` servers before it are
dead and the result is that outcome. -/
def wins_ended_at (servers : List in_addr) (reply : Nat → name_query_result) (k : Nat)
    (r : query_wins_list_state) : Prop :=
  r.queried = (servers.take (k + 1)).map in_addr_to_sockaddr_storage ∧
  ((reply k).status = NT_STATUS_IO_TIMEOUT →
    k + 1 = servers.length ∧ r.died = servers ∧ r.req = some NT_STATUS_NOT_FOUND) ∧
  ((reply k).status ≠ NT_STATUS_IO_TIMEOUT →
    r.died = servers.take k ∧ r.req = some (reply k).status ∧
    ((reply k).status = NT_STATUS_OK →
      r.addrs = (reply k).addrs ∧ r.num_addrs = (reply k).num_addrs))

/-- The addresses of an SRV target: its inline addresses, or the one address
looked up for its hostname when it has no inline address list. -/
def target_addrs (env : ResolveEnv) (dc : dns_rr_srv) : List sockaddr_storage :=
  match dc.ss_s with
  | none => [(env.interpret_string_addr dc.hostname 0).2]
  | some ips => ips

/-- The entries of an SRV target from its `j`-th address on: one for each
address that is not zero, with the port of the target. -/
def target_entries (env : ResolveEnv) (dc : dns_rr_srv) (j : Nat) : List ip_service :=
  (((target_addrs env dc).drop j).filter (fun ss => !is_zero_addr ss)).map
    (fun ss => { ss := ss, port := dc.port })

/-- The entries of a list of SRV targets, target after target. -/
def unrolled_targets (env : ResolveEnv) : List dns_rr_srv → List ip_service
  | [] => []
  | dc :: rest => target_entries env dc 0 ++ unrolled_targets env rest

/-- The entries the unrolling loop has still to produce when it is at address
`j` of the first target of `rest`. -/
def unroll_rest (env : ResolveEnv) (rest : List dns_rr_srv) (j : Nat) : List ip_service :=
  match rest with
  | [] => []
  | dc :: tl => target_entries env dc j ++ unrolled_targets env tl

/-- The room the count `numaddrs` leaves for the targets `rest` from address
`j` of the first on. -/
def unroll_room (rest : List dns_rr_srv) (j : Nat) : Nat :=
  match rest with
  | [] => 0
  | dc :: tl => (max dc.num_ips 1 - j) + (tl.map (fun d => max d.num_ips 1)).sum

/-- The number of rounds the unrolling loop makes at most for the targets
`rest` from address `j` of the first on. -/
def unroll_rounds (rest : List dns_rr_srv) (j : Nat) : Nat :=
  match rest with
  | [] => 0
  | dc :: tl => (dc.num_ips + 1 - j) + (tl.map (fun d => d.num_ips + 1)).sum

/-- The SRV query `resolve_ads` makes for a name type, `none` for a name type
it refuses. -/
def ads_dns_query (env : ResolveEnv) (name : String) (name_type : Nat)
    (sitename : Option String) : Option (NTSTATUS × List dns_rr_srv) :=
  if name_type = 0x1b then some (env.ads_dns_query_pdc name)
  else if name_type = 0x1c then some (env.ads_dns_query_dcs name sitename)
  else if name_type = KDC_NAME_TYPE then some (env.ads_dns_query_kdcs name sitename)
  else none

/-- The network `sample_env` with another SRV answer for the domain controllers
of `example.com`: `dc1.example.com`, port 389, with the inline addresses
10.0.0.1, 0.0.0.0 and 10.0.0.2; `dc2.example.com`, port 3268, without inline
address, which resolves to 10.0.0.3; and `dc3.example.com`, port 389, without
inline address, which does not resolve. -/
def srv_env : ResolveEnv :=
  { sample_env with
    interpret_string_addr := fun s _ =>
      if s = "dc2.example.com" then (true, ⟨AF_INET, [10, 0, 0, 3]⟩) else (false, zero_sockaddr)
    ads_dns_query_dcs := fun s _ =>
      if s = "example.com" then
        (NT_STATUS_OK,
          [⟨"dc1.example.com", 389,
              some [⟨AF_INET, [10, 0, 0, 1]⟩, ⟨AF_INET, [0, 0, 0, 0]⟩, ⟨AF_INET, [10, 0, 0, 2]⟩]⟩,
           ⟨"dc2.example.com", 3268, none⟩,
           ⟨"dc3.example.com", 389, none⟩])
      else (NT_STATUS_UNSUCCESSFUL, []) }

/-- The number of non-null pointers in the array `subreqs`. -/
def outstanding (subreqs : List (Option Nat)) : Nat :=
  (subreqs.filter Option.isSome).length

/-- What holds of a `name_queries` request for the destinations `addrs` at
any time: the array `subreqs` has `num_addrs` entries, between one and
`num_addrs` name queries have been sent, the pointer in slot `i`, if any, is
that of the name query number `i` and `i < num_sent`, every name query sent
has either ended or is pending, and a wakeup request is pending only while
name queries remain to be sent. -/
def name_queries_ok (addrs : List sockaddr_storage) (s : name_queries_state) : Prop :=
  s.num_addrs = addrs.length ∧ s.subreqs.length = s.num_addrs ∧
  1 ≤ s.num_sent ∧ s.num_sent ≤ s.num_addrs ∧
  (∀ i x, s.subreqs.getD i none = some x → x = i ∧ i < s.num_sent) ∧
  s.num_received + outstanding s.subreqs = s.num_sent ∧
  (s.wakeup = true → s.num_sent < s.num_addrs)

/-- The request for `addrs` has failed with `status` in the course of
`events`: at some event the name query `subreq`, then pending and the last
one still to end of `num_addrs` queries sent, ended with `status`. -/
def name_queries_failed_at (addrs : List sockaddr_storage) (events : List name_queries_event)
    (status : NTSTATUS) : Prop :=
  ∃ pre subreq r post, events = pre ++ name_queries_event.done subreq r :: post ∧
    (name_queries addrs pre).req = none ∧ some subreq ∈ (name_queries addrs pre).subreqs ∧
    r.status = status ∧ (name_queries addrs pre).num_sent = addrs.length ∧
    (name_queries addrs pre).num_received + 1 = addrs.length

/-- The request for `addrs` has succeeded in the course of `events`: at some
event the name query `subreq`, then pending while the request was in
progress, ended with success. -/
def name_queries_succeeded_at (addrs : List sockaddr_storage)
    (events : List name_queries_event) : Prop :=
  ∃ pre subreq r post, events = pre ++ name_queries_event.done subreq r :: post ∧
    (name_queries addrs pre).req = none ∧ some subreq ∈ (name_queries addrs pre).subreqs ∧
    r.status = NT_STATUS_OK

/-- An interface as `interface.c` (not among the sources) keeps it: its own
address and its broadcast address, which is what `iface_n_bcast` returns. -/
structure iface_struct where
  ip : sockaddr_storage
  bcast : sockaddr_storage

/-- The interface table `addr_compare` sees for the interfaces `ifaces`. -/
def interfaces_of (ifaces : List iface_struct) (is_local : sockaddr_storage → Bool) :
    Interfaces :=
  { n_bcast := ifaces.map (fun i => i.bcast), is_local := is_local }

/-- The numbers of leading bits `ss` shares with each of the addresses `addrs`
that has the family of `ss`, IPv4 or IPv6. -/
def matching_bits (addrs : List sockaddr_storage) (ss : sockaddr_storage) : List Nat :=
  (addrs.filter (fun pss =>
      decide (pss.ss_family = ss.ss_family) && decide (iface_addr_len pss.ss_family ≠ 0))).map
    (fun pss => matching_len_bits (addr_bytes (iface_addr_len pss.ss_family) ss)
      (addr_bytes (iface_addr_len pss.ss_family) pss))

/-- The largest number of a list, 0 for the empty list. -/
def list_max (l : List Nat) : Nat :=
  l.foldr max 0

/-- The score of an address as the specification words it: the largest number
of leading bits it has in common with the address of a configured interface
of its family (0 without such an interface), plus 32 for IPv4 or 128 for
IPv6 when the address is local. -/
def score_as_specified (ifaces : List iface_struct) (is_local : sockaddr_storage → Bool)
    (a : sockaddr_storage) : Nat :=
  list_max (matching_bits (ifaces.map (fun i => i.ip)) a)
    + (if is_local a then (if a.ss_family = AF_INET then 32 else 128) else 0)

/-- The addresses a name query has collected: `addrs[0..num_addrs)`. -/
def collected (state : name_query_state) : List sockaddr_storage :=
  state.addrs.take state.num_addrs

/-- The addresses in the answer data of a response: one for each of the
`rdlength/6` records of six bytes, from the last four bytes of the record. -/
def answer_addrs (p : packet_struct) : List sockaddr_storage :=
  match p.answers with
  | none => []
  | some answers =>
    (List.range (answers.rdlength / 6)).map (fun i =>
      in_addr_to_sockaddr_storage { s_addr := bytes_at answers.rdata (2 + i * 6) 4 })

/-- What holds of the collected addresses throughout, `Q` saying where an
address may come from: they fit into the array, no address is equal, as
`sockaddr_equal` compares, to one collected before it, and each is an IPv4
address for which `Q` holds. -/
def collected_ok (Q : sockaddr_storage → Prop) (state : name_query_state) : Prop :=
  state.num_addrs ≤ state.addrs.length ∧
  (collected state).Pairwise (fun x y => sockaddr_equal y x = false) ∧
  ∀ a ∈ collected state, a.ss_family = AF_INET ∧ Q a

/-- The network `sample_env` with a WINS server that knows two domain
controllers of the workgroup `EXAMPLE`, 10.0.0.1 and 10.0.0.2. -/
def dc_sample_env : ResolveEnv :=
  { sample_env with
    resolve_wins := fun name name_type =>
      if name = "EXAMPLE" ∧ name_type = 0x1C then
        (NT_STATUS_OK, [⟨AF_INET, [10, 0, 0, 1]⟩, ⟨AF_INET, [10, 0, 0, 2]⟩])
      else (NT_STATUS_NOT_FOUND, []) }

/-- Whether the characters `needle` are the first characters of `s`. -/
def starts_with : List Char → List Char → Bool
  | [], _ => true
  | _ :: _, [] => false
  | a :: needle, b :: s => a == b && starts_with needle s

/-- Whether the characters `needle` occur in `s`. -/
def occurs_in (needle : List Char) : List Char → Bool
  | [] => needle.isEmpty
  | c :: s => starts_with needle (c :: s) || occurs_in needle s

/-- A configuration for concrete runs: the workgroup `EXAMPLE`, the realm
`EXAMPLE.COM`, the name resolve order "wins", the `password server` setting
`passwordserver`, an empty server affinity cache and an empty negative
connection cache. -/
def dc_sample (passwordserver : String) : DcEnv :=
  { lp_name_resolve_order := "wins",
    lp_workgroup := "EXAMPLE",
    lp_realm := "EXAMPLE.COM",
    lp_passwordserver := passwordserver,
    lp_security_ads := false,
    strlower_m := fun s => s,
    strupper_m := fun s => s,
    strstr := fun haystack needle => occurs_in needle.data haystack.data,
    atoi := fun s => (s.toNat?).getD 0,
    cache := { live := fun _ => none },
    sitename_fetch := fun _ => none,
    is_broadcast_addr := fun _ => false,
    print_sockaddr := fun ss => toString ss.addr,
    check_negative_conn_cache := fun _ _ => NT_STATUS_OK }

/-! ## Facts about the modelled address helpers -/

theorem AF_INET_ne_AF_INET6 : AF_INET ≠ AF_INET6 := by decide

theorem sockaddr_equal_iff (a b : sockaddr_storage) :
    sockaddr_equal a b = true ↔
      a.ss_family = b.ss_family ∧
        ((a.ss_family = AF_INET6 ∧ addr_bytes 16 a = addr_bytes 16 b) ∨
         (a.ss_family = AF_INET ∧ addr_bytes 4 a = addr_bytes 4 b)) := by
  have hne := AF_INET_ne_AF_INET6
  unfold sockaddr_equal
  by_cases h1 : a.ss_family = b.ss_family
  · rw [if_neg (not_not.mpr h1)]
    by_cases h6 : a.ss_family = AF_INET6
    · have h4 : ¬ a.ss_family = AF_INET := fun h => hne (h.symm.trans h6)
      rw [if_pos h6, beq_iff_eq]
      exact ⟨fun h => ⟨h1, Or.inl ⟨h6, h⟩⟩, fun h => h.2.elim (fun x => x.2) (fun x => absurd x.1 h4)⟩
    · rw [if_neg h6]
      by_cases h4 : a.ss_family = AF_INET
      · rw [if_pos h4, beq_iff_eq]
        exact ⟨fun h => ⟨h1, Or.inr ⟨h4, h⟩⟩,
          fun h => h.2.elim (fun x => absurd x.1 h6) (fun x => x.2)⟩
      · rw [if_neg h4]
        exact ⟨fun h => absurd h (by simp),
          fun h => h.2.elim (fun x => absurd x.1 h6) (fun x => absurd x.1 h4)⟩
  · rw [if_pos h1]
    exact ⟨fun h => absurd h (by simp), fun h => absurd h.1 h1⟩

theorem is_zero_addr_iff (a : sockaddr_storage) :
    is_zero_addr a = true ↔
      (a.ss_family = AF_INET6 ∧ (addr_bytes 16 a).all (fun b => b == 0) = true) ∨
      (a.ss_family = AF_INET ∧ (addr_bytes 4 a).all (fun b => b == 0) = true) := by
  have hne := AF_INET_ne_AF_INET6
  unfold is_zero_addr
  by_cases h6 : a.ss_family = AF_INET6
  · have h4 : ¬ a.ss_family = AF_INET := fun h => hne (h.symm.trans h6)
    rw [if_pos h6]
    exact ⟨fun h => Or.inl ⟨h6, h⟩, fun h => h.elim (fun x => x.2) (fun x => absurd x.1 h4)⟩
  · rw [if_neg h6]
    by_cases h4 : a.ss_family = AF_INET
    · rw [if_pos h4]
      exact ⟨fun h => Or.inr ⟨h4, h⟩, fun h => h.elim (fun x => absurd x.1 h6) (fun x => x.2)⟩
    · rw [if_neg h4]
      exact ⟨fun h => absurd h (by simp),
        fun h => h.elim (fun x => absurd x.1 h6) (fun x => absurd x.1 h4)⟩

theorem sockaddr_equal_trans {a b c : sockaddr_storage}
    (hab : sockaddr_equal a b = true) (hbc : sockaddr_equal b c = true) :
    sockaddr_equal a c = true := by
  have hne := AF_INET_ne_AF_INET6
  rw [sockaddr_equal_iff] at *
  obtain ⟨h1, h⟩ := hab
  obtain ⟨h2, h'⟩ := hbc
  refine ⟨h1.trans h2, ?_⟩
  rcases h with ⟨ha, e⟩ | ⟨ha, e⟩ <;> rcases h' with ⟨hb, e'⟩ | ⟨hb, e'⟩
  · exact Or.inl ⟨ha, e.trans e'⟩
  · exact absurd (hb.symm.trans (h1.symm.trans ha)) hne
  · exact absurd (ha.symm.trans (h1.trans hb)) hne
  · exact Or.inr ⟨ha, e.trans e'⟩

theorem is_zero_addr_congr {a b : sockaddr_storage} (hab : sockaddr_equal a b = true) :
    is_zero_addr a = is_zero_addr b := by
  rw [sockaddr_equal_iff] at hab
  obtain ⟨h1, h⟩ := hab
  rw [Bool.eq_iff_iff, is_zero_addr_iff, is_zero_addr_iff, ← h1]
  rcases h with ⟨_, e⟩ | ⟨_, e⟩
  · constructor
    · rintro (⟨h, z⟩ | ⟨h, z⟩)
      · exact Or.inl ⟨h, e ▸ z⟩
      · exact absurd (h.symm.trans ‹a.ss_family = AF_INET6›) AF_INET_ne_AF_INET6
    · rintro (⟨h, z⟩ | ⟨h, z⟩)
      · exact Or.inl ⟨h, e.symm ▸ z⟩
      · exact absurd (h.symm.trans ‹a.ss_family = AF_INET6›) AF_INET_ne_AF_INET6
  · constructor
    · rintro (⟨h, z⟩ | ⟨h, z⟩)
      · exact absurd (‹a.ss_family = AF_INET›.symm.trans h) AF_INET_ne_AF_INET6
      · exact Or.inr ⟨h, e ▸ z⟩
    · rintro (⟨h, z⟩ | ⟨h, z⟩)
      · exact absurd (‹a.ss_family = AF_INET›.symm.trans h) AF_INET_ne_AF_INET6
      · exact Or.inr ⟨h, e.symm ▸ z⟩

theorem is_zero_addr_zero_sockaddr : is_zero_addr zero_sockaddr = true := by decide

theorem same_addr_port_trans {a b c : ip_service}
    (hab : same_addr_port a b = true) (hbc : same_addr_port b c = true) :
    same_addr_port a c = true := by
  unfold same_addr_port at *
  simp only [Bool.and_eq_true, beq_iff_eq] at *
  exact ⟨sockaddr_equal_trans hab.1 hbc.1, hab.2.trans hbc.2⟩

theorem same_addr_port_zero {a b : ip_service} (hab : same_addr_port a b = true) :
    is_zero_addr a.ss = is_zero_addr b.ss := by
  unfold same_addr_port at hab
  simp only [Bool.and_eq_true] at hab
  exact is_zero_addr_congr hab.1

/-! ## The two passes of remove_duplicate_addrs2 as list functions -/

theorem getD_length_append (pre suf : List ip_service) (x : ip_service) :
    (pre ++ x :: suf).getD pre.length default = x := by
  rw [List.getD_append_right _ _ _ _ (Nat.le_refl _)]
  simp

theorem dup_inner_spec (i : Nat) : ∀ (n : Nat) (pre suf : List ip_service),
    i < pre.length → n ≤ suf.length →
    dup_inner i n pre.length (pre ++ suf) =
      pre ++ (suf.take n).map (zap_if (pre.getD i default)) ++ suf.drop n := by
  intro n
  induction n with
  | zero => intro pre suf _ _; simp [dup_inner]
  | succ n ih =>
    intro pre suf hi hn
    match suf, hn with
    | x :: xs, hn =>
      have hn' : n ≤ xs.length := by simpa using hn
      have hget : (pre ++ x :: xs).getD i default = pre.getD i default :=
        List.getD_append _ _ _ _ hi
      have hstep : ∀ y : ip_service,
          dup_inner i n (pre.length + 1) (pre ++ y :: xs) =
            pre ++ y :: ((xs.take n).map (zap_if (pre.getD i default)) ++ xs.drop n) := by
        intro y
        have h := ih (pre ++ [y]) xs (by simp; omega) hn'
        have hg : (pre ++ [y]).getD i default = pre.getD i default :=
          List.getD_append _ _ _ _ hi
        simp only [List.length_append, List.length_singleton, List.append_assoc,
          List.singleton_append, hg] at h
        exact h
      unfold dup_inner
      rw [hget, getD_length_append]
      by_cases hs : same_addr_port (pre.getD i default) x = true
      · rw [if_pos hs, List.set_append_right _ _ (Nat.le_refl _)]
        simp only [Nat.sub_self, List.set_cons_zero]
        rw [hstep]
        simp only [List.take_succ_cons, List.map_cons, List.drop_succ_cons, zap_if, if_pos hs,
          List.append_assoc, List.cons_append]
      · rw [if_neg hs, hstep]
        simp only [List.take_succ_cons, List.map_cons, List.drop_succ_cons, zap_if, if_neg hs,
          List.append_assoc, List.cons_append]

theorem dup_outer_spec : ∀ (n : Nat) (pre suf : List ip_service),
    suf.length = n →
    dup_outer (pre.length + n) n pre.length (pre ++ suf) = pre ++ mark n suf := by
  intro n
  induction n with
  | zero => intro pre suf _; simp [dup_outer, mark]
  | succ n ih =>
    intro pre suf hn
    match suf, hn with
    | x :: xs, hn =>
      have hn' : xs.length = n := by simpa using hn
      unfold dup_outer
      rw [getD_length_append]
      have hcount : pre.length + (n + 1) = (pre ++ [x]).length + n := by simp; omega
      by_cases hz : is_zero_addr x.ss = true
      · rw [if_pos hz]
        have h := ih (pre ++ [x]) xs hn'
        simp only [List.append_assoc, List.singleton_append] at h
        rw [hcount, show pre.length + 1 = (pre ++ [x]).length by simp, h]
        simp [mark, hz]
      · rw [if_neg hz]
        have hin := dup_inner_spec pre.length n (pre ++ [x]) xs (by simp) (by omega)
        simp only [List.length_append, List.length_singleton, List.append_assoc,
          List.singleton_append] at hin
        have hx : (pre ++ [x]).getD pre.length default = x := by
          exact getD_length_append pre [] x
        rw [hx] at hin
        rw [show pre.length + (n + 1) - (pre.length + 1) = n by omega, hin]
        rw [List.take_of_length_le (by omega), List.drop_of_length_le (by omega)]
        have h := ih (pre ++ [x]) (xs.map (zap_if x)) (by simpa using hn')
        simp only [List.append_assoc, List.singleton_append, List.length_append,
          List.length_singleton] at h
        simp only [List.append_nil]
        rw [show pre.length + (n + 1) = pre.length + 1 + n by omega, h]
        simp [mark, hz]

theorem memmove_down_spec (pre xs tail : List ip_service) (x : ip_service) :
    ∃ t, memmove_down (pre ++ x :: xs ++ tail) pre.length xs.length = pre ++ xs ++ t ∧
      t.length = tail.length + 1 := by
  refine ⟨List.drop (pre.length + xs.length) (pre ++ x :: xs ++ tail), ?_, ?_⟩
  · unfold memmove_down
    have h1 : List.take pre.length (pre ++ x :: xs ++ tail) = pre := by
      rw [List.append_assoc]; exact List.take_left _ _
    have h2 : List.drop (pre.length + 1) (pre ++ x :: xs ++ tail) = xs ++ tail := by
      have := List.drop_left (pre ++ [x]) (xs ++ tail)
      simp
    rw [h1, h2, List.take_left]
  · simp only [List.length_drop, List.length_append, List.length_cons]
    omega

theorem dup_compact_move (fuel i count : Nat) (l : List ip_service) (h1 : i < count)
    (h2 : is_zero_addr (l.getD i default).ss = true) (h3 : i ≠ count - 1) :
    dup_compact (fuel + 1) i count l
      = dup_compact fuel i (count - 1) (memmove_down l i (count - i - 1)) := by
  rw [dup_compact, if_pos h1, if_pos h2, if_pos h3]

theorem dup_compact_last (fuel i count : Nat) (l : List ip_service) (h1 : i < count)
    (h2 : is_zero_addr (l.getD i default).ss = true) (h3 : ¬ i ≠ count - 1) :
    dup_compact (fuel + 1) i count l = dup_compact fuel i (count - 1) l := by
  rw [dup_compact, if_pos h1, if_pos h2, if_neg h3]

theorem dup_compact_next (fuel i count : Nat) (l : List ip_service) (h1 : i < count)
    (h2 : ¬ is_zero_addr (l.getD i default).ss = true) :
    dup_compact (fuel + 1) i count l = dup_compact fuel (i + 1) count l := by
  rw [dup_compact, if_pos h1, if_neg h2]

theorem dup_compact_spec : ∀ (mid pre tail : List ip_service),
    compact_ok pre mid tail
      (dup_compact mid.length pre.length (pre.length + mid.length) (pre ++ mid ++ tail)) := by
  intro mid
  induction mid with
  | nil =>
    intro pre tail
    simp only [compact_ok, List.length_nil, dup_compact, Nat.add_zero, List.append_nil,
      List.filter_nil, List.take_left, List.length_append, and_self]
  | cons x xs ih =>
    intro pre tail
    have hlt : pre.length < pre.length + (x :: xs).length := by simp
    have hget : (pre ++ x :: xs ++ tail).getD pre.length default = x := by
      rw [List.append_assoc]; exact getD_length_append pre _ x
    rw [List.length_cons] at hlt ⊢
    by_cases hz : is_zero_addr x.ss = true
    · have hz2 : is_zero_addr ((pre ++ x :: xs ++ tail).getD pre.length default).ss = true := by
        rw [hget]; exact hz
      by_cases hlast : pre.length ≠ pre.length + (xs.length + 1) - 1
      · rw [dup_compact_move _ _ _ _ hlt hz2 hlast]
        obtain ⟨t, ht, htl⟩ := memmove_down_spec pre xs tail x
        rw [show pre.length + (xs.length + 1) - pre.length - 1 = xs.length by omega, ht,
          show pre.length + (xs.length + 1) - 1 = pre.length + xs.length by omega]
        obtain ⟨h1, h2, h3⟩ := ih pre t
        refine ⟨?_, ?_, ?_⟩
        · rw [h1, List.filter_cons]; simp [hz]
        · rw [h2, List.filter_cons]; simp [hz]
        · rw [h3, htl, List.length_cons]; omega
      · rw [dup_compact_last _ _ _ _ hlt hz2 hlast]
        have hxs : xs = [] := by
          apply List.eq_nil_of_length_eq_zero
          omega
        subst hxs
        simp only [List.length_nil, dup_compact]
        refine ⟨?_, ?_, ?_⟩
        · simp only [List.filter_cons, hz, Bool.not_true, Bool.false_eq_true, if_false,
            List.filter_nil, List.append_nil]
          rw [show pre.length + (0 + 1) - 1 = pre.length by omega, List.append_assoc]
          exact List.take_left _ _
        · simp only [List.filter_cons, hz, Bool.not_true, Bool.false_eq_true, if_false,
            List.filter_nil, List.length_nil]
          omega
        · simp only [List.length_append, List.length_cons, List.length_nil]
    · have hz2 : ¬ is_zero_addr ((pre ++ x :: xs ++ tail).getD pre.length default).ss = true := by
        rw [hget]; exact hz
      rw [dup_compact_next _ _ _ _ hlt hz2]
      obtain ⟨h1, h2, h3⟩ := ih (pre ++ [x]) tail
      simp only [List.append_assoc, List.singleton_append, List.length_append,
        List.length_singleton, List.cons_append, List.nil_append] at h1 h2 h3
      have e1 : pre.length + (xs.length + 1) = pre.length + 1 + xs.length := by omega
      have e2 : pre ++ x :: xs ++ tail = pre ++ x :: (xs ++ tail) := by simp
      rw [e1, e2]
      have hz' : is_zero_addr x.ss = false := by simpa using hz
      refine ⟨?_, ?_, ?_⟩
      · rw [h1, List.filter_cons]; simp [hz']
      · rw [h2, List.filter_cons]; simp [hz']; omega
      · rw [h3, List.length_cons]; omega

theorem not_same_of_zero {x e : ip_service} (hx : is_zero_addr x.ss = false)
    (he : is_zero_addr e.ss = true) : same_addr_port x e = false := by
  by_contra h
  have h' : same_addr_port x e = true := by simpa using h
  have := same_addr_port_zero h'
  rw [hx, he] at this
  exact Bool.noConfusion this

theorem hits_snoc (earlier : List ip_service) (x e : ip_service) :
    hits (earlier ++ [x]) e = (hits earlier e || (!is_zero_addr x.ss && same_addr_port x e)) := by
  unfold hits
  rw [List.any_append]
  simp only [List.any_cons, List.any_nil, Bool.or_false]

theorem hits_iff (earlier : List ip_service) (e : ip_service) :
    hits earlier e = true ↔
      ∃ p ∈ earlier, is_zero_addr p.ss = false ∧ same_addr_port p e = true := by
  unfold hits
  rw [List.any_eq_true]
  constructor
  · rintro ⟨p, hp, h⟩
    simp only [Bool.and_eq_true, Bool.not_eq_true'] at h
    exact ⟨p, hp, h⟩
  · rintro ⟨p, hp, h⟩
    exact ⟨p, hp, by simp only [Bool.and_eq_true, Bool.not_eq_true']; exact h⟩

theorem zap_by_snoc_hit (earlier : List ip_service) (x e : ip_service)
    (hx : hits earlier x = true) : zap_by (earlier ++ [x]) e = zap_by earlier e := by
  unfold zap_by
  rw [hits_snoc]
  by_cases hxe : (!is_zero_addr x.ss && same_addr_port x e) = true
  · have : hits earlier e = true := by
      simp only [Bool.and_eq_true, Bool.not_eq_true'] at hxe
      rw [hits_iff] at hx ⊢
      obtain ⟨p, hp, hpz, hpx⟩ := hx
      exact ⟨p, hp, hpz, same_addr_port_trans hpx hxe.2⟩
    rw [this, Bool.true_or]
  · have : (!is_zero_addr x.ss && same_addr_port x e) = false := by simpa using hxe
    rw [this, Bool.or_false]

theorem zap_by_snoc_zero (earlier : List ip_service) (x e : ip_service)
    (hz : is_zero_addr x.ss = true) : zap_by (earlier ++ [x]) e = zap_by earlier e := by
  unfold zap_by
  rw [hits_snoc, hz]
  simp only [Bool.not_true, Bool.false_and, Bool.or_false]

theorem zap_by_snoc_live (earlier : List ip_service) (x e : ip_service)
    (hz : is_zero_addr x.ss = false) :
    zap_by (earlier ++ [x]) e = zap_if x (zap_by earlier e) := by
  unfold zap_by
  rw [hits_snoc, hz]
  simp only [Bool.not_false, Bool.true_and]
  by_cases he : hits earlier e = true
  · rw [he, Bool.true_or]
    simp only [if_true]
    have : same_addr_port x { e with ss := zero_sockaddr } = false :=
      not_same_of_zero hz is_zero_addr_zero_sockaddr
    unfold zap_if
    rw [this]
    simp only [Bool.false_eq_true, if_false]
  · have he' : hits earlier e = false := by simpa using he
    rw [he', Bool.false_or]
    simp only [Bool.false_eq_true, if_false, zap_if]

theorem zap_by_snoc (earlier xs : List ip_service) (x : ip_service) :
    (if is_zero_addr (zap_by earlier x).ss then xs.map (zap_by earlier)
      else (xs.map (zap_by earlier)).map (zap_if (zap_by earlier x)))
      = xs.map (zap_by (earlier ++ [x])) := by
  by_cases hzap : hits earlier x = true
  · have hx' : zap_by earlier x = { x with ss := zero_sockaddr } := by
      unfold zap_by; rw [if_pos hzap]
    rw [hx', if_pos is_zero_addr_zero_sockaddr]
    apply List.map_congr_left
    intro e _
    exact (zap_by_snoc_hit earlier x e hzap).symm
  · have hx' : zap_by earlier x = x := by
      unfold zap_by; rw [if_neg hzap]
    rw [hx']
    by_cases hz : is_zero_addr x.ss = true
    · rw [if_pos hz]
      apply List.map_congr_left
      intro e _
      exact (zap_by_snoc_zero earlier x e hz).symm
    · rw [if_neg hz, List.map_map]
      have hz' : is_zero_addr x.ss = false := by simpa using hz
      apply List.map_congr_left
      intro e _
      exact (zap_by_snoc_live earlier x e hz').symm

theorem zap_by_zero_iff (earlier : List ip_service) (x : ip_service) :
    is_zero_addr (zap_by earlier x).ss =
      (is_zero_addr x.ss || earlier.any (fun p => same_addr_port p x)) := by
  by_cases hzap : hits earlier x = true
  · have hany : earlier.any (fun p => same_addr_port p x) = true := by
      rw [hits_iff] at hzap
      rw [List.any_eq_true]
      obtain ⟨p, hp, _, hpx⟩ := hzap
      exact ⟨p, hp, hpx⟩
    unfold zap_by
    rw [if_pos hzap, hany, Bool.or_true]
    exact is_zero_addr_zero_sockaddr
  · unfold zap_by
    rw [if_neg hzap]
    by_cases hz : is_zero_addr x.ss = true
    · rw [hz, Bool.true_or]
    · have hz' : is_zero_addr x.ss = false := by simpa using hz
      rw [hz', Bool.false_or]
      symm
      rw [Bool.eq_false_iff]
      intro hany
      apply hzap
      rw [List.any_eq_true] at hany
      rw [hits_iff]
      obtain ⟨p, hp, hpx⟩ := hany
      refine ⟨p, hp, ?_, hpx⟩
      rw [same_addr_port_zero hpx, hz']

theorem zap_by_of_not_zero (earlier : List ip_service) (x : ip_service)
    (h : is_zero_addr (zap_by earlier x).ss = false) : zap_by earlier x = x := by
  unfold zap_by at h ⊢
  by_cases hzap : hits earlier x = true
  · rw [if_pos hzap] at h
    rw [is_zero_addr_zero_sockaddr] at h
    exact Bool.noConfusion h
  · rw [if_neg hzap]

theorem mark_kept : ∀ (l earlier : List ip_service),
    (mark l.length (l.map (zap_by earlier))).filter (fun e => !is_zero_addr e.ss)
      = kept_from earlier l := by
  intro l
  induction l with
  | nil => intro earlier; simp [mark, kept_from]
  | cons x xs ih =>
    intro earlier
    simp only [List.length_cons, List.map_cons, mark, kept_from]
    rw [zap_by_snoc, List.filter_cons, ← zap_by_zero_iff]
    have hih := ih (earlier ++ [x])
    by_cases hz : is_zero_addr (zap_by earlier x).ss = true
    · simp only [hz, Bool.not_true, Bool.false_eq_true, if_false, if_true]
      exact hih
    · have hz' : is_zero_addr (zap_by earlier x).ss = false := by simpa using hz
      simp only [hz', Bool.not_false, if_true, Bool.false_eq_true, if_false]
      rw [hih, zap_by_of_not_zero _ _ hz']

theorem zap_by_nil (l : List ip_service) : l.map (zap_by []) = l := by
  have h : ∀ e : ip_service, zap_by [] e = e := by intro e; simp [zap_by, hits]
  induction l with
  | nil => rfl
  | cons x xs ih => rw [List.map_cons, h, ih]

theorem length_mark : ∀ (n : Nat) (l : List ip_service), (mark n l).length = l.length := by
  intro n
  induction n with
  | zero => intro l; simp [mark]
  | succ n ih =>
    intro l
    cases l with
    | nil => simp [mark]
    | cons x xs =>
      simp only [mark, List.length_cons, ih]
      split <;> simp

/-- The refinement at the heart of the dedup pass: the array
`remove_duplicate_addrs2` leaves, cut at the count it returns, is the list of
kept entries; the array keeps its length. -/
theorem remove_duplicate_addrs2_spec (L : List ip_service) :
    (remove_duplicate_addrs2 L L.length).1.take (remove_duplicate_addrs2 L L.length).2
        = kept_from [] L ∧
    (remove_duplicate_addrs2 L L.length).2 = (kept_from [] L).length ∧
    (remove_duplicate_addrs2 L L.length).1.length = L.length := by
  have h1 := dup_outer_spec L.length [] L rfl
  simp only [List.length_nil, Nat.zero_add, List.nil_append] at h1
  have hlen : (mark L.length L).length = L.length := length_mark _ _
  have h2 := dup_compact_spec (mark L.length L) [] []
  simp only [compact_ok, List.length_nil, Nat.zero_add, List.nil_append, List.append_nil, hlen,
    Nat.add_zero] at h2
  have h3 := mark_kept L []
  rw [zap_by_nil] at h3
  unfold remove_duplicate_addrs2
  rw [h1]
  rw [h3] at h2
  exact h2

theorem dedup_eq_kept (L : List ip_service) : dedup L = kept_from [] L :=
  (remove_duplicate_addrs2_spec L).1

theorem kept_from_enum : ∀ (l earlier : List ip_service),
    kept_from earlier l =
      ((l.enumFrom earlier.length).filter
        (fun p => !removed_at (earlier ++ l) p.1 p.2)).map Prod.snd := by
  intro l
  induction l with
  | nil => intro earlier; simp [kept_from]
  | cons x xs ih =>
    intro earlier
    have hih := ih (earlier ++ [x])
    simp only [List.length_append, List.length_singleton, List.append_assoc,
      List.singleton_append] at hih
    have hhead : removed_at (earlier ++ x :: xs) earlier.length x
        = (is_zero_addr x.ss || earlier.any (fun p => same_addr_port p x)) := by
      unfold removed_at
      rw [List.take_left]
    rw [kept_from, List.enumFrom_cons, List.filter_cons, hhead, hih]
    by_cases hc : (is_zero_addr x.ss || earlier.any (fun p => same_addr_port p x)) = true
    · rw [if_pos hc, hc]
      simp only [Bool.not_true, Bool.false_eq_true, if_false]
    · rw [if_neg hc]
      have hc' : (is_zero_addr x.ss || earlier.any (fun p => same_addr_port p x)) = false := by
        simpa using hc
      rw [hc']
      simp only [Bool.not_false, if_true, List.map_cons]

theorem kept_from_clean : ∀ (l earlier : List ip_service),
    (∀ e ∈ kept_from earlier l,
        is_zero_addr e.ss = false ∧ earlier.any (fun p => same_addr_port p e) = false) ∧
    (kept_from earlier l).Pairwise (fun a b => same_addr_port a b = false) := by
  intro l
  induction l with
  | nil => intro earlier; simp [kept_from]
  | cons x xs ih =>
    intro earlier
    obtain ⟨h1, h2⟩ := ih (earlier ++ [x])
    have hrest : ∀ e ∈ kept_from (earlier ++ [x]) xs,
        (is_zero_addr e.ss = false ∧ earlier.any (fun p => same_addr_port p e) = false) ∧
          same_addr_port x e = false := by
      intro e he
      obtain ⟨hz, ha⟩ := h1 e he
      rw [List.any_append] at ha
      simp only [List.any_cons, List.any_nil, Bool.or_false, Bool.or_eq_false_iff] at ha
      exact ⟨⟨hz, ha.1⟩, ha.2⟩
    rw [kept_from]
    by_cases hc : (is_zero_addr x.ss || earlier.any (fun p => same_addr_port p x)) = true
    · rw [if_pos hc]
      exact ⟨fun e he => (hrest e he).1, h2⟩
    · rw [if_neg hc]
      have hc' : (is_zero_addr x.ss || earlier.any (fun p => same_addr_port p x)) = false := by
        simpa using hc
      rw [Bool.or_eq_false_iff] at hc'
      refine ⟨?_, ?_⟩
      · intro e he
        rcases List.mem_cons.mp he with rfl | he
        · exact hc'
        · exact (hrest e he).1
      · exact List.Pairwise.cons (fun e he => (hrest e he).2) h2

theorem kept_from_fix : ∀ (K earlier : List ip_service),
    (∀ e ∈ K, is_zero_addr e.ss = false ∧ earlier.any (fun p => same_addr_port p e) = false) →
    K.Pairwise (fun a b => same_addr_port a b = false) →
    kept_from earlier K = K := by
  intro K
  induction K with
  | nil => intro earlier _ _; rfl
  | cons x xs ih =>
    intro earlier h1 h2
    obtain ⟨hz, ha⟩ := h1 x (List.mem_cons_self _ _)
    rw [List.pairwise_cons] at h2
    rw [kept_from, hz, ha]
    simp only [Bool.or_self, Bool.false_eq_true, if_false, List.cons.injEq, true_and]
    apply ih _ _ h2.2
    intro e he
    obtain ⟨hz', ha'⟩ := h1 e (List.mem_cons_of_mem _ he)
    refine ⟨hz', ?_⟩
    rw [List.any_append, ha']
    simp only [List.any_cons, List.any_nil, Bool.or_false, Bool.false_or]
    exact h2.1 e he

theorem kept_from_idem (L : List ip_service) :
    kept_from [] (kept_from [] L) = kept_from [] L := by
  obtain ⟨h1, h2⟩ := kept_from_clean L []
  exact kept_from_fix _ [] h1 h2

/-! ## The dedup pass: claims C6 and C7 -/

/-- C6 as stated fails: an entry with the zero address is removed although no
entry precedes it. On the one-entry list `[(0.0.0.0, 80)]` the code returns
count 0, where the specified reading keeps the entry. -/
theorem remove_duplicate_addrs2_drops_zero_addr :
    (remove_duplicate_addrs2 [⟨⟨AF_INET, [0, 0, 0, 0]⟩, 80⟩] 1).2 = 0 ∧
    dedup [⟨⟨AF_INET, [0, 0, 0, 0]⟩, 80⟩] = [] ∧
    removed_at_as_specified [⟨⟨AF_INET, [0, 0, 0, 0]⟩, 80⟩] 0 ⟨⟨AF_INET, [0, 0, 0, 0]⟩, 80⟩
      = false := by
  decide

/-- C6, amended: for every list `L`, `remove_duplicate_addrs2` removes the entry
at index `j` exactly when its address is zero or an entry at a smaller index
has an equal address and an equal port; the entries it keeps come back in
their original order, and the returned count is their number. Entries with
an equal address and different ports do not match, so both stay. -/
theorem remove_duplicate_addrs2_keeps (L : List ip_service) :
    (remove_duplicate_addrs2 L L.length).1.take (remove_duplicate_addrs2 L L.length).2
      = (L.enum.filter (fun p => !removed_at L p.1 p.2)).map Prod.snd ∧
    (remove_duplicate_addrs2 L L.length).2
      = ((L.enum.filter (fun p => !removed_at L p.1 p.2)).map Prod.snd).length ∧
    (∀ a b : ip_service, a.port ≠ b.port → same_addr_port a b = false) := by
  obtain ⟨h1, h2, _⟩ := remove_duplicate_addrs2_spec L
  have h := kept_from_enum L []
  simp only [List.length_nil, List.nil_append] at h
  refine ⟨?_, ?_, ?_⟩
  · rw [h1, h]; rfl
  · rw [h2, h]; rfl
  · intro a b hab
    unfold same_addr_port
    simp [hab]

/-- C7: running `remove_duplicate_addrs2` on the list a first run returned
changes nothing: the array is left as it was and the count returned is its
length, so `dedup (dedup L) = dedup L`. -/
theorem remove_duplicate_addrs2_idempotent (L : List ip_service) :
    remove_duplicate_addrs2 (dedup L) (dedup L).length = (dedup L, (dedup L).length) ∧
    dedup (dedup L) = dedup L := by
  have hK : dedup L = kept_from [] L := dedup_eq_kept L
  obtain ⟨h1, h2, h3⟩ := remove_duplicate_addrs2_spec (dedup L)
  have hfix : kept_from [] (dedup L) = dedup L := by
    rw [hK]; exact kept_from_idem L
  rw [hfix] at h1 h2
  have harr : (remove_duplicate_addrs2 (dedup L) (dedup L).length).1 = dedup L := by
    rw [h2] at h1
    have h4 := List.take_of_length_le (Nat.le_of_eq h3)
    rw [h4] at h1
    exact h1
  refine ⟨Prod.ext harr h2, ?_⟩
  show List.take _ _ = _
  rw [harr, h2, List.take_length]

/-! ## prioritize_ipv4_list: claim C10 -/

theorem copy_loop_spec (test : ip_service → Bool) :
    ∀ (suf pre done rest : List ip_service),
      (suf.filter test).length ≤ rest.length →
      copy_loop test (pre ++ suf) suf.length pre.length (done ++ rest, done.length)
        = (done ++ suf.filter test ++ rest.drop (suf.filter test).length,
            done.length + (suf.filter test).length) := by
  intro suf
  induction suf with
  | nil => intro pre done rest _; simp [copy_loop]
  | cons x xs ih =>
    intro pre done rest hlen
    have hget : (pre ++ x :: xs).getD pre.length default = x := getD_length_append pre xs x
    have hih := ih (pre ++ [x])
    simp only [List.append_assoc, List.singleton_append, List.length_append,
      List.length_singleton] at hih
    rw [List.length_cons, copy_loop, hget]
    by_cases ht : test x = true
    · rw [if_pos ht]
      rw [List.filter_cons, if_pos ht, List.length_cons] at hlen
      match rest, hlen with
      | r :: rs, hlen =>
        have hset : (done ++ r :: rs).set done.length x = (done ++ [x]) ++ rs := by
          rw [List.set_append_right _ _ (Nat.le_refl _)]
          simp
        have h := hih (done ++ [x]) rs (by simpa using hlen)
        simp only [List.length_append, List.length_singleton] at h
        rw [hset, h, List.filter_cons, if_pos ht]
        simp only [List.append_assoc, List.singleton_append, List.length_cons,
          List.drop_succ_cons, List.cons_append, List.nil_append, Prod.mk.injEq, true_and]
        omega
    · rw [if_neg ht]
      rw [List.filter_cons, if_neg ht] at hlen
      rw [hih done rest hlen, List.filter_cons, if_neg ht, List.append_assoc]

theorem length_filter_split (test : ip_service → Bool) (L : List ip_service) :
    (L.filter test).length + (L.filter (fun e => !test e)).length = L.length := by
  induction L with
  | nil => rfl
  | cons x xs ih =>
    rw [List.filter_cons, List.filter_cons]
    by_cases ht : test x = true
    · simp only [ht, if_true, Bool.not_true, Bool.false_eq_true, if_false, List.length_cons]
      omega
    · have ht' : test x = false := by simpa using ht
      simp only [ht', Bool.false_eq_true, if_false, Bool.not_false, if_true, List.length_cons]
      omega

theorem prioritize_ipv4_list_eq (L : List ip_service) :
    prioritize_ipv4_list L L.length =
      (true, L.filter (fun e => e.ss.ss_family == AF_INET)
              ++ L.filter (fun e => e.ss.ss_family != AF_INET)) := by
  have hsplit := length_filter_split (fun e => e.ss.ss_family == AF_INET) L
  have hne : (fun e : ip_service => !(e.ss.ss_family == AF_INET))
      = (fun e : ip_service => e.ss.ss_family != AF_INET) := rfl
  rw [hne] at hsplit
  have h1 := copy_loop_spec (fun e => e.ss.ss_family == AF_INET) L [] []
    (List.replicate L.length default) (by rw [List.length_replicate]; omega)
  simp only [List.nil_append, List.length_nil, Nat.zero_add] at h1
  have h2 := copy_loop_spec (fun e => e.ss.ss_family != AF_INET) L []
    (L.filter (fun e => e.ss.ss_family == AF_INET))
    ((List.replicate L.length default).drop
      (L.filter (fun e => e.ss.ss_family == AF_INET)).length)
    (by rw [List.length_drop, List.length_replicate]; omega)
  simp only [List.nil_append, List.length_nil] at h2
  unfold prioritize_ipv4_list
  simp only [h1, h2]
  rw [List.drop_of_length_le (Nat.le_refl _), List.append_nil]
  congr 1
  rw [List.take_append_of_le_length (by rw [List.length_append]; omega)]
  apply List.take_of_length_le
  rw [List.length_append]
  omega

/-- C10: for every list `L` of `count` entries, `prioritize_ipv4_list` rewrites
`L` as its entries of family `AF_INET`, in their original order, followed by
its other entries, in their original order; the result is a permutation of `L`
and has the length of `L`. -/
theorem prioritize_ipv4_list_regroups (L : List ip_service) :
    prioritize_ipv4_list L L.length =
      (true, L.filter (fun e => e.ss.ss_family == AF_INET)
              ++ L.filter (fun e => e.ss.ss_family != AF_INET)) ∧
    (prioritize_ipv4_list L L.length).2.Perm L ∧
    (prioritize_ipv4_list L L.length).2.length = L.length := by
  have h := prioritize_ipv4_list_eq L
  have hperm : (L.filter (fun e => e.ss.ss_family == AF_INET)
      ++ L.filter (fun e => e.ss.ss_family != AF_INET)).Perm L :=
    List.filter_append_perm (fun e => e.ss.ss_family == AF_INET) L
  refine ⟨h, ?_, ?_⟩
  · rw [h]; exact hperm
  · rw [h]; exact hperm.length_eq

/-! ## The comparison functions: claims C8 and C9 -/

theorem addr_compare_fold (ss1 ss2 : sockaddr_storage) (hfam : ss1.ss_family = ss2.ss_family) :
    ∀ (l : List sockaddr_storage) (acc : Nat × Nat),
      l.foldl (fun acc pss => addr_compare_iface ss1 ss2 pss acc) acc
        = (l.foldl (fun acc pss =>
              if pss.ss_family ≠ ss1.ss_family then acc
              else if iface_addr_len pss.ss_family = 0 then acc
              else max (matching_len_bits (addr_bytes (iface_addr_len pss.ss_family) ss1)
                          (addr_bytes (iface_addr_len pss.ss_family) pss)) acc) acc.1,
           l.foldl (fun acc pss =>
              if pss.ss_family ≠ ss2.ss_family then acc
              else if iface_addr_len pss.ss_family = 0 then acc
              else max (matching_len_bits (addr_bytes (iface_addr_len pss.ss_family) ss2)
                          (addr_bytes (iface_addr_len pss.ss_family) pss)) acc) acc.2) := by
  intro l
  induction l with
  | nil => intro acc; rfl
  | cons pss rest ih =>
    intro acc
    rw [List.foldl_cons, List.foldl_cons, List.foldl_cons, ih]
    unfold addr_compare_iface
    rw [← hfam]
    by_cases h1 : pss.ss_family ≠ ss1.ss_family
    · simp only [if_pos h1]
    · simp only [if_neg h1]
      by_cases h2 : iface_addr_len pss.ss_family = 0
      · simp only [if_pos h2]
      · simp only [if_neg h2]

theorem addr_compare_same_family (ifs : Interfaces) (ss1 ss2 : sockaddr_storage)
    (hfam : ss1.ss_family = ss2.ss_family) :
    addr_compare ifs ss1 ss2 = (affinity_score ifs ss2 : Int) - (affinity_score ifs ss1 : Int) := by
  unfold addr_compare affinity_score
  rw [if_neg (not_not.mpr hfam)]
  simp only [addr_compare_fold ss1 ss2 hfam]

/-- C8 as stated fails: the family is looked at before the score. With one
IPv6 interface, the IPv6 address on it has score 128 and an IPv4 address has
score 0, yet `ip_service_compare` returns 1, which sorts the IPv4 entry
first. -/
theorem ip_service_compare_family_before_score :
    affinity_score ⟨[⟨AF_INET6, [0xfe, 0x80, 0, 0, 0, 0, 0, 0, 0, 0, 0, 0, 0, 0, 0, 1]⟩],
        fun _ => false⟩ ⟨AF_INET6, [0xfe, 0x80, 0, 0, 0, 0, 0, 0, 0, 0, 0, 0, 0, 0, 0, 1]⟩ = 128 ∧
    affinity_score ⟨[⟨AF_INET6, [0xfe, 0x80, 0, 0, 0, 0, 0, 0, 0, 0, 0, 0, 0, 0, 0, 1]⟩],
        fun _ => false⟩ ⟨AF_INET, [10, 0, 0, 5]⟩ = 0 ∧
    ip_service_compare ⟨[⟨AF_INET6, [0xfe, 0x80, 0, 0, 0, 0, 0, 0, 0, 0, 0, 0, 0, 0, 0, 1]⟩],
        fun _ => false⟩
      ⟨⟨AF_INET6, [0xfe, 0x80, 0, 0, 0, 0, 0, 0, 0, 0, 0, 0, 0, 0, 0, 1]⟩, 0⟩
      ⟨⟨AF_INET, [10, 0, 0, 5]⟩, 0⟩ = 1 := by
  decide

theorem ip_service_compare_order_aux (ifs : Interfaces) (a b : ip_service) :
    ip_service_compare ifs a b =
      if a.ss.ss_family ≠ b.ss.ss_family then
        (if b.ss.ss_family = AF_INET then 1 else -1)
      else if affinity_score ifs a.ss ≠ affinity_score ifs b.ss then
        (affinity_score ifs b.ss : Int) - (affinity_score ifs a.ss : Int)
      else if a.port > b.port then 1
      else if a.port < b.port then -1
      else 0 := by
  unfold ip_service_compare
  by_cases hfam : a.ss.ss_family = b.ss.ss_family
  · rw [addr_compare_same_family ifs a.ss b.ss hfam, if_neg (not_not.mpr hfam)]
    by_cases hs : affinity_score ifs a.ss = affinity_score ifs b.ss
    · rw [hs]
      simp only [sub_self, ne_eq, not_true_eq_false, if_false]
    · have hne : (affinity_score ifs b.ss : Int) - (affinity_score ifs a.ss : Int) ≠ 0 := by
        omega
      rw [if_pos hne, if_pos hs]
  · have hv : addr_compare ifs a.ss b.ss = if b.ss.ss_family = AF_INET then 1 else -1 := by
      unfold addr_compare
      rw [if_pos hfam]
    rw [hv, if_pos hfam]
    by_cases h4 : b.ss.ss_family = AF_INET
    · simp only [if_pos h4]; rfl
    · simp only [if_neg h4]; rfl

/-- C8, amended: `ip_service_compare` looks at the address family first, and
puts an IPv4 entry before an entry of another family whatever the scores; for
two entries of one family it orders by affinity score, the higher score
first; only when family and score are equal does it order by ascending
port. -/
theorem ip_service_compare_order (ifs : Interfaces) (a b : ip_service) :
    ip_service_compare ifs a b =
      if a.ss.ss_family ≠ b.ss.ss_family then
        (if b.ss.ss_family = AF_INET then 1 else -1)
      else if affinity_score ifs a.ss ≠ affinity_score ifs b.ss then
        (affinity_score ifs b.ss : Int) - (affinity_score ifs a.ss : Int)
      else if a.port > b.port then 1
      else if a.port < b.port then -1
      else 0 :=
  ip_service_compare_order_aux ifs a b

theorem sublist_pair_of_pairwise {α : Type} {R : α → α → Prop} {a b : α} :
    ∀ {l : List α}, l.Pairwise R → a ∈ l → b ∈ l → ¬ R b a → a ≠ b → [a, b].Sublist l := by
  intro l
  induction l with
  | nil => intro _ ha; exact absurd ha (List.not_mem_nil _)
  | cons x xs ih =>
    intro hpw ha hb hR hne
    rw [List.pairwise_cons] at hpw
    rcases List.mem_cons.mp ha with rfl | ha'
    · rcases List.mem_cons.mp hb with rfl | hb'
      · exact absurd rfl hne
      · exact List.Sublist.cons₂ _ (List.singleton_sublist.mpr hb')
    · rcases List.mem_cons.mp hb with rfl | hb'
      · exact absurd (hpw.1 a ha') hR
      · exact List.Sublist.cons _ (ih hpw.2 ha' hb' hR hne)

theorem two_le_length_of_mem_ne {α : Type} {a b : α} {l : List α}
    (ha : a ∈ l) (hb : b ∈ l) (hne : a ≠ b) : ¬ l.length ≤ 1 := by
  intro hlen
  match l, hlen with
  | [], _ => exact absurd ha (List.not_mem_nil _)
  | [x], _ =>
    rw [List.mem_singleton] at ha hb
    exact hne (ha.trans hb.symm)

/-- C9 as stated fails: the comparison breaks ties of the score by port, so any
`qsort` that sorts reverses two candidates of equal score that come in
descending port order. For the input `[(10.0.0.1, 445), (10.0.0.1, 139)]` no
`qsort` that meets its contract leaves the pair in its input order. -/
theorem sort_service_list_not_stable :
    affinity_score ⟨[], fun _ => false⟩ (ip_service.mk ⟨AF_INET, [10, 0, 0, 1]⟩ 445).ss
      = affinity_score ⟨[], fun _ => false⟩ (ip_service.mk ⟨AF_INET, [10, 0, 0, 1]⟩ 139).ss ∧
    ¬ ∃ qsort : (ip_service → ip_service → Int) → List ip_service → List ip_service,
        qsort_sorted (ip_service_compare ⟨[], fun _ => false⟩)
          [⟨⟨AF_INET, [10, 0, 0, 1]⟩, 445⟩, ⟨⟨AF_INET, [10, 0, 0, 1]⟩, 139⟩]
          (qsort (ip_service_compare ⟨[], fun _ => false⟩)
            [⟨⟨AF_INET, [10, 0, 0, 1]⟩, 445⟩, ⟨⟨AF_INET, [10, 0, 0, 1]⟩, 139⟩]) ∧
        stable_on_equal_scores qsort ⟨[], fun _ => false⟩
          [⟨⟨AF_INET, [10, 0, 0, 1]⟩, 445⟩, ⟨⟨AF_INET, [10, 0, 0, 1]⟩, 139⟩] := by
  refine ⟨rfl, ?_⟩
  rintro ⟨qsort, ⟨hperm, hpw⟩, hstable⟩
  have h := hstable ⟨⟨AF_INET, [10, 0, 0, 1]⟩, 445⟩ ⟨⟨AF_INET, [10, 0, 0, 1]⟩, 139⟩ rfl
    (List.Sublist.refl _)
  have hsort : sort_service_list qsort ⟨[], fun _ => false⟩
      [⟨⟨AF_INET, [10, 0, 0, 1]⟩, 445⟩, ⟨⟨AF_INET, [10, 0, 0, 1]⟩, 139⟩]
      = qsort (ip_service_compare ⟨[], fun _ => false⟩)
          [⟨⟨AF_INET, [10, 0, 0, 1]⟩, 445⟩, ⟨⟨AF_INET, [10, 0, 0, 1]⟩, 139⟩] := by
    unfold sort_service_list
    rw [if_neg (by decide)]
  rw [hsort] at h
  have hlen := hperm.length_eq
  have heq := h.eq_of_length (by rw [hlen])
  rw [← heq] at hpw
  rw [List.pairwise_cons] at hpw
  have hle := hpw.1 _ (List.mem_singleton.mpr rfl)
  revert hle
  decide

/-- C9, amended: `sort_service_list` and `sort_addr_list` return the entries of
the input ordered by the comparison, not by input position: whatever `qsort`
does with ties, in the output of `sort_service_list` an IPv4 candidate comes
before a candidate of another family, and of two candidates of the same family
with identical affinity score the one with the smaller port comes first; in
the output of `sort_addr_list` an IPv4 address comes before an address of
another family. The input order of such pairs has no influence. -/
theorem sort_lists_order_equal_scores
    (qsort_s : (ip_service → ip_service → Int) → List ip_service → List ip_service)
    (qsort_a : (sockaddr_storage → sockaddr_storage → Int) →
      List sockaddr_storage → List sockaddr_storage)
    (ifs : Interfaces) (servlist : List ip_service) (sslist : List sockaddr_storage)
    (hs : qsort_sorted (ip_service_compare ifs) servlist
      (qsort_s (ip_service_compare ifs) servlist))
    (ha : qsort_sorted (addr_compare ifs) sslist (qsort_a (addr_compare ifs) sslist)) :
    (sort_service_list qsort_s ifs servlist).Perm servlist ∧
    (∀ a b : ip_service, a ∈ servlist → b ∈ servlist →
      a.ss.ss_family = AF_INET → b.ss.ss_family ≠ AF_INET →
      [a, b].Sublist (sort_service_list qsort_s ifs servlist)) ∧
    (∀ a b : ip_service, a ∈ servlist → b ∈ servlist →
      a.ss.ss_family = b.ss.ss_family →
      affinity_score ifs a.ss = affinity_score ifs b.ss → a.port < b.port →
      [a, b].Sublist (sort_service_list qsort_s ifs servlist)) ∧
    (sort_addr_list qsort_a ifs sslist).Perm sslist ∧
    (∀ a b : sockaddr_storage, a ∈ sslist → b ∈ sslist →
      a.ss_family = AF_INET → b.ss_family ≠ AF_INET →
      [a, b].Sublist (sort_addr_list qsort_a ifs sslist)) := by
  refine ⟨?_, ?_, ?_, ?_, ?_⟩
  · unfold sort_service_list
    by_cases hlen : servlist.length ≤ 1
    · rw [if_pos hlen]
    · rw [if_neg hlen]; exact hs.1
  · intro a b hma hmb hfa hfb
    have hne : a ≠ b := fun h => hfb (h ▸ hfa)
    unfold sort_service_list
    rw [if_neg (two_le_length_of_mem_ne hma hmb hne)]
    refine sublist_pair_of_pairwise hs.2 (hs.1.mem_iff.mpr hma) (hs.1.mem_iff.mpr hmb) ?_ hne
    rw [ip_service_compare_order_aux ifs b a]
    rw [if_pos (fun h => hfb (h.trans hfa)), if_pos hfa]
    decide
  · intro a b hma hmb hfam hscore hport
    have hne : a ≠ b := fun h => by rw [h] at hport; exact Nat.lt_irrefl _ hport
    unfold sort_service_list
    rw [if_neg (two_le_length_of_mem_ne hma hmb hne)]
    refine sublist_pair_of_pairwise hs.2 (hs.1.mem_iff.mpr hma) (hs.1.mem_iff.mpr hmb) ?_ hne
    rw [ip_service_compare_order_aux ifs b a]
    rw [if_neg (not_not.mpr hfam.symm), if_neg (not_not.mpr hscore.symm), if_pos hport]
    decide
  · unfold sort_addr_list
    by_cases hlen : sslist.length ≤ 1
    · rw [if_pos hlen]
    · rw [if_neg hlen]; exact ha.1
  · intro a b hma hmb hfa hfb
    have hne : a ≠ b := fun h => hfb (h ▸ hfa)
    unfold sort_addr_list
    rw [if_neg (two_le_length_of_mem_ne hma hmb hne)]
    refine sublist_pair_of_pairwise ha.2 (ha.1.mem_iff.mpr hma) (ha.1.mem_iff.mpr hmb) ?_ hne
    unfold addr_compare
    rw [if_pos (fun h => hfb (h.trans hfa)), if_pos hfa]
    decide

/-- The amended C9 at a concrete input: without interfaces, insertion sort by
`ip_service_compare` turns `[(10.0.0.1, 445), (10.0.0.1, 139)]` around. -/
theorem sort_lists_order_equal_scores_witness :
    [ip_service.mk ⟨AF_INET, [10, 0, 0, 1]⟩ 139, ip_service.mk ⟨AF_INET, [10, 0, 0, 1]⟩ 445].Sublist
      (sort_service_list (fun cmp l => l.insertionSort (fun a b => cmp a b ≤ 0))
        ⟨[], fun _ => false⟩
        [⟨⟨AF_INET, [10, 0, 0, 1]⟩, 445⟩, ⟨⟨AF_INET, [10, 0, 0, 1]⟩, 139⟩]) :=
  (sort_lists_order_equal_scores
    (fun cmp l => l.insertionSort (fun a b => cmp a b ≤ 0))
    (fun cmp l => l.insertionSort (fun a b => cmp a b ≤ 0))
    ⟨[], fun _ => false⟩
    [⟨⟨AF_INET, [10, 0, 0, 1]⟩, 445⟩, ⟨⟨AF_INET, [10, 0, 0, 1]⟩, 139⟩]
    [⟨AF_INET6, []⟩, ⟨AF_INET, [10, 0, 0, 1]⟩]
    ⟨by decide, by decide⟩ ⟨by decide, by decide⟩).2.2.1
    ⟨⟨AF_INET, [10, 0, 0, 1]⟩, 139⟩ ⟨⟨AF_INET, [10, 0, 0, 1]⟩, 445⟩
    (by decide) (by decide) rfl rfl (by decide)

/-! ## The dispatcher: claims C1 to C5 -/

theorem dedup_nil : dedup [] = [] := rfl

theorem resolve_done_eq (name : String) (name_type : Nat) (status : NTSTATUS)
    (iplist : List ip_service) (events : List Event) :
    resolve_done name name_type status iplist events =
      { status := status, return_iplist := dedup iplist, return_count := (dedup iplist).length,
        events := events ++
          [Event.namecache_store name name_type (dedup iplist).length (dedup iplist)] } := by
  unfold resolve_done
  by_cases h : iplist.length ≠ 0
  · have h2 : (remove_duplicate_addrs2 iplist iplist.length).2 = (dedup iplist).length := by
      rw [(remove_duplicate_addrs2_spec iplist).2.1, dedup_eq_kept]
    have hd : (remove_duplicate_addrs2 iplist iplist.length).1.take
        (remove_duplicate_addrs2 iplist iplist.length).2 = dedup iplist := rfl
    simp only [if_pos h, hd]
    rw [h2]
  · have h0 : iplist = [] := List.eq_nil_of_length_eq_zero (not_not.mp h)
    subst h0
    rfl

theorem convert_ss2service_nil : convert_ss2service [] = none := rfl

theorem convert_ss2service_cons (ss : sockaddr_storage) (l : List sockaddr_storage) :
    convert_ss2service (ss :: l)
      = some ((ss :: l).map (fun ss => { ss := ss, port := PORT_NONE })) := rfl

/-- One round of the token loop, by the backend the token names. -/
theorem resolve_tokens_step (env : ResolveEnv) (name : String) (sitename : Option String)
    (tok : String) (rest : List String) (name_type : Nat) (events : List Event) :
    resolve_tokens env name sitename (tok :: rest) name_type events =
      match token_backend env tok with
      | none => resolve_tokens env name sitename rest name_type events
      | some b =>
        if b = Backend.wins ∧ name_type = 0x1D then
          resolve_tokens env name sitename rest name_type events
        else if (backend_answer env name name_type sitename b).1 = NT_STATUS_OK then
          resolve_done name (store_name_type name_type b)
            (final_status b (backend_answer env name name_type sitename b).2)
            (backend_answer env name name_type sitename b).2
            (events ++ [backend_event name_type b])
        else
          resolve_tokens env name sitename rest name_type
            (events ++ [backend_event name_type b]) := by
  rw [resolve_tokens]
  unfold token_backend
  by_cases h1 : (env.strequal tok "host" || env.strequal tok "hosts") = true
  · simp [h1, backend_answer, final_status, store_name_type, backend_event]
  · rw [if_neg h1, if_neg h1]
    by_cases h2 : env.strequal tok "kdc" = true
    · simp [h2, backend_answer, final_status, store_name_type, backend_event]
    · rw [if_neg h2, if_neg h2]
      by_cases h3 : env.strequal tok "ads" = true
      · simp [h3, backend_answer, final_status, store_name_type, backend_event]
      · rw [if_neg h3, if_neg h3]
        by_cases h4 : env.strequal tok "lmhosts" = true
        · simp [h4, backend_answer, final_status, store_name_type, backend_event]
        · rw [if_neg h4, if_neg h4]
          by_cases h5 : env.strequal tok "wins" = true
          · rw [if_pos h5, if_pos h5]
            by_cases h1d : name_type = 0x1D
            · simp [h1d]
            · cases hl : (env.resolve_wins name name_type).2 with
              | nil =>
                simp [h1d, hl, backend_answer, final_status, store_name_type, backend_event,
                  convert_ss2service_nil]
              | cons ss l =>
                simp [h1d, hl, backend_answer, final_status, store_name_type, backend_event,
                  convert_ss2service_cons]
          · rw [if_neg h5, if_neg h5]
            by_cases h6 : env.strequal tok "bcast" = true
            · rw [if_pos h6, if_pos h6]
              cases hl : (env.name_resolve_bcast name name_type).2 with
              | nil =>
                simp [hl, backend_answer, final_status, store_name_type, backend_event,
                  convert_ss2service_nil]
              | cons ss l =>
                simp [hl, backend_answer, final_status, store_name_type, backend_event,
                  convert_ss2service_cons]
            · rw [if_neg h6, if_neg h6]

theorem loop_outcome_cons_fail (env : ResolveEnv) (name : String) (name_type : Nat)
    (sitename : Option String) (b : Backend) (plan : List Backend) (events : List Event)
    (r : Resolved)
    (hb : (backend_answer env name name_type sitename b).1 ≠ NT_STATUS_OK)
    (h : loop_outcome env name name_type sitename plan (events ++ [backend_event name_type b]) r) :
    loop_outcome env name name_type sitename (b :: plan) events r := by
  rcases h with ⟨pre, c, post, hplan, hpre, hc, hr⟩ | ⟨hall, hr⟩
  · refine Or.inl ⟨b :: pre, c, post, by rw [hplan]; rfl, ?_, hc, ?_⟩
    · intro x hx
      rcases List.mem_cons.mp hx with rfl | hx'
      · exact hb
      · exact hpre x hx'
    · rw [hr]
      simp only [List.map_append, List.map_cons, List.map_nil, List.append_assoc,
        List.cons_append, List.nil_append]
  · refine Or.inr ⟨?_, ?_⟩
    · intro x hx
      rcases List.mem_cons.mp hx with rfl | hx'
      · exact hb
      · exact hall x hx'
    · rw [hr]
      simp only [List.map_cons, List.append_assoc, List.cons_append, List.nil_append]

theorem backend_plan_cons (env : ResolveEnv) (name_type : Nat) (tok : String)
    (rest : List String) :
    backend_plan env name_type (tok :: rest) =
      match token_backend env tok with
      | none => backend_plan env name_type rest
      | some b =>
        if b = Backend.wins ∧ name_type = 0x1D then backend_plan env name_type rest
        else b :: backend_plan env name_type rest := by
  unfold backend_plan
  rw [List.filterMap_cons]
  cases token_backend env tok with
  | none => rfl
  | some b =>
    simp only [List.filter_cons]
    by_cases hskip : b = Backend.wins ∧ name_type = 0x1D
    · simp [hskip]
    · rw [if_neg hskip]
      have : (!(decide (b = Backend.wins) && decide (name_type = 0x1D))) = true := by
        rw [Bool.not_eq_true', Bool.and_eq_false_iff, decide_eq_false_iff_not,
          decide_eq_false_iff_not]
        exact not_and_or.mp hskip
      rw [if_pos this]

theorem resolve_tokens_spec (env : ResolveEnv) (name : String) (name_type : Nat)
    (sitename : Option String) :
    ∀ (toks : List String) (events : List Event),
      loop_outcome env name name_type sitename (backend_plan env name_type toks) events
        (resolve_tokens env name sitename toks name_type events) := by
  intro toks
  induction toks with
  | nil =>
    intro events
    refine Or.inr ⟨?_, ?_⟩
    · intro x hx; exact absurd hx (List.not_mem_nil _)
    · simp [resolve_tokens, backend_plan]
  | cons tok rest ih =>
    intro events
    rw [resolve_tokens_step, backend_plan_cons]
    cases token_backend env tok with
    | none => exact ih events
    | some b =>
      simp only []
      by_cases hskip : b = Backend.wins ∧ name_type = 0x1D
      · rw [if_pos hskip, if_pos hskip]
        exact ih events
      · rw [if_neg hskip, if_neg hskip]
        by_cases hok : (backend_answer env name name_type sitename b).1 = NT_STATUS_OK
        · rw [if_pos hok, resolve_done_eq]
          refine Or.inl ⟨[], b, backend_plan env name_type rest, rfl, ?_, hok, ?_⟩
          · intro x hx; exact absurd hx (List.not_mem_nil _)
          · simp only [List.nil_append, List.map_cons, List.map_nil]
        · rw [if_neg hok]
          exact loop_outcome_cons_fail env name name_type sitename b _ events _ hok
            (ih (events ++ [backend_event name_type b]))

theorem internal_resolve_name_loop (env : ResolveEnv) (name : String) (name_type : Nat)
    (sitename : Option String) (resolve_order : String)
    (hlit : env.is_ipaddress name = false)
    (hcache : env.namecache_fetch name name_type = none)
    (hnull : resolve_order ≠ "NULL") :
    internal_resolve_name env name name_type sitename resolve_order =
      resolve_tokens env name sitename
        (env.next_token_talloc (if resolve_order = "" then "host" else resolve_order))
        name_type [Event.namecache_fetch name name_type] := by
  unfold internal_resolve_name
  rw [hlit, hcache]
  simp only [Bool.false_eq_true, if_false, if_neg hnull]

theorem filterMap_backend_event (name_type : Nat) (l : List Backend) :
    (l.map (backend_event name_type)).filterMap (fun e => match e with
      | Event.backend b _ => some b
      | _ => none) = l := by
  induction l with
  | nil => rfl
  | cons b rest ih =>
    rw [List.map_cons, List.filterMap_cons]
    simp only [backend_event]
    rw [ih]

theorem filter_store_backend_event (name_type : Nat) (l : List Backend) :
    (l.map (backend_event name_type)).filter (fun e => match e with
      | Event.namecache_store _ _ _ _ => true
      | _ => false) = [] := by
  induction l with
  | nil => rfl
  | cons b rest ih =>
    rw [List.map_cons, List.filter_cons]
    simp only [backend_event, Bool.false_eq_true, if_false]
    exact ih

theorem backends_invoked_events (status : NTSTATUS) (iplist : List ip_service) (count : Nat)
    (name : String) (name_type : Nat) (l : List Backend) (tail : List Event)
    (htail : tail.filterMap (fun e => match e with
      | Event.backend b _ => some b
      | _ => none) = []) :
    Resolved.backends_invoked
      { status := status, return_iplist := iplist, return_count := count,
        events := [Event.namecache_fetch name name_type] ++ l.map (backend_event name_type)
          ++ tail } = l := by
  unfold Resolved.backends_invoked
  rw [List.filterMap_append, List.filterMap_append, filterMap_backend_event, htail,
    List.append_nil]
  rfl

theorem stores_events (status : NTSTATUS) (iplist : List ip_service) (count : Nat)
    (name : String) (name_type : Nat) (l : List Backend) (tail : List Event)
    (htail : tail.filter (fun e => match e with
      | Event.namecache_store _ _ _ _ => true
      | _ => false) = tail) :
    Resolved.stores
      { status := status, return_iplist := iplist, return_count := count,
        events := [Event.namecache_fetch name name_type] ++ l.map (backend_event name_type)
          ++ tail } = tail := by
  unfold Resolved.stores
  rw [List.filter_append, List.filter_append, filter_store_backend_event, htail,
    List.append_nil]
  rfl

/-- C1 as stated fails, in four ways: a literal address and a cached name are
answered without any backend although the order names one; the token `wins`
is recognised but the WINS backend is not tried for the name type 0x1D; and
the empty order, which names no backend, has the hosts backend tried. -/
theorem internal_resolve_name_order_exceptions :
    (token_backend sample_env "host" = some Backend.hosts ∧
      (internal_resolve_name sample_env "192.168.1.1" 0x20 none "host").backends_invoked = []) ∧
    (internal_resolve_name
        { sample_env with namecache_fetch := fun _ _ => some [⟨⟨AF_INET, [10, 0, 0, 7]⟩, 0⟩] }
        "pc7" 0x20 none "host").backends_invoked = [] ∧
    (token_backend sample_env "wins" = some Backend.wins ∧
      (internal_resolve_name sample_env "workgroup" 0x1D none "wins").backends_invoked = []) ∧
    (sample_env.next_token_talloc "" = [] ∧
      (internal_resolve_name sample_env "fileserver" 0x20 none "").backends_invoked
        = [Backend.hosts]) := by
  decide

/-- C1, amended: for every name that is neither a literal address nor in the
name cache, and every resolve order other than "NULL", `internal_resolve_name`
goes through the backends named by the recognised tokens of the order (of
"host" when the order is empty) from left to right, leaving out unrecognised
tokens and, for the name type 0x1D, `wins`. It stops at the first backend that
returns `NT_STATUS_OK`: the backends called are exactly those up to it, none
after it, and the returned list is that backend's answer after
`remove_duplicate_addrs2`. When none returns `NT_STATUS_OK` all of them have
been called and the result is `NT_STATUS_UNSUCCESSFUL` with an empty list. -/
theorem internal_resolve_name_order (env : ResolveEnv) (name : String) (name_type : Nat)
    (sitename : Option String) (resolve_order : String)
    (hlit : env.is_ipaddress name = false)
    (hcache : env.namecache_fetch name name_type = none)
    (hnull : resolve_order ≠ "NULL") :
    (∃ pre b post,
      backend_plan env name_type
          (env.next_token_talloc (if resolve_order = "" then "host" else resolve_order))
        = pre ++ b :: post ∧
      (∀ x ∈ pre, (backend_answer env name name_type sitename x).1 ≠ NT_STATUS_OK) ∧
      (backend_answer env name name_type sitename b).1 = NT_STATUS_OK ∧
      (internal_resolve_name env name name_type sitename resolve_order).backends_invoked
        = pre ++ [b] ∧
      (internal_resolve_name env name name_type sitename resolve_order).return_iplist
        = dedup (backend_answer env name name_type sitename b).2) ∨
    ((∀ x ∈ backend_plan env name_type
          (env.next_token_talloc (if resolve_order = "" then "host" else resolve_order)),
        (backend_answer env name name_type sitename x).1 ≠ NT_STATUS_OK) ∧
      (internal_resolve_name env name name_type sitename resolve_order).backends_invoked
        = backend_plan env name_type
            (env.next_token_talloc (if resolve_order = "" then "host" else resolve_order)) ∧
      (internal_resolve_name env name name_type sitename resolve_order).status
        = NT_STATUS_UNSUCCESSFUL ∧
      (internal_resolve_name env name name_type sitename resolve_order).return_iplist = []) := by
  rw [internal_resolve_name_loop env name name_type sitename resolve_order hlit hcache hnull]
  rcases resolve_tokens_spec env name name_type sitename
      (env.next_token_talloc (if resolve_order = "" then "host" else resolve_order))
      [Event.namecache_fetch name name_type] with
    ⟨pre, b, post, hplan, hpre, hb, hr⟩ | ⟨hall, hr⟩
  · refine Or.inl ⟨pre, b, post, hplan, hpre, hb, ?_, ?_⟩
    · rw [hr]
      exact backends_invoked_events _ _ _ _ _ _ _ rfl
    · rw [hr]
  · refine Or.inr ⟨hall, ?_, ?_, ?_⟩
    · rw [hr]
      have h := backends_invoked_events NT_STATUS_UNSUCCESSFUL [] 0 name name_type
        (backend_plan env name_type
          (env.next_token_talloc (if resolve_order = "" then "host" else resolve_order)))
        [] rfl
      rw [List.append_nil] at h
      exact h
    · rw [hr]
    · rw [hr]

/-- The amended C1 at a concrete input: for `pc7` with the order
"wins lmhosts host" the WINS backend fails, the lmhosts backend answers, and
the hosts backend is not called. -/
theorem internal_resolve_name_order_witness :
    (∃ pre b post,
      backend_plan sample_env 0x20
          (sample_env.next_token_talloc
            (if "wins lmhosts host" = "" then "host" else "wins lmhosts host"))
        = pre ++ b :: post ∧
      (∀ x ∈ pre, (backend_answer sample_env "pc7" 0x20 none x).1 ≠ NT_STATUS_OK) ∧
      (backend_answer sample_env "pc7" 0x20 none b).1 = NT_STATUS_OK ∧
      (internal_resolve_name sample_env "pc7" 0x20 none "wins lmhosts host").backends_invoked
        = pre ++ [b] ∧
      (internal_resolve_name sample_env "pc7" 0x20 none "wins lmhosts host").return_iplist
        = dedup (backend_answer sample_env "pc7" 0x20 none b).2) ∨
    ((∀ x ∈ backend_plan sample_env 0x20
          (sample_env.next_token_talloc
            (if "wins lmhosts host" = "" then "host" else "wins lmhosts host")),
        (backend_answer sample_env "pc7" 0x20 none x).1 ≠ NT_STATUS_OK) ∧
      (internal_resolve_name sample_env "pc7" 0x20 none "wins lmhosts host").backends_invoked
        = backend_plan sample_env 0x20
            (sample_env.next_token_talloc
              (if "wins lmhosts host" = "" then "host" else "wins lmhosts host")) ∧
      (internal_resolve_name sample_env "pc7" 0x20 none "wins lmhosts host").status
        = NT_STATUS_UNSUCCESSFUL ∧
      (internal_resolve_name sample_env "pc7" 0x20 none "wins lmhosts host").return_iplist
        = []) :=
  internal_resolve_name_order sample_env "pc7" 0x20 none "wins lmhosts host"
    (by decide) (by decide) (by decide)

/-- C2: for a name that is a literal numeric address (`is_ipaddress` accepts it
and `interpret_string_addr` with `AI_NUMERICHOST` reads its address) and every
resolve order, `internal_resolve_name` returns `NT_STATUS_OK` with exactly one
entry, which holds that address and `PORT_NONE`; it calls no backend and
neither reads nor writes the name cache. -/
theorem internal_resolve_name_literal (env : ResolveEnv) (name : String) (name_type : Nat)
    (sitename : Option String) (resolve_order : String)
    (hlit : env.is_ipaddress name = true)
    (haddr : (env.interpret_string_addr name AI_NUMERICHOST).1 = true) :
    internal_resolve_name env name name_type sitename resolve_order =
      { status := NT_STATUS_OK,
        return_iplist :=
          [{ ss := (env.interpret_string_addr name AI_NUMERICHOST).2, port := PORT_NONE }],
        return_count := 1,
        events := [] } := by
  unfold internal_resolve_name
  rw [hlit, haddr]
  simp only [if_true, Bool.not_true, Bool.false_eq_true, if_false]

/-- C2 at a concrete input: "192.168.1.1" with the order "wins bcast". -/
theorem internal_resolve_name_literal_witness :
    internal_resolve_name sample_env "192.168.1.1" 0x20 none "wins bcast" =
      { status := NT_STATUS_OK,
        return_iplist := [{ ss := ⟨AF_INET, [192, 168, 1, 1]⟩, port := PORT_NONE }],
        return_count := 1,
        events := [] } :=
  internal_resolve_name_literal sample_env "192.168.1.1" 0x20 none "wins bcast"
    (by decide) (by decide)

/-- C3 as stated fails: the order "NULL" is looked at only after the literal
address test and the name cache. With the order "NULL" the literal
"192.168.1.1" resolves with `NT_STATUS_OK` and one entry, and a cached name
gets its cached answer. -/
theorem internal_resolve_name_null_order_not_first :
    internal_resolve_name sample_env "192.168.1.1" 0x20 none "NULL" =
      { status := NT_STATUS_OK,
        return_iplist := [{ ss := ⟨AF_INET, [192, 168, 1, 1]⟩, port := PORT_NONE }],
        return_count := 1,
        events := [] } ∧
    (internal_resolve_name
        { sample_env with namecache_fetch := fun _ _ => some [⟨⟨AF_INET, [10, 0, 0, 7]⟩, 0⟩] }
        "pc7" 0x20 none "NULL").status = NT_STATUS_OK := by
  decide

/-- C3, amended: for every name that is neither a literal address nor in the
name cache, and every name type, `internal_resolve_name` with the resolve
order "NULL" fails with `NT_STATUS_INVALID_PARAMETER` and an empty list right
after the look into the name cache; it calls no backend. -/
theorem internal_resolve_name_null_order (env : ResolveEnv) (name : String) (name_type : Nat)
    (sitename : Option String)
    (hlit : env.is_ipaddress name = false)
    (hcache : env.namecache_fetch name name_type = none) :
    internal_resolve_name env name name_type sitename "NULL" =
      { status := NT_STATUS_INVALID_PARAMETER, return_iplist := [], return_count := 0,
        events := [Event.namecache_fetch name name_type] } ∧
    (internal_resolve_name env name name_type sitename "NULL").backends_invoked = [] := by
  have h : internal_resolve_name env name name_type sitename "NULL" =
      { status := NT_STATUS_INVALID_PARAMETER, return_iplist := [], return_count := 0,
        events := [Event.namecache_fetch name name_type] } := by
    unfold internal_resolve_name
    rw [hlit, hcache]
    simp only [Bool.false_eq_true, if_false, if_true]
  refine ⟨h, ?_⟩
  rw [h]
  rfl

/-- The amended C3 at a concrete input: `fileserver` with the order "NULL". -/
theorem internal_resolve_name_null_order_witness :
    internal_resolve_name sample_env "fileserver" 0x20 none "NULL" =
      { status := NT_STATUS_INVALID_PARAMETER, return_iplist := [], return_count := 0,
        events := [Event.namecache_fetch "fileserver" 0x20] } ∧
    (internal_resolve_name sample_env "fileserver" 0x20 none "NULL").backends_invoked = [] :=
  internal_resolve_name_null_order sample_env "fileserver" 0x20 none (by decide) (by decide)

/-- C4 as stated fails: when every backend of the order fails the function
returns without a call of `namecache_store`, so no negative entry is
written. For `nobody` with the order "host" the one backend fails and the
only events are the cache read and the backend call. -/
theorem internal_resolve_name_failure_not_cached :
    internal_resolve_name sample_env "nobody" 0x20 none "host" =
      { status := NT_STATUS_UNSUCCESSFUL, return_iplist := [], return_count := 0,
        events := [Event.namecache_fetch "nobody" 0x20, Event.backend Backend.hosts 0x20] } ∧
    (internal_resolve_name sample_env "nobody" 0x20 none "host").stores = [] := by
  decide

/-- C4, amended: whenever `internal_resolve_name` runs the backends for a name
(not a literal address, not in the name cache, order other than "NULL") and
one of them returns `NT_STATUS_OK`, its last act before returning is the call
of `namecache_store` with the list it returns, that is the backend's answer
after `remove_duplicate_addrs2`, and its count, under the name type of the
request or, for the `kdc` backend, under `KDC_NAME_TYPE`. When every backend
of the order fails nothing is stored and `NT_STATUS_UNSUCCESSFUL` is
returned. -/
theorem internal_resolve_name_stores (env : ResolveEnv) (name : String) (name_type : Nat)
    (sitename : Option String) (resolve_order : String)
    (hlit : env.is_ipaddress name = false)
    (hcache : env.namecache_fetch name name_type = none)
    (hnull : resolve_order ≠ "NULL") :
    (∃ b, b ∈ backend_plan env name_type
          (env.next_token_talloc (if resolve_order = "" then "host" else resolve_order)) ∧
      (backend_answer env name name_type sitename b).1 = NT_STATUS_OK ∧
      (internal_resolve_name env name name_type sitename resolve_order).return_iplist
        = dedup (backend_answer env name name_type sitename b).2 ∧
      (internal_resolve_name env name name_type sitename resolve_order).return_count
        = (dedup (backend_answer env name name_type sitename b).2).length ∧
      (internal_resolve_name env name name_type sitename resolve_order).stores
        = [Event.namecache_store name (store_name_type name_type b)
            (dedup (backend_answer env name name_type sitename b).2).length
            (dedup (backend_answer env name name_type sitename b).2)] ∧
      (internal_resolve_name env name name_type sitename resolve_order).events.getLast?
        = some (Event.namecache_store name (store_name_type name_type b)
            (dedup (backend_answer env name name_type sitename b).2).length
            (dedup (backend_answer env name name_type sitename b).2))) ∨
    ((∀ x ∈ backend_plan env name_type
          (env.next_token_talloc (if resolve_order = "" then "host" else resolve_order)),
        (backend_answer env name name_type sitename x).1 ≠ NT_STATUS_OK) ∧
      (internal_resolve_name env name name_type sitename resolve_order).stores = [] ∧
      (internal_resolve_name env name name_type sitename resolve_order).status
        = NT_STATUS_UNSUCCESSFUL) := by
  rw [internal_resolve_name_loop env name name_type sitename resolve_order hlit hcache hnull]
  rcases resolve_tokens_spec env name name_type sitename
      (env.next_token_talloc (if resolve_order = "" then "host" else resolve_order))
      [Event.namecache_fetch name name_type] with
    ⟨pre, b, post, hplan, _, hb, hr⟩ | ⟨hall, hr⟩
  · refine Or.inl ⟨b, ?_, hb, ?_, ?_, ?_, ?_⟩
    · rw [hplan]; simp
    · rw [hr]
    · rw [hr]
    · rw [hr]
      exact stores_events _ _ _ _ _ _ _ rfl
    · rw [hr]
      exact List.getLast?_concat _
  · refine Or.inr ⟨hall, ?_, ?_⟩
    · rw [hr]
      have h := stores_events NT_STATUS_UNSUCCESSFUL [] 0 name name_type
        (backend_plan env name_type
          (env.next_token_talloc (if resolve_order = "" then "host" else resolve_order)))
        [] rfl
      rw [List.append_nil] at h
      exact h
    · rw [hr]

/-- The amended C4 at a concrete input: `pc7` with the order
"wins lmhosts host". -/
theorem internal_resolve_name_stores_witness :
    (∃ b, b ∈ backend_plan sample_env 0x20
          (sample_env.next_token_talloc
            (if "wins lmhosts host" = "" then "host" else "wins lmhosts host")) ∧
      (backend_answer sample_env "pc7" 0x20 none b).1 = NT_STATUS_OK ∧
      (internal_resolve_name sample_env "pc7" 0x20 none "wins lmhosts host").return_iplist
        = dedup (backend_answer sample_env "pc7" 0x20 none b).2 ∧
      (internal_resolve_name sample_env "pc7" 0x20 none "wins lmhosts host").return_count
        = (dedup (backend_answer sample_env "pc7" 0x20 none b).2).length ∧
      (internal_resolve_name sample_env "pc7" 0x20 none "wins lmhosts host").stores
        = [Event.namecache_store "pc7" (store_name_type 0x20 b)
            (dedup (backend_answer sample_env "pc7" 0x20 none b).2).length
            (dedup (backend_answer sample_env "pc7" 0x20 none b).2)] ∧
      (internal_resolve_name sample_env "pc7" 0x20 none "wins lmhosts host").events.getLast?
        = some (Event.namecache_store "pc7" (store_name_type 0x20 b)
            (dedup (backend_answer sample_env "pc7" 0x20 none b).2).length
            (dedup (backend_answer sample_env "pc7" 0x20 none b).2))) ∨
    ((∀ x ∈ backend_plan sample_env 0x20
          (sample_env.next_token_talloc
            (if "wins lmhosts host" = "" then "host" else "wins lmhosts host")),
        (backend_answer sample_env "pc7" 0x20 none x).1 ≠ NT_STATUS_OK) ∧
      (internal_resolve_name sample_env "pc7" 0x20 none "wins lmhosts host").stores = [] ∧
      (internal_resolve_name sample_env "pc7" 0x20 none "wins lmhosts host").status
        = NT_STATUS_UNSUCCESSFUL) :=
  internal_resolve_name_stores sample_env "pc7" 0x20 none "wins lmhosts host"
    (by decide) (by decide) (by decide)

theorem kept_from_eq_nil : ∀ (l earlier : List ip_service),
    (∀ p ∈ earlier, is_zero_addr p.ss = true) → kept_from earlier l = [] →
    ∀ e ∈ l, is_zero_addr e.ss = true := by
  intro l
  induction l with
  | nil => intro _ _ _ e he; exact absurd he (List.not_mem_nil _)
  | cons x xs ih =>
    intro earlier hearlier hnil e he
    have hany : is_zero_addr x.ss = false → earlier.any (fun p => same_addr_port p x) = false := by
      intro hx
      rw [Bool.eq_false_iff]
      intro h
      rw [List.any_eq_true] at h
      obtain ⟨p, hp, hpx⟩ := h
      have := same_addr_port_zero hpx
      rw [hearlier p hp, hx] at this
      exact Bool.noConfusion this
    rw [kept_from] at hnil
    by_cases hz : is_zero_addr x.ss = true
    · rw [hz, Bool.true_or, if_pos rfl] at hnil
      have hearlier' : ∀ p ∈ earlier ++ [x], is_zero_addr p.ss = true := by
        intro p hp
        rcases List.mem_append.mp hp with hp | hp
        · exact hearlier p hp
        · rw [List.mem_singleton.mp hp]; exact hz
      rcases List.mem_cons.mp he with rfl | he'
      · exact hz
      · exact ih _ hearlier' hnil e he'
    · have hz' : is_zero_addr x.ss = false := by simpa using hz
      rw [hz', hany hz'] at hnil
      simp only [Bool.or_self, Bool.false_eq_true, if_false] at hnil
      exact absurd hnil (List.cons_ne_nil _ _)

theorem dedup_eq_nil (L : List ip_service) (h : dedup L = []) :
    ∀ e ∈ L, is_zero_addr e.ss = true := by
  rw [dedup_eq_kept] at h
  exact kept_from_eq_nil L [] (fun p hp => absurd hp (List.not_mem_nil _)) h

theorem convert_ss2service_ne_nil (l : List sockaddr_storage) (iplist : List ip_service)
    (h : convert_ss2service l = some iplist) : iplist ≠ [] := by
  cases l with
  | nil => rw [convert_ss2service_nil] at h; exact Option.noConfusion h
  | cons ss rest =>
    rw [convert_ss2service_cons] at h
    rw [← Option.some.inj h]
    exact List.cons_ne_nil _ _

theorem resolve_lmhosts_ok (env : ResolveEnv) (name : String) (name_type : Nat)
    (h : (resolve_lmhosts env name name_type).1 = NT_STATUS_OK) :
    (resolve_lmhosts env name name_type).2 ≠ [] := by
  unfold resolve_lmhosts at h ⊢
  by_cases h1 : (env.resolve_lmhosts_file_as_sockaddr env.get_dyn_LMHOSTSFILE name
      name_type).1 = NT_STATUS_OK
  · simp only [h1, if_true] at h ⊢
    cases hc : convert_ss2service
        (env.resolve_lmhosts_file_as_sockaddr env.get_dyn_LMHOSTSFILE name name_type).2 with
    | none => rw [hc] at h; exact absurd h (by decide)
    | some iplist => exact convert_ss2service_ne_nil _ _ hc
  · simp only [h1, if_false] at h

theorem resolve_hosts_ok (env : ResolveEnv) (name : String) (name_type : Nat)
    (h : (resolve_hosts env name name_type).1 = NT_STATUS_OK) :
    (resolve_hosts env name name_type).2 ≠ [] := by
  unfold resolve_hosts at h ⊢
  by_cases h0 : name_type ≠ 0x20 ∧ name_type ≠ 0x0
  · rw [if_pos h0] at h; exact absurd h (by decide)
  · rw [if_neg h0] at h ⊢
    cases hf : env.dns_hosts_file with
    | some file =>
      rw [hf] at h
      simp only [] at h ⊢
      by_cases h1 : (env.resolve_dns_hosts_file_as_sockaddr file name).1 = NT_STATUS_OK
      · simp only [h1, if_true] at h ⊢
        cases hc : convert_ss2service (env.resolve_dns_hosts_file_as_sockaddr file name).2 with
        | none => rw [hc] at h; exact absurd h (by decide)
        | some iplist => exact convert_ss2service_ne_nil _ _ hc
      · simp only [h1, if_false] at h
        exact absurd h (by decide)
    | none =>
      rw [hf] at h
      simp only [] at h ⊢
      by_cases h1 : (resolve_hosts_collect (env.getaddrinfo name)).length ≠ 0
      · simp only [if_pos h1]
        intro hnil
        rw [hnil] at h1
        exact h1 rfl
      · simp only [if_neg h1] at h
        exact absurd h (by decide)

/-- C5 as stated fails: `resolve_ads` returns `NT_STATUS_OK` with no entry when
the one SRV target has no inline address and its host name does not resolve,
and `internal_resolve_name` hands this up as `NT_STATUS_OK` with
`return_count` 0, after storing the empty list in the name cache. -/
theorem internal_resolve_name_ok_with_empty_list :
    resolve_ads sample_env "example.com" 0x1c none = (NT_STATUS_OK, []) ∧
    internal_resolve_name sample_env "example.com" 0x1c none "ads" =
      { status := NT_STATUS_OK, return_iplist := [], return_count := 0,
        events := [Event.namecache_fetch "example.com" 0x1c, Event.backend Backend.ads 0x1c,
          Event.namecache_store "example.com" 0x1c 0 []] } := by
  decide

/-- C5, amended: whenever `internal_resolve_name` returns `NT_STATUS_OK` the
returned count is the length of the returned list, and the list is non-empty
unless a backend of the order answered `NT_STATUS_OK` with a list that holds
no non-zero address; a backend answer with no entry at all comes up as
`NT_STATUS_OK` only from the `ads` and `kdc` backends, whose `resolve_ads`
leaves out zero addresses and still reports success. -/
theorem internal_resolve_name_ok_list (env : ResolveEnv) (name : String) (name_type : Nat)
    (sitename : Option String) (resolve_order : String)
    (hok : (internal_resolve_name env name name_type sitename resolve_order).status
      = NT_STATUS_OK) :
    (internal_resolve_name env name name_type sitename resolve_order).return_count
      = (internal_resolve_name env name name_type sitename resolve_order).return_iplist.length ∧
    ((internal_resolve_name env name name_type sitename resolve_order).return_iplist = [] →
      ∃ b, b ∈ backend_plan env name_type
          (env.next_token_talloc (if resolve_order = "" then "host" else resolve_order)) ∧
        (backend_answer env name name_type sitename b).1 = NT_STATUS_OK ∧
        (∀ e ∈ (backend_answer env name name_type sitename b).2, is_zero_addr e.ss = true) ∧
        ((backend_answer env name name_type sitename b).2 = [] →
          b = Backend.ads ∨ b = Backend.kdc)) := by
  by_cases hlit : env.is_ipaddress name = true
  · by_cases haddr : (env.interpret_string_addr name AI_NUMERICHOST).1 = true
    · have hr : internal_resolve_name env name name_type sitename resolve_order =
          { status := NT_STATUS_OK,
            return_iplist :=
              [{ ss := (env.interpret_string_addr name AI_NUMERICHOST).2, port := PORT_NONE }],
            return_count := 1, events := [] } := by
        unfold internal_resolve_name
        rw [hlit, haddr]
        simp only [if_true, Bool.not_true, Bool.false_eq_true, if_false]
      rw [hr]
      exact ⟨rfl, fun h => absurd h (List.cons_ne_nil _ _)⟩
    · have haddr' : (env.interpret_string_addr name AI_NUMERICHOST).1 = false := by
        simpa using haddr
      unfold internal_resolve_name at hok
      rw [hlit, haddr'] at hok
      simp only [if_true, Bool.not_false] at hok
      exact NTSTATUS.noConfusion hok
  · have hlit' : env.is_ipaddress name = false := by simpa using hlit
    cases hcache : env.namecache_fetch name name_type with
    | some iplist =>
      by_cases hlen : iplist.length > 0
      · have hr : internal_resolve_name env name name_type sitename resolve_order =
            { status := NT_STATUS_OK, return_iplist := iplist, return_count := iplist.length,
              events := [Event.namecache_fetch name name_type] } := by
          unfold internal_resolve_name
          rw [hlit', hcache]
          simp only [Bool.false_eq_true, if_false, if_pos hlen]
        rw [hr]
        refine ⟨rfl, fun h => ?_⟩
        have h' : iplist = [] := h
        rw [h'] at hlen
        exact absurd hlen (by decide)
      · unfold internal_resolve_name at hok
        rw [hlit', hcache] at hok
        simp only [Bool.false_eq_true, if_false, if_neg hlen] at hok
        exact NTSTATUS.noConfusion hok
    | none =>
      by_cases hnull : resolve_order = "NULL"
      · unfold internal_resolve_name at hok
        rw [hlit', hcache] at hok
        simp only [Bool.false_eq_true, if_false, if_pos hnull] at hok
        exact NTSTATUS.noConfusion hok
      · rw [internal_resolve_name_loop env name name_type sitename resolve_order hlit' hcache
          hnull] at hok ⊢
        rcases resolve_tokens_spec env name name_type sitename
            (env.next_token_talloc (if resolve_order = "" then "host" else resolve_order))
            [Event.namecache_fetch name name_type] with
          ⟨pre, b, post, hplan, _, hb, hr⟩ | ⟨_, hr⟩
        · rw [hr] at hok ⊢
          refine ⟨rfl, fun hnil => ⟨b, ?_, hb, dedup_eq_nil _ hnil, ?_⟩⟩
          · rw [hplan]; simp
          · intro hempty
            simp only [final_status] at hok
            cases b with
            | hosts =>
              exact absurd hempty (resolve_hosts_ok env name name_type hb)
            | kdc => exact Or.inr rfl
            | ads => exact Or.inl rfl
            | lmhosts =>
              exact absurd hempty (resolve_lmhosts_ok env name name_type hb)
            | wins =>
              rw [if_pos ⟨Or.inl rfl, hempty⟩] at hok
              exact absurd hok (by decide)
            | bcast =>
              rw [if_pos ⟨Or.inr rfl, hempty⟩] at hok
              exact absurd hok (by decide)
        · rw [hr] at hok
          exact NTSTATUS.noConfusion hok

/-- The amended C5 at a concrete input: the `ads` lookup of `example.com`. -/
theorem internal_resolve_name_ok_list_witness :
    (internal_resolve_name sample_env "example.com" 0x1c none "ads").return_count
      = (internal_resolve_name sample_env "example.com" 0x1c none "ads").return_iplist.length ∧
    ((internal_resolve_name sample_env "example.com" 0x1c none "ads").return_iplist = [] →
      ∃ b, b ∈ backend_plan sample_env 0x1c
          (sample_env.next_token_talloc (if "ads" = "" then "host" else "ads")) ∧
        (backend_answer sample_env "example.com" 0x1c none b).1 = NT_STATUS_OK ∧
        (∀ e ∈ (backend_answer sample_env "example.com" 0x1c none b).2,
          is_zero_addr e.ss = true) ∧
        ((backend_answer sample_env "example.com" 0x1c none b).2 = [] →
          b = Backend.ads ∨ b = Backend.kdc)) :=
  internal_resolve_name_ok_list sample_env "example.com" 0x1c none "ads" (by decide)

/-! ## Server affinity: claims C19 and C20 -/

theorem parse_node_status_loop_eq (p : List Nat) : ∀ (n off : Nat),
    off + 18 * n ≤ p.length + 1 →
    parse_node_status_loop p n off =
      some ((List.range n).map (fun i => parse_node_status_record p (off + 18 * i)),
        off + 18 * n) := by
  intro n
  induction n with
  | zero => intro off _; rfl
  | succ n ih =>
    intro off hlen
    rw [parse_node_status_loop, if_neg (by omega), ih (off + 18) (by omega)]
    simp only [Option.some.injEq]
    refine Prod.ext ?_ ?_
    · simp only [List.range_succ_eq_map, List.map_cons, List.map_map, Nat.mul_zero,
        Nat.add_zero, List.cons.injEq, true_and]
      apply List.map_congr_left
      intro i _
      simp only [Function.comp]
      congr 1
      omega
    · simp only []
      omega

/-- C18 as stated fails: the flags of a record are read from byte 16 alone, the
second flag byte is stepped over. For one record `FILESRV` of type 0x20 with
the flag bytes 0x44 0x80 the code returns the flags 0x44, where the two-byte
field holds 0x4480, and a name byte NUL ends the name before its 15 bytes. -/
theorem parse_node_status_one_flag_byte :
    parse_node_status
      ([1, 70, 73, 76, 69, 83, 82, 86, 32, 32, 32, 32, 32, 32, 32, 32, 0x20, 0x44, 0x80,
        0, 1, 2, 3, 4, 5]) true
      = some (some [⟨[70, 73, 76, 69, 83, 82, 86], 0x20, 0x44⟩], 1, some [0, 1, 2, 3, 4, 5]) ∧
    node_status_flags_as_specified
      ([1, 70, 73, 76, 69, 83, 82, 86, 32, 32, 32, 32, 32, 32, 32, 32, 0x20, 0x44, 0x80,
        0, 1, 2, 3, 4, 5]) 1 = 0x4480 ∧
    (parse_node_status_record
      ([1, 70, 73, 0, 69, 83, 82, 86, 32, 32, 32, 32, 32, 32, 32, 32, 0x20, 0x44, 0x80]) 1).name
      = [70, 73] := by
  decide

/-- C18, amended: for every node-status answer whose buffer holds, after the
first byte n > 0, the 18n bytes of n records and, when the caller passes
`extra`, the 6 bytes after them, `parse_node_status` returns n records, the
i-th decoded from the 18 bytes at offset 1+18*i: the name from the first 15
bytes, cut at the first NUL and with trailing spaces removed, the type from
byte 15, and the flags from byte 16, the first of the two flag bytes; when
the caller passes `extra`, the 6 bytes following the last record are
returned as the MAC address. For n = 0 it returns no records and no MAC
address. -/
theorem parse_node_status_records (p : List Nat) (extra : Bool) (hcount : 1 ≤ p.length)
    (hlen : CVAL p 0 ≠ 0 → 1 + 18 * CVAL p 0 + (if extra then 6 else 0) ≤ p.length) :
    parse_node_status p extra =
      some (if CVAL p 0 = 0 then (none, 0, none)
        else
          (some ((List.range (CVAL p 0)).map (fun i =>
              { name := trim_trailing_spaces (StrnCpy (bytes_at p (1 + 18 * i) 15) 15)
                type := CVAL p (1 + 18 * i + 15)
                flags := CVAL p (1 + 18 * i + 16) })),
            CVAL p 0,
            if extra then some (bytes_at p (1 + 18 * CVAL p 0) 6) else none)) := by
  unfold parse_node_status
  rw [if_neg (by omega)]
  by_cases hn : CVAL p 0 = 0
  · rw [if_pos hn, if_pos hn]
  · have h := hlen hn
    rw [if_neg hn, if_neg hn, parse_node_status_loop_eq p (CVAL p 0) 1 (by omega)]
    simp only []
    cases extra with
    | true =>
      simp only [if_true] at h ⊢
      rw [if_neg (by omega)]
      rfl
    | false => rfl

/-- The amended C18 at a concrete input: one record `FILESRV` and the MAC
address 00:01:02:03:04:05 in a buffer of 25 bytes. -/
theorem parse_node_status_records_witness :
    parse_node_status
      ([1, 70, 73, 76, 69, 83, 82, 86, 32, 32, 32, 32, 32, 32, 32, 32, 0x20, 0x44, 0x80,
        0, 1, 2, 3, 4, 5]) true
      = some (some [⟨[70, 73, 76, 69, 83, 82, 86], 0x20, 0x44⟩], 1, some [0, 1, 2, 3, 4, 5]) :=
  parse_node_status_records
    ([1, 70, 73, 76, 69, 83, 82, 86, 32, 32, 32, 32, 32, 32, 32, 32, 0x20, 0x44, 0x80,
      0, 1, 2, 3, 4, 5]) true (by decide) (fun _ => by decide)

/-! ## name_query_recv: claim C15 -/

/-- C15: `name_query_recv` for a broadcast query that ended with
`NT_STATUS_IO_TIMEOUT` returns `NT_STATUS_OK` with the collected addresses,
passed through `sort_addr_list`, when at least one address was collected,
and `NT_STATUS_NOT_FOUND` when none was; for a unicast query the timeout is
returned unchanged as `NT_STATUS_IO_TIMEOUT` even if addresses were
collected. -/
theorem name_query_recv_timeout
    (qsort : (sockaddr_storage → sockaddr_storage → Int) →
      List sockaddr_storage → List sockaddr_storage)
    (ifs : Interfaces) (state : name_query_state) :
    name_query_recv qsort ifs (some NT_STATUS_IO_TIMEOUT) { state with bcast := true } =
      (if state.num_addrs = 0 then
        { status := NT_STATUS_NOT_FOUND, addrs := [], num_addrs := 0, flags := none }
      else
        { status := NT_STATUS_OK,
          addrs := sort_addr_list qsort ifs (state.addrs.take state.num_addrs),
          num_addrs := state.num_addrs, flags := some state.flags }) ∧
    name_query_recv qsort ifs (some NT_STATUS_IO_TIMEOUT) { state with bcast := false } =
      { status := NT_STATUS_IO_TIMEOUT, addrs := [], num_addrs := 0, flags := none } := by
  constructor
  · simp [name_query_recv, tevent_req_is_nterror]
  · simp [name_query_recv, tevent_req_is_nterror]

/-! ## sock_packet_read: claim C16 -/

theorem read_matches_got_socket (t : Int) (validator : Option (packet_struct → Bool))
    (Q : packet_struct → Prop)
    (ht : t ≠ -1) (s : sock_packet_read_state) (r : recvfrom_result)
    (hs : read_matches t validator Q s) (hreq : s.req = none) :
    read_matches t validator Q (sock_packet_read_got_socket s r) := by
  obtain ⟨h1, h2, _⟩ := hs
  unfold sock_packet_read_got_socket sock_packet_read_retry tevent_req_nterror
  split_ifs with c1 c2 c3 c4
  · exact ⟨h1, h2, fun h => by rw [hreq] at h; exact Option.noConfusion h⟩
  · exact ⟨h1, h2, fun h => by rw [hreq] at h; exact Option.noConfusion h⟩
  · refine ⟨h1, h2, fun h => ?_⟩
    exact absurd (Option.some.inj h) c3
  · exact ⟨h1, h2, fun h => by rw [hreq] at h; exact Option.noConfusion h⟩
  · cases hp : r.parsed with
    | none =>
      exact ⟨h1, h2, fun h => by rw [hreq] at h; exact Option.noConfusion h⟩
    | some p =>
      simp only []
      split_ifs with c5 c6
      · exact ⟨h1, h2, fun h => by rw [hreq] at h; exact Option.noConfusion h⟩
      · exact ⟨h1, h2, fun h => by rw [hreq] at h; exact Option.noConfusion h⟩
      · refine ⟨h1, h2, fun _ => ⟨p, rfl, ?_, Or.inl ?_⟩⟩
        · rw [← h2]
          exact Bool.eq_false_iff.mpr c6
        · rw [h1] at c5
          by_contra hne
          exact c5 ⟨ht, fun h => hne h.symm⟩

theorem read_matches_got_packet (t : Int) (validator : Option (packet_struct → Bool))
    (Q : packet_struct → Prop)
    (s : sock_packet_read_state) (status : NTSTATUS) (p : packet_struct)
    (hs : read_matches t validator Q s) (hreq : s.req = none)
    (hp : status = NT_STATUS_OK → Q p) :
    read_matches t validator Q (sock_packet_read_got_packet s status p) := by
  obtain ⟨h1, h2, _⟩ := hs
  unfold sock_packet_read_got_packet tevent_req_nterror
  split_ifs with c1 c2 c3
  · exact ⟨h1, h2, fun h => by rw [hreq] at h; exact Option.noConfusion h⟩
  · exact ⟨h1, h2, fun h => absurd (Option.some.inj h) c1⟩
  · exact ⟨h1, h2, fun h => by rw [hreq] at h; exact Option.noConfusion h⟩
  · refine ⟨h1, h2, fun _ => ⟨p, rfl, ?_, Or.inr (hp (not_not.mp c1))⟩⟩
    rw [← h2]
    exact Bool.eq_false_iff.mpr c3

theorem read_matches_step (t : Int) (validator : Option (packet_struct → Bool))
    (Q : packet_struct → Prop)
    (ht : t ≠ -1) (s : sock_packet_read_state) (e : sock_event)
    (hs : read_matches t validator Q s)
    (he : ∀ status p, e = sock_event.reader status p → status = NT_STATUS_OK → Q p) :
    read_matches t validator Q (sock_packet_read_step s e) := by
  cases e with
  | socket r =>
    simp only [sock_packet_read_step]
    split_ifs with c
    · have hreq : s.req = none := by
        cases hr : s.req with
        | none => rfl
        | some x => rw [hr] at c; exact absurd c.1 (by simp)
      exact read_matches_got_socket t validator Q ht s r hs hreq
    · exact hs
  | reader status p =>
    simp only [sock_packet_read_step]
    split_ifs with c
    · have hreq : s.req = none := by
        cases hr : s.req with
        | none => rfl
        | some x => rw [hr] at c; exact absurd c.1 (by simp)
      exact read_matches_got_packet t validator Q s status p hs hreq (he status p rfl)
    · exact hs

theorem read_matches_foldl (t : Int) (validator : Option (packet_struct → Bool))
    (Q : packet_struct → Prop)
    (ht : t ≠ -1) : ∀ (events : List sock_event) (s : sock_packet_read_state),
    read_matches t validator Q s →
    (∀ status p, sock_event.reader status p ∈ events → status = NT_STATUS_OK → Q p) →
    read_matches t validator Q (events.foldl sock_packet_read_step s) := by
  intro events
  induction events with
  | nil => intro s hs _; exact hs
  | cons e rest ih =>
    intro s hs he
    rw [List.foldl_cons]
    apply ih
    · apply read_matches_step t validator Q ht s e hs
      intro status p heq
      exact he status p (heq ▸ List.mem_cons_self _ _)
    · intro status p hmem
      exact he status p (List.mem_cons_of_mem _ hmem)

/-- C16, the case that fails: a read for the transaction id 7 that has a
packet reader completes with success when the reader hands over a packet with
the transaction id 9, and returns that packet: `sock_packet_read_got_packet`
applies the validator only and does not compare the id. -/
theorem sock_packet_read_reader_other_trn_id :
    (sock_packet_read_run true 7 none
      [sock_event.reader NT_STATUS_OK { (default : packet_struct) with
          header := { (default : nmb_header) with name_trn_id := 9 } }]).req
      = some NT_STATUS_OK ∧
    (sock_packet_read_run true 7 none
      [sock_event.reader NT_STATUS_OK { (default : packet_struct) with
          header := { (default : nmb_header) with name_trn_id := 9 } }]).packet
      = some { (default : packet_struct) with
          header := { (default : nmb_header) with name_trn_id := 9 } } ∧
    packet_trn_id { (default : packet_struct) with
        header := { (default : nmb_header) with name_trn_id := 9 } } ≠ 7 :=
  ⟨by decide, rfl, by decide⟩

/-- C16 as the code has it: for every read started with a transaction id `t`
(any id but the wildcard -1) and every sequence of datagrams arriving on the
socket and of packets handed over by the packet reader: a response received
on the socket whose transaction id differs from `t` does not complete the
pending read, it is discarded and a new `recvfrom` is started; a packet that
the packet reader hands over with success is not compared with `t`, it
completes the read whenever the validator accepts it; and whenever the read
completes with success, the packet it returns has passed the validator and
either carries the transaction id `t` or was handed over with success by the
packet reader. -/
theorem sock_packet_read_matches_trn_id (reader : Bool) (t : Int)
    (validator : Option (packet_struct → Bool)) (events : List sock_event)
    (ht : t ≠ -1) :
    (∀ (state : sock_packet_read_state) (r : recvfrom_result) (p : packet_struct),
      state.trn_id = t → r.received ≠ -1 → r.parsed = some p → packet_trn_id p ≠ t →
      sock_packet_read_got_socket state r = { state with packet := none, socket_req := true }) ∧
    (∀ (state : sock_packet_read_state) (p : packet_struct),
      state.trn_id = t → validator_rejects state.validator p = false →
      sock_packet_read_got_packet state NT_STATUS_OK p =
        { state with reader_req := false, packet := some p, socket_req := false,
                     req := some NT_STATUS_OK }) ∧
    ((sock_packet_read_run reader t validator events).req = some NT_STATUS_OK →
      ∃ p, (sock_packet_read_run reader t validator events).packet = some p ∧
        validator_rejects validator p = false ∧
        (packet_trn_id p = t ∨ sock_event.reader NT_STATUS_OK p ∈ events)) := by
  refine ⟨?_, ?_, ?_⟩
  · intro state r p hst hrecv hparsed hne
    unfold sock_packet_read_got_socket sock_packet_read_retry
    rw [if_neg hrecv, hparsed]
    by_cases hfam : r.ss_family ≠ AF_INET
    · rw [if_pos hfam]
    · rw [if_neg hfam]
      simp only []
      rw [hst, if_pos ⟨ht, fun h => hne h.symm⟩]
  · intro state p _ hval
    unfold sock_packet_read_got_packet
    rw [if_neg (fun h => h rfl), hval]
    simp
  · have h := read_matches_foldl t validator
      (fun p => sock_event.reader NT_STATUS_OK p ∈ events) ht events
      (sock_packet_read_send reader t validator)
      ⟨rfl, rfl, fun h => Option.noConfusion h⟩
      (fun status p hmem hst => by rw [hst] at hmem; exact hmem)
    exact h.2.2

/-- C16 at a concrete input: a read for the transaction id 7 that has a packet
reader gets a datagram with the id 8, then a failure of the packet reader,
then a datagram with the id 7; the first datagram is discarded and leaves the
read in progress, the second completes it. -/
theorem sock_packet_read_matches_trn_id_witness :
    (sock_packet_read_run true 7 none
      [sock_event.socket ⟨50, NT_STATUS_OK, AF_INET, some { (default : packet_struct) with
          header := { (default : nmb_header) with name_trn_id := 8 } }⟩]).req = none ∧
    (∃ p, (sock_packet_read_run true 7 none
        [sock_event.socket ⟨50, NT_STATUS_OK, AF_INET, some { (default : packet_struct) with
            header := { (default : nmb_header) with name_trn_id := 8 } }⟩,
         sock_event.reader NT_STATUS_IO_TIMEOUT default,
         sock_event.socket ⟨50, NT_STATUS_OK, AF_INET, some { (default : packet_struct) with
            header := { (default : nmb_header) with name_trn_id := 7 } }⟩]).packet = some p ∧
        validator_rejects none p = false ∧
        (packet_trn_id p = 7 ∨ sock_event.reader NT_STATUS_OK p ∈
          [sock_event.socket ⟨50, NT_STATUS_OK, AF_INET, some { (default : packet_struct) with
              header := { (default : nmb_header) with name_trn_id := 8 } }⟩,
           sock_event.reader NT_STATUS_IO_TIMEOUT default,
           sock_event.socket ⟨50, NT_STATUS_OK, AF_INET, some { (default : packet_struct) with
              header := { (default : nmb_header) with name_trn_id := 7 } }⟩])) :=
  ⟨by decide,
    (sock_packet_read_matches_trn_id true 7 none
      [sock_event.socket ⟨50, NT_STATUS_OK, AF_INET, some { (default : packet_struct) with
          header := { (default : nmb_header) with name_trn_id := 8 } }⟩,
       sock_event.reader NT_STATUS_IO_TIMEOUT default,
       sock_event.socket ⟨50, NT_STATUS_OK, AF_INET, some { (default : packet_struct) with
          header := { (default : nmb_header) with name_trn_id := 7 } }⟩]
      (by decide)).2.2 (by decide)⟩

/-! ## query_wins_list: claims C11, C12 and C13 -/

theorem take_succ_getD {α : Type} [Inhabited α] (l : List α) (i : Nat) (h : i < l.length) :
    l.take (i + 1) = l.take i ++ [l.getD i default] := by
  rw [List.take_succ, List.getD_eq_getElem?_getD, List.getElem?_eq_getElem h]
  rfl

theorem query_wins_list_loop_ended (reply : Nat → name_query_result) (fuel : Nat)
    (s : query_wins_list_state) (status : NTSTATUS) (h : s.req = some status) :
    query_wins_list_loop reply fuel s = s := by
  cases fuel with
  | zero => rfl
  | succ n => rw [query_wins_list_loop, h]

theorem query_wins_list_loop_spec (servers : List in_addr) (reply : Nat → name_query_result) :
    ∀ (fuel : Nat) (s : query_wins_list_state), wins_in_progress servers s →
      servers.length - s.num_sent + 1 ≤ fuel →
      ∃ k, s.num_sent - 1 ≤ k ∧ k < servers.length ∧
        (∀ j, s.num_sent - 1 ≤ j → j < k → (reply j).status = NT_STATUS_IO_TIMEOUT) ∧
        wins_ended_at servers reply k (query_wins_list_loop reply fuel s) := by
  intro fuel
  induction fuel with
  | zero =>
    intro s hs hfuel
    obtain ⟨_, _, _, h4, _⟩ := hs
    omega
  | succ fuel ih =>
    intro s hs hfuel
    obtain ⟨h1, h2, h3, h4, h5, h6, h7⟩ := hs
    rw [query_wins_list_loop, h7]
    simp only []
    have hk : s.num_sent - 1 < servers.length := by omega
    by_cases hok : (reply (s.num_sent - 1)).status = NT_STATUS_OK
    · refine ⟨s.num_sent - 1, Nat.le_refl _, hk, fun j a b => by omega, ?_⟩
      have hd : query_wins_list_done s (reply (s.num_sent - 1)) =
          { s with addrs := (reply (s.num_sent - 1)).addrs,
                   num_addrs := (reply (s.num_sent - 1)).num_addrs,
                   flags := (reply (s.num_sent - 1)).flags.getD s.flags,
                   req := some NT_STATUS_OK } := by
        unfold query_wins_list_done
        rw [if_pos hok]
      rw [hd, query_wins_list_loop_ended reply fuel _ NT_STATUS_OK rfl]
      refine ⟨?_, ?_, ?_⟩
      · rw [show s.num_sent - 1 + 1 = s.num_sent by omega]; exact h5
      · intro ht; rw [hok] at ht; exact NTSTATUS.noConfusion ht
      · intro _
        exact ⟨h6, by rw [hok], fun _ => ⟨rfl, rfl⟩⟩
    · by_cases hto : (reply (s.num_sent - 1)).status = NT_STATUS_IO_TIMEOUT
      · have hdied : s.died ++ [s.servers.getD (s.num_sent - 1) default]
            = servers.take s.num_sent := by
          rw [h6, h1]
          have := take_succ_getD servers (s.num_sent - 1) hk
          rw [show s.num_sent - 1 + 1 = s.num_sent by omega] at this
          exact this.symm
        by_cases hlast : s.num_sent = s.num_servers
        · refine ⟨s.num_sent - 1, Nat.le_refl _, hk, fun j a b => by omega, ?_⟩
          have hd : query_wins_list_done s (reply (s.num_sent - 1)) =
              { s with died := s.died ++ [s.servers.getD (s.num_sent - 1) default],
                       req := some NT_STATUS_NOT_FOUND } := by
            unfold query_wins_list_done
            rw [if_neg hok, if_neg (not_not.mpr hto), if_pos hlast]
          rw [hd, query_wins_list_loop_ended reply fuel _ NT_STATUS_NOT_FOUND rfl]
          refine ⟨?_, ?_, ?_⟩
          · rw [show s.num_sent - 1 + 1 = s.num_sent by omega]; exact h5
          · intro _
            refine ⟨by omega, ?_, rfl⟩
            show s.died ++ [s.servers.getD (s.num_sent - 1) default] = servers
            rw [hdied, hlast, h2, List.take_length]
          · intro hne; exact absurd hto hne
        · have hd : query_wins_list_done s (reply (s.num_sent - 1)) =
              { s with died := s.died ++ [s.servers.getD (s.num_sent - 1) default],
                       server := in_addr_to_sockaddr_storage (s.servers.getD s.num_sent default),
                       queried := s.queried ++
                         [in_addr_to_sockaddr_storage (s.servers.getD s.num_sent default)],
                       num_sent := s.num_sent + 1 } := by
            unfold query_wins_list_done
            rw [if_neg hok, if_neg (not_not.mpr hto), if_neg hlast]
          have hlt : s.num_sent < servers.length := by omega
          have hinv : wins_in_progress servers (query_wins_list_done s (reply (s.num_sent - 1))) := by
            rw [hd]
            refine ⟨h1, h2, by simp, by simpa using hlt, ?_, ?_, h7⟩
            · show s.queried ++ [in_addr_to_sockaddr_storage (s.servers.getD s.num_sent default)]
                = (servers.take (s.num_sent + 1)).map in_addr_to_sockaddr_storage
              rw [take_succ_getD servers s.num_sent hlt, List.map_append, h5, h1]
              rfl
            · show s.died ++ [s.servers.getD (s.num_sent - 1) default]
                = servers.take (s.num_sent + 1 - 1)
              rw [hdied]; rfl
          have hns : (query_wins_list_done s (reply (s.num_sent - 1))).num_sent
              = s.num_sent + 1 := by rw [hd]
          obtain ⟨k, hk1, hk2, hk3, hk4⟩ := ih _ hinv (by rw [hns]; omega)
          rw [hns] at hk1 hk3
          refine ⟨k, by omega, hk2, ?_, hk4⟩
          intro j hj1 hj2
          by_cases hj : j = s.num_sent - 1
          · rw [hj]; exact hto
          · exact hk3 j (by omega) hj2
      · refine ⟨s.num_sent - 1, Nat.le_refl _, hk, fun j a b => by omega, ?_⟩
        have hd : query_wins_list_done s (reply (s.num_sent - 1)) =
            { s with req := some (reply (s.num_sent - 1)).status } := by
          unfold query_wins_list_done
          rw [if_neg hok, if_pos hto]
        rw [hd, query_wins_list_loop_ended reply fuel _ _ rfl]
        refine ⟨?_, ?_, ?_⟩
        · rw [show s.num_sent - 1 + 1 = s.num_sent by omega]; exact h5
        · intro ht; exact absurd ht hto
        · intro _
          exact ⟨h6, rfl, fun h => absurd h hok⟩

theorem query_wins_list_send_in_progress (servers : List in_addr) (h : servers.length ≠ 0) :
    wins_in_progress servers (query_wins_list_send servers) ∧
      (query_wins_list_send servers).num_sent = 1 := by
  unfold query_wins_list_send
  rw [if_neg h]
  refine ⟨⟨rfl, rfl, Nat.le_refl _, by simp only []; omega, ?_, rfl, rfl⟩, rfl⟩
  show [in_addr_to_sockaddr_storage (servers.getD 0 default)]
    = (servers.take 1).map in_addr_to_sockaddr_storage
  rw [take_succ_getD servers 0 (by omega)]
  rfl

/-- How every run of the sequential engine on a non-empty list ends. -/
theorem query_wins_list_spec (servers : List in_addr) (reply : Nat → name_query_result)
    (h : servers.length ≠ 0) :
    ∃ k, k < servers.length ∧ (∀ j, j < k → (reply j).status = NT_STATUS_IO_TIMEOUT) ∧
      wins_ended_at servers reply k (query_wins_list servers reply) := by
  obtain ⟨hinv, hns⟩ := query_wins_list_send_in_progress servers h
  obtain ⟨k, _, hk2, hk3, hk4⟩ := query_wins_list_loop_spec servers reply servers.length
    (query_wins_list_send servers) hinv (by rw [hns]; omega)
  refine ⟨k, hk2, fun j hj => hk3 j (by rw [hns]; omega) hj, hk4⟩

theorem query_wins_list_recv_failed (s : query_wins_list_state) (status : NTSTATUS)
    (h : s.req = some status) (hne : status ≠ NT_STATUS_OK) :
    (query_wins_list_recv s).status = status := by
  unfold query_wins_list_recv
  rw [h]
  cases status <;> first | exact absurd rfl hne | rfl

theorem query_wins_list_recv_done (s : query_wins_list_state) (h : s.req = some NT_STATUS_OK) :
    (query_wins_list_recv s).status = NT_STATUS_OK ∧ (query_wins_list_recv s).addrs = s.addrs ∧
      (query_wins_list_recv s).num_addrs = s.num_addrs := by
  unfold query_wins_list_recv
  rw [h]
  exact ⟨rfl, rfl, rfl⟩

theorem query_wins_list_empty (reply : Nat → name_query_result) :
    query_wins_list [] reply = query_wins_list_send [] := rfl

/-- C11: when the name queries to all N servers of the list end in a
timeout, `query_wins_list` sends exactly N name queries, one to each server
in list order, reports each of the N servers to `wins_srv_died`, and ends with
`NT_STATUS_NOT_FOUND`. -/
theorem query_wins_list_all_timeout (servers : List in_addr) (reply : Nat → name_query_result)
    (h : ∀ j, j < servers.length → (reply j).status = NT_STATUS_IO_TIMEOUT) :
    (query_wins_list servers reply).queried = servers.map in_addr_to_sockaddr_storage ∧
    (query_wins_list servers reply).queried.length = servers.length ∧
    (query_wins_list servers reply).died = servers ∧
    (query_wins_list_recv (query_wins_list servers reply)).status = NT_STATUS_NOT_FOUND := by
  by_cases hn : servers.length = 0
  · have hs : servers = [] := List.length_eq_zero.mp hn
    subst hs
    exact ⟨rfl, rfl, rfl, rfl⟩
  · obtain ⟨k, hk, _, hq, hto, _⟩ := query_wins_list_spec servers reply hn
    obtain ⟨hlen, hdied, hreq⟩ := hto (h k hk)
    have hqueried : (query_wins_list servers reply).queried
        = servers.map in_addr_to_sockaddr_storage := by
      rw [hq, hlen, List.take_length]
    refine ⟨hqueried, ?_, hdied, ?_⟩
    · rw [hqueried, List.length_map]
    · exact query_wins_list_recv_failed _ _ hreq (by decide)

/-- C11 at a concrete input: the servers W1 and W2 both time out. -/
theorem query_wins_list_all_timeout_witness :
    (query_wins_list sample_wins_servers (fun _ => timeout_outcome)).queried
      = [{ ss_family := AF_INET, addr := [10, 0, 0, 1] },
         { ss_family := AF_INET, addr := [10, 0, 0, 2] }] ∧
    (query_wins_list sample_wins_servers (fun _ => timeout_outcome)).died = sample_wins_servers ∧
    (query_wins_list_recv (query_wins_list sample_wins_servers (fun _ => timeout_outcome))).status
      = NT_STATUS_NOT_FOUND :=
  ⟨(query_wins_list_all_timeout sample_wins_servers (fun _ => timeout_outcome)
      (fun _ _ => rfl)).1,
   (query_wins_list_all_timeout sample_wins_servers (fun _ => timeout_outcome)
      (fun _ _ => rfl)).2.2⟩

/-- C12: when the name queries to the first `k` servers end in a timeout
and the next server answers with addresses, `query_wins_list` has queried
exactly the first `k + 1` servers, in list order and none after the one that
answered, has reported exactly the first `k` servers to `wins_srv_died`, and
ends with success and the addresses of that answer. -/
theorem query_wins_list_failover (servers : List in_addr) (reply : Nat → name_query_result)
    (k : Nat) (hk : k < servers.length)
    (hto : ∀ j, j < k → (reply j).status = NT_STATUS_IO_TIMEOUT)
    (hok : (reply k).status = NT_STATUS_OK) :
    (query_wins_list servers reply).queried
      = (servers.take (k + 1)).map in_addr_to_sockaddr_storage ∧
    (query_wins_list servers reply).died = servers.take k ∧
    (query_wins_list_recv (query_wins_list servers reply)).status = NT_STATUS_OK ∧
    (query_wins_list_recv (query_wins_list servers reply)).addrs = (reply k).addrs ∧
    (query_wins_list_recv (query_wins_list servers reply)).num_addrs = (reply k).num_addrs := by
  obtain ⟨k1, hk1, hto1, hq, hend_to, hend⟩ :=
    query_wins_list_spec servers reply (by omega)
  have hkk : k1 = k := by
    rcases Nat.lt_trichotomy k1 k with hlt | heq | hgt
    · have := (hend_to (hto k1 hlt)).1
      omega
    · exact heq
    · have := hto1 k hgt
      rw [hok] at this
      exact NTSTATUS.noConfusion this
  subst hkk
  have hne : (reply k1).status ≠ NT_STATUS_IO_TIMEOUT := by rw [hok]; decide
  obtain ⟨hdied, hreq, haddrs⟩ := hend hne
  rw [hok] at hreq
  obtain ⟨h1, h2, h3⟩ := query_wins_list_recv_done _ hreq
  obtain ⟨ha, hn⟩ := haddrs hok
  exact ⟨hq, hdied, h1, by rw [h2, ha], by rw [h3, hn]⟩

/-- C12 at a concrete input: of the servers W1 and W2, W1 times out and W2
returns 192.168.1.10. -/
theorem query_wins_list_failover_witness :
    (query_wins_list sample_wins_servers
        (fun j => if j = 0 then timeout_outcome else found_outcome)).queried
      = [{ ss_family := AF_INET, addr := [10, 0, 0, 1] },
         { ss_family := AF_INET, addr := [10, 0, 0, 2] }] ∧
    (query_wins_list sample_wins_servers
        (fun j => if j = 0 then timeout_outcome else found_outcome)).died
      = [{ s_addr := [10, 0, 0, 1] }] ∧
    (query_wins_list_recv (query_wins_list sample_wins_servers
        (fun j => if j = 0 then timeout_outcome else found_outcome))).status = NT_STATUS_OK ∧
    (query_wins_list_recv (query_wins_list sample_wins_servers
        (fun j => if j = 0 then timeout_outcome else found_outcome))).addrs
      = [{ ss_family := AF_INET, addr := [192, 168, 1, 10] }] :=
  ⟨(query_wins_list_failover sample_wins_servers
      (fun j => if j = 0 then timeout_outcome else found_outcome) 1 (by decide)
      (fun j hj => by
        have hj0 : j = 0 := by omega
        subst hj0
        rfl) rfl).1,
   (query_wins_list_failover sample_wins_servers
      (fun j => if j = 0 then timeout_outcome else found_outcome) 1 (by decide)
      (fun j hj => by
        have hj0 : j = 0 := by omega
        subst hj0
        rfl) rfl).2.1,
   (query_wins_list_failover sample_wins_servers
      (fun j => if j = 0 then timeout_outcome else found_outcome) 1 (by decide)
      (fun j hj => by
        have hj0 : j = 0 := by omega
        subst hj0
        rfl) rfl).2.2.1,
   (query_wins_list_failover sample_wins_servers
      (fun j => if j = 0 then timeout_outcome else found_outcome) 1 (by decide)
      (fun j hj => by
        have hj0 : j = 0 := by omega
        subst hj0
        rfl) rfl).2.2.2.1⟩

/-- C13 as stated fails: W1 answers the query for the name
with a negative name query response. `name_query_validator` accepts the
packet and records `NT_STATUS_NOT_FOUND`, the name query ends with that
status, and `query_wins_list` on the list W1, W2 fails with it at once: only
W1 has been queried, W2 never is, and no server is reported dead. -/
theorem query_wins_list_fails_before_exhaustion :
    wins_query_outcome (fun _ l => l) { n_bcast := [], is_local := fun _ => false }
        negative_response = some not_found_outcome ∧
    (query_wins_list_recv (query_wins_list sample_wins_servers
        (fun _ => not_found_outcome))).status = NT_STATUS_NOT_FOUND ∧
    (query_wins_list sample_wins_servers (fun _ => not_found_outcome)).queried
      = [{ ss_family := AF_INET, addr := [10, 0, 0, 1] }] ∧
    (query_wins_list sample_wins_servers (fun _ => not_found_outcome)).num_sent = 1 ∧
    (query_wins_list sample_wins_servers (fun _ => not_found_outcome)).died = [] := by
  decide

/-- C13, amended: when `query_wins_list` ends with a failure, either
every server of the list has been queried, all these queries ended in a
timeout and the status is `NT_STATUS_NOT_FOUND`; or the queries to the first
`k` servers ended in a timeout and the next one ended with a failure other
than a timeout, in which case exactly the first `k + 1` servers have been
queried and the status is that of the failure. The request always ends. -/
theorem query_wins_list_failure (servers : List in_addr) (reply : Nat → name_query_result)
    (hfail : (query_wins_list_recv (query_wins_list servers reply)).status ≠ NT_STATUS_OK) :
    (query_wins_list servers reply).req ≠ none ∧
    (((query_wins_list servers reply).queried = servers.map in_addr_to_sockaddr_storage ∧
        (∀ j, j < servers.length → (reply j).status = NT_STATUS_IO_TIMEOUT) ∧
        (query_wins_list_recv (query_wins_list servers reply)).status = NT_STATUS_NOT_FOUND) ∨
      (∃ k, k < servers.length ∧ (∀ j, j < k → (reply j).status = NT_STATUS_IO_TIMEOUT) ∧
        (reply k).status ≠ NT_STATUS_IO_TIMEOUT ∧ (reply k).status ≠ NT_STATUS_OK ∧
        (query_wins_list servers reply).queried
          = (servers.take (k + 1)).map in_addr_to_sockaddr_storage ∧
        (query_wins_list_recv (query_wins_list servers reply)).status = (reply k).status)) := by
  by_cases hn : servers.length = 0
  · have hs : servers = [] := List.length_eq_zero.mp hn
    subst hs
    refine ⟨by rw [query_wins_list_empty]; simp [query_wins_list_send], Or.inl ⟨rfl, ?_, rfl⟩⟩
    intro j hj
    simp at hj
  · obtain ⟨k, hk, hto, hq, hend_to, hend⟩ := query_wins_list_spec servers reply hn
    by_cases hkto : (reply k).status = NT_STATUS_IO_TIMEOUT
    · obtain ⟨hlen, _, hreq⟩ := hend_to hkto
      refine ⟨by rw [hreq]; simp, Or.inl ⟨?_, ?_, ?_⟩⟩
      · rw [hq, hlen, List.take_length]
      · intro j hj
        by_cases hjk : j = k
        · rw [hjk]; exact hkto
        · exact hto j (by omega)
      · exact query_wins_list_recv_failed _ _ hreq (by decide)
    · obtain ⟨_, hreq, _⟩ := hend hkto
      have hnok : (reply k).status ≠ NT_STATUS_OK := by
        intro hok
        rw [hok] at hreq
        exact hfail (query_wins_list_recv_done _ hreq).1
      exact ⟨by rw [hreq]; simp, Or.inr ⟨k, hk, hto, hkto, hnok, hq,
        query_wins_list_recv_failed _ _ hreq hnok⟩⟩

/-- The amended C13 at a concrete input: W1 of the servers W1 and W2 answers
with a negative response. -/
theorem query_wins_list_failure_witness :
    (query_wins_list_recv (query_wins_list sample_wins_servers
        (fun _ => not_found_outcome))).status ≠ NT_STATUS_OK ∧
    (query_wins_list sample_wins_servers (fun _ => not_found_outcome)).req ≠ none :=
  ⟨by decide,
   (query_wins_list_failure sample_wins_servers (fun _ => not_found_outcome) (by decide)).1⟩

/-! ## resolve_ads: claim C17 -/

theorem getD_append_length {α : Type} (pre suf : List α) (x d : α) :
    (pre ++ x :: suf).getD pre.length d = x := by
  induction pre with
  | nil => rfl
  | cons a pre ih => simpa using ih

theorem unroll_rest_zero (env : ResolveEnv) (rest : List dns_rr_srv) :
    unroll_rest env rest 0 = unrolled_targets env rest := by
  cases rest <;> rfl

theorem unroll_room_zero (rest : List dns_rr_srv) :
    unroll_room rest 0 = (rest.map (fun d => max d.num_ips 1)).sum := by
  cases rest <;> simp [unroll_room]

theorem unroll_rounds_zero (rest : List dns_rr_srv) :
    unroll_rounds rest 0 = (rest.map (fun d => d.num_ips + 1)).sum := by
  cases rest <;> simp [unroll_rounds]

theorem unroll_room_pos (tl : List dns_rr_srv) (h : (tl.map (fun d => max d.num_ips 1)).sum = 0) :
    tl = [] := by
  cases tl with
  | nil => rfl
  | cons d tl =>
    simp only [List.map_cons, List.sum_cons] at h
    have : 1 ≤ max d.num_ips 1 := Nat.le_max_right _ _
    omega

theorem ads_count_entry_length (out : List ip_service) (ss : sockaddr_storage) (port : Nat) :
    (ads_count_entry out ss port).length ≤ out.length + 1 := by
  unfold ads_count_entry
  split <;> simp

theorem ads_count_entry_eq (out : List ip_service) (ss : sockaddr_storage) (port : Nat) :
    ads_count_entry out ss port
      = out ++ ([ss].filter (fun ss => !is_zero_addr ss)).map (fun ss => { ss := ss, port := port }) := by
  unfold ads_count_entry
  by_cases h : is_zero_addr ss = true
  · simp [h]
  · simp [h]

theorem target_entries_step (env : ResolveEnv) (dc : dns_rr_srv) (ips : List sockaddr_storage)
    (h : dc.ss_s = some ips) (j : Nat) (hj : j < ips.length) :
    target_entries env dc j
      = ([ips.getD j default].filter (fun ss => !is_zero_addr ss)).map
          (fun ss => { ss := ss, port := dc.port }) ++ target_entries env dc (j + 1) := by
  unfold target_entries target_addrs
  rw [h]
  simp only []
  rw [List.drop_eq_getElem_cons hj, List.getD_eq_getElem?_getD, List.getElem?_eq_getElem hj]
  simp only [Option.getD_some]
  rw [← List.map_append, ← List.filter_append]
  rfl

theorem target_entries_end (env : ResolveEnv) (dc : dns_rr_srv) (ips : List sockaddr_storage)
    (h : dc.ss_s = some ips) (j : Nat) (hj : ips.length ≤ j) : target_entries env dc j = [] := by
  unfold target_entries target_addrs
  rw [h]
  simp only []
  rw [List.drop_of_length_le hj]
  rfl

theorem target_entries_lookup (env : ResolveEnv) (dc : dns_rr_srv) (h : dc.ss_s = none) :
    target_entries env dc 0
      = ([(env.interpret_string_addr dc.hostname 0).2].filter (fun ss => !is_zero_addr ss)).map
          (fun ss => { ss := ss, port := dc.port }) := by
  unfold target_entries target_addrs
  rw [h]
  rfl

theorem num_ips_none (dc : dns_rr_srv) (h : dc.ss_s = none) : dc.num_ips = 0 := by
  unfold dns_rr_srv.num_ips
  rw [h]

theorem num_ips_some (dc : dns_rr_srv) (ips : List sockaddr_storage) (h : dc.ss_s = some ips) :
    dc.num_ips = ips.length := by
  unfold dns_rr_srv.num_ips
  rw [h]

/-- The unrolling loop of `resolve_ads` at target `pre.length`, address `j`,
with enough fuel and enough room, appends the entries still to come. -/
theorem ads_unroll_spec (env : ResolveEnv) (dcs : List dns_rr_srv) (numaddrs : Nat) :
    ∀ (fuel : Nat) (pre rest : List dns_rr_srv) (j : Nat) (out : List ip_service),
      dcs = pre ++ rest →
      (∀ dc tl, rest = dc :: tl → j ≤ dc.num_ips) →
      out.length + unroll_room rest j ≤ numaddrs →
      unroll_rounds rest j ≤ fuel →
      ads_unroll env dcs numaddrs fuel pre.length j out = out ++ unroll_rest env rest j := by
  intro fuel
  induction fuel with
  | zero =>
    intro pre rest j out _ hj _ hfuel
    cases rest with
    | nil => simp [ads_unroll, unroll_rest]
    | cons dc tl =>
      have := hj dc tl rfl
      simp only [unroll_rounds] at hfuel
      omega
  | succ fuel ih =>
    intro pre rest j out hdcs hj hroom hfuel
    cases rest with
    | nil =>
      have hlen : ¬ (pre.length < dcs.length ∧ out.length < numaddrs) := by
        rw [hdcs]; simp
      rw [ads_unroll, if_neg hlen]
      simp [unroll_rest]
    | cons dc tl =>
      have hjle := hj dc tl rfl
      have hi : pre.length < dcs.length := by rw [hdcs]; simp
      have hget : dcs.getD pre.length default = dc := by
        rw [hdcs]; exact getD_append_length pre tl dc default
      have hnext : dcs = (pre ++ [dc]) ++ tl := by rw [hdcs]; simp
      have hlen1 : (pre ++ [dc]).length = pre.length + 1 := by simp
      simp only [unroll_room] at hroom
      simp only [unroll_rounds] at hfuel
      by_cases hlt : out.length < numaddrs
      · rw [ads_unroll, if_pos ⟨hi, hlt⟩, hget]
        cases hss : dc.ss_s with
        | none =>
          simp only []
          have hn := num_ips_none dc hss
          have hj0 : j = 0 := by omega
          subst hj0
          have hcnt := ads_count_entry_length out (env.interpret_string_addr dc.hostname 0).2 dc.port
          have := ih (pre ++ [dc]) tl 0
            (ads_count_entry out (env.interpret_string_addr dc.hostname 0).2 dc.port) hnext
            (fun _ _ _ => Nat.zero_le _)
            (by rw [unroll_room_zero]; rw [hn] at hroom; simp at hroom; omega)
            (by rw [unroll_rounds_zero]; omega)
          rw [hlen1] at this
          rw [this, unroll_rest_zero, ads_count_entry_eq]
          simp only [unroll_rest]
          rw [target_entries_lookup env dc hss, List.append_assoc]
        | some ips =>
          simp only []
          have hn := num_ips_some dc ips hss
          by_cases hge : j ≥ ips.length
          · rw [if_pos hge]
            have := ih (pre ++ [dc]) tl 0 out hnext (fun _ _ _ => Nat.zero_le _)
              (by rw [unroll_room_zero]; omega) (by rw [unroll_rounds_zero]; omega)
            rw [hlen1] at this
            rw [this, unroll_rest_zero]
            simp only [unroll_rest]
            rw [target_entries_end env dc ips hss j hge, List.nil_append]
          · rw [if_neg hge]
            have hjlt : j < ips.length := by omega
            have hcnt := ads_count_entry_length out (ips.getD j default) dc.port
            have hmax : ips.length ≤ max dc.num_ips 1 := by rw [hn]; exact Nat.le_max_left _ _
            have := ih pre (dc :: tl) (j + 1) (ads_count_entry out (ips.getD j default) dc.port)
              hdcs
              (by
                intro dc1 tl1 h
                injection h with h1 h2
                subst h1
                omega)
              (by simp only [unroll_room]; omega)
              (by simp only [unroll_rounds]; omega)
            rw [this, ads_count_entry_eq]
            simp only [unroll_rest]
            rw [target_entries_step env dc ips hss j hjlt]
            simp only [List.append_assoc]
      · have hlen : ¬ (pre.length < dcs.length ∧ out.length < numaddrs) := fun h => hlt h.2
        rw [ads_unroll, if_neg hlen]
        have h1 : max dc.num_ips 1 ≤ j := by omega
        have h2 : tl = [] := unroll_room_pos tl (by omega)
        have h3 : 1 ≤ max dc.num_ips 1 := Nat.le_max_right _ _
        have h4 : dc.num_ips ≤ max dc.num_ips 1 := Nat.le_max_left _ _
        subst h2
        simp only [unroll_rest, unrolled_targets, List.append_nil]
        cases hss : dc.ss_s with
        | none =>
          have hn := num_ips_none dc hss
          omega
        | some ips =>
          have hn := num_ips_some dc ips hss
          rw [target_entries_end env dc ips hss j (by omega), List.append_nil]

theorem unroll_rounds_le (dcs : List dns_rr_srv) :
    (dcs.map (fun d => d.num_ips + 1)).sum
      ≤ (dcs.map (fun d => max d.num_ips 1)).sum + dcs.length := by
  induction dcs with
  | nil => simp
  | cons d tl ih =>
    simp only [List.map_cons, List.sum_cons, List.length_cons]
    have : d.num_ips ≤ max d.num_ips 1 := Nat.le_max_left _ _
    omega

theorem resolve_ads_eq (env : ResolveEnv) (name : String) (name_type : Nat)
    (sitename : Option String) (dcs : List dns_rr_srv)
    (hq : ads_dns_query env name name_type sitename = some (NT_STATUS_OK, dcs)) :
    resolve_ads env name name_type sitename
      = if (dcs.map (fun dc => max dc.num_ips 1)).sum = 0 then (NT_STATUS_NO_MEMORY, [])
        else
          (NT_STATUS_OK,
            ads_unroll env dcs (dcs.map (fun dc => max dc.num_ips 1)).sum
              ((dcs.map (fun dc => max dc.num_ips 1)).sum + dcs.length) 0 0 []) := by
  unfold ads_dns_query at hq
  unfold resolve_ads
  by_cases h1 : name_type = 0x1b
  · rw [if_pos h1] at hq
    have hr := Option.some.inj hq
    have hc : ¬ (name_type ≠ 0x1c ∧ name_type ≠ KDC_NAME_TYPE ∧ name_type ≠ 0x1b) :=
      fun h => h.2.2 h1
    rw [if_neg hc]
    simp only [if_pos h1, hr]
    simp
  · rw [if_neg h1] at hq
    by_cases h2 : name_type = 0x1c
    · rw [if_pos h2] at hq
      have hr := Option.some.inj hq
      have hc : ¬ (name_type ≠ 0x1c ∧ name_type ≠ KDC_NAME_TYPE ∧ name_type ≠ 0x1b) :=
        fun h => h.1 h2
      rw [if_neg hc]
      simp only [if_neg h1, if_pos h2, hr]
      simp
    · rw [if_neg h2] at hq
      by_cases h3 : name_type = KDC_NAME_TYPE
      · rw [if_pos h3] at hq
        have hr := Option.some.inj hq
        have hc : ¬ (name_type ≠ 0x1c ∧ name_type ≠ KDC_NAME_TYPE ∧ name_type ≠ 0x1b) :=
          fun h => h.2.1 h3
        rw [if_neg hc]
        simp only [if_neg h1, if_neg h2, if_pos h3, hr]
        simp
      · rw [if_neg h3] at hq
        exact Option.noConfusion hq

theorem target_entries_nonzero (env : ResolveEnv) (dc : dns_rr_srv) (j : Nat) :
    ∀ e ∈ target_entries env dc j, is_zero_addr e.ss = false := by
  intro e he
  unfold target_entries at he
  rw [List.mem_map] at he
  obtain ⟨ss, hss, rfl⟩ := he
  rw [List.mem_filter] at hss
  simpa using hss.2

theorem unrolled_targets_nonzero (env : ResolveEnv) (dcs : List dns_rr_srv) :
    ∀ e ∈ unrolled_targets env dcs, is_zero_addr e.ss = false := by
  induction dcs with
  | nil => intro e he; simp [unrolled_targets] at he
  | cons dc tl ih =>
    intro e he
    simp only [unrolled_targets, List.mem_append] at he
    rcases he with he | he
    · exact target_entries_nonzero env dc 0 e he
    · exact ih e he

theorem unrolled_targets_length (env : ResolveEnv) (dcs : List dns_rr_srv) :
    (unrolled_targets env dcs).length
      = (dcs.map (fun dc =>
          ((target_addrs env dc).filter (fun ss => !is_zero_addr ss)).length)).sum := by
  induction dcs with
  | nil => rfl
  | cons dc tl ih =>
    simp only [unrolled_targets, List.length_append, List.map_cons, List.sum_cons, ih]
    simp [target_entries]

theorem numaddrs_eq_zero_iff (dcs : List dns_rr_srv) :
    (dcs.map (fun dc => max dc.num_ips 1)).sum = 0 ↔ dcs = [] := by
  constructor
  · exact unroll_room_pos dcs
  · intro h; rw [h]; rfl

/-- C17: when the SRV query of `resolve_ads` succeeds with the answer list
`dcs`, `resolve_ads` fails with `NT_STATUS_NO_MEMORY` when the list has no
target and otherwise returns `NT_STATUS_OK` and, target after target in SRV
order, one entry for each address of the target that is not zero (its inline
addresses in order, or the one address looked up for its hostname when it
has no inline address list), with the port of the target. So whenever
`resolve_ads` succeeds the list it returns is the unrolled answer, no
returned entry has a zero address, and the count is the number of non-zero
addresses. -/
theorem resolve_ads_unrolls (env : ResolveEnv) (name : String) (name_type : Nat)
    (sitename : Option String) (dcs : List dns_rr_srv)
    (hq : ads_dns_query env name name_type sitename = some (NT_STATUS_OK, dcs)) :
    (dcs = [] → resolve_ads env name name_type sitename = (NT_STATUS_NO_MEMORY, [])) ∧
    (dcs ≠ [] →
      resolve_ads env name name_type sitename = (NT_STATUS_OK, unrolled_targets env dcs)) ∧
    ((resolve_ads env name name_type sitename).1 = NT_STATUS_OK →
      dcs ≠ [] ∧
      (resolve_ads env name name_type sitename).2 = unrolled_targets env dcs ∧
      (∀ e ∈ (resolve_ads env name name_type sitename).2, is_zero_addr e.ss = false) ∧
      (resolve_ads env name name_type sitename).2.length
        = (dcs.map (fun dc =>
            ((target_addrs env dc).filter (fun ss => !is_zero_addr ss)).length)).sum) := by
  have hnil : dcs = [] → resolve_ads env name name_type sitename = (NT_STATUS_NO_MEMORY, []) := by
    intro h
    rw [resolve_ads_eq env name name_type sitename dcs hq,
      if_pos ((numaddrs_eq_zero_iff dcs).mpr h)]
  have hres : dcs ≠ [] → resolve_ads env name name_type sitename
      = (NT_STATUS_OK, unrolled_targets env dcs) := by
    intro hne
    rw [resolve_ads_eq env name name_type sitename dcs hq,
      if_neg (fun h => hne ((numaddrs_eq_zero_iff dcs).mp h))]
    have := ads_unroll_spec env dcs (dcs.map (fun dc => max dc.num_ips 1)).sum
      ((dcs.map (fun dc => max dc.num_ips 1)).sum + dcs.length) [] dcs 0 [] rfl
      (fun _ _ _ => Nat.zero_le _)
      (by rw [unroll_room_zero]; simp)
      (by rw [unroll_rounds_zero]; exact unroll_rounds_le dcs)
    rw [List.length_nil] at this
    rw [this, unroll_rest_zero, List.nil_append]
  refine ⟨hnil, hres, ?_⟩
  intro hok
  have hne : dcs ≠ [] := by
    intro h
    rw [hnil h] at hok
    exact NTSTATUS.noConfusion hok
  rw [hres hne]
  exact ⟨hne, rfl, unrolled_targets_nonzero env dcs, unrolled_targets_length env dcs⟩

/-- C17 at a concrete input: the SRV answer of `srv_env` for `example.com`. -/
theorem resolve_ads_unrolls_witness :
    resolve_ads srv_env "example.com" 0x1c none
      = (NT_STATUS_OK,
          [{ ss := ⟨AF_INET, [10, 0, 0, 1]⟩, port := 389 },
           { ss := ⟨AF_INET, [10, 0, 0, 2]⟩, port := 389 },
           { ss := ⟨AF_INET, [10, 0, 0, 3]⟩, port := 3268 }]) :=
  (resolve_ads_unrolls srv_env "example.com" 0x1c none
    [⟨"dc1.example.com", 389,
        some [⟨AF_INET, [10, 0, 0, 1]⟩, ⟨AF_INET, [0, 0, 0, 0]⟩, ⟨AF_INET, [10, 0, 0, 2]⟩]⟩,
     ⟨"dc2.example.com", 3268, none⟩,
     ⟨"dc3.example.com", 389, none⟩] rfl).2.1 (by simp)

/-! ## name_queries: claim C14 -/

theorem getD_set_none (l : List (Option Nat)) (i k : Nat) (v : Option Nat) :
    (l.set i v).getD k none = if k = i ∧ i < l.length then v else l.getD k none := by
  induction l generalizing i k with
  | nil => simp
  | cons a l ih =>
    cases i with
    | zero =>
      cases k with
      | zero => simp
      | succ k => simp
    | succ i =>
      cases k with
      | zero => simp
      | succ k =>
        simp only [List.set_cons_succ, List.getD_cons_succ, ih, List.length_cons]
        simp

theorem getD_none_of_length_le (l : List (Option Nat)) (i : Nat) (h : l.length ≤ i) :
    l.getD i none = none := by
  rw [List.getD_eq_getElem?_getD, List.getElem?_eq_none h]
  rfl

theorem outstanding_set_none (l : List (Option Nat)) (i x : Nat)
    (h : l.getD i none = some x) : outstanding (l.set i none) + 1 = outstanding l := by
  induction l generalizing i with
  | nil => simp at h
  | cons a l ih =>
    cases i with
    | zero =>
      simp only [List.getD_cons_zero] at h
      subst h
      simp [outstanding]
    | succ i =>
      simp only [List.getD_cons_succ] at h
      have := ih i h
      simp only [outstanding] at this
      simp only [outstanding, List.set_cons_succ, List.filter_cons]
      cases a <;> simp <;> omega

theorem outstanding_set_some (l : List (Option Nat)) (i x : Nat) (hi : i < l.length)
    (h : l.getD i none = none) : outstanding (l.set i (some x)) = outstanding l + 1 := by
  induction l generalizing i with
  | nil => simp at hi
  | cons a l ih =>
    cases i with
    | zero =>
      simp only [List.getD_cons_zero] at h
      subst h
      simp [outstanding]
    | succ i =>
      simp only [List.getD_cons_succ] at h
      have := ih i (by simpa using hi) h
      simp only [outstanding] at this
      simp only [outstanding, List.set_cons_succ, List.filter_cons]
      cases a <;> simp <;> omega

theorem outstanding_replicate (n : Nat) : outstanding (List.replicate n none) = 0 := by
  induction n with
  | zero => rfl
  | succ n ih => simp [outstanding, List.replicate_succ]

theorem getD_replicate_none (n i : Nat) : (List.replicate n (none : Option Nat)).getD i none = none := by
  induction n generalizing i with
  | zero => simp
  | succ n ih =>
    cases i with
    | zero => simp [List.replicate_succ]
    | succ i => simp [List.replicate_succ]

theorem getD_of_mem (l : List (Option Nat)) (x : Nat) (h : some x ∈ l) :
    ∃ i, l.getD i none = some x := by
  induction l with
  | nil => simp at h
  | cons a l ih =>
    rcases List.mem_cons.mp h with h1 | h1
    · exact ⟨0, by simp [← h1]⟩
    · obtain ⟨i, hi⟩ := ih h1
      exact ⟨i + 1, by simpa using hi⟩

theorem find_subreq_eq (subreqs : List (Option Nat)) (subreq : Nat)
    (hslot : ∀ i x, subreqs.getD i none = some x → x = i)
    (hget : subreqs.getD subreq none = some subreq) :
    ∀ (n i : Nat), i ≤ subreq → subreq < i + n → find_subreq subreqs subreq n i = subreq := by
  intro n
  induction n with
  | zero => intro i h1 h2; omega
  | succ n ih =>
    intro i h1 h2
    rw [find_subreq]
    by_cases h : subreqs.getD i none = some subreq
    · rw [if_pos h]
      exact (hslot i subreq h).symm
    · rw [if_neg h]
      have hne : i ≠ subreq := fun e => h (by rw [e]; exact hget)
      exact ih (i + 1) (by omega) (by omega)

theorem name_queries_issue_ok (addrs : List sockaddr_storage) (s : name_queries_state)
    (h1 : s.num_addrs = addrs.length) (h2 : s.subreqs.length = s.num_addrs)
    (h3 : s.num_sent < s.num_addrs)
    (h4 : ∀ i x, s.subreqs.getD i none = some x → x = i ∧ i < s.num_sent)
    (h5 : s.num_received + outstanding s.subreqs = s.num_sent) :
    name_queries_ok addrs (name_queries_issue s) ∧
      (name_queries_issue s).req = s.req ∧
      (name_queries_issue s).num_sent = s.num_sent + 1 ∧
      (name_queries_issue s).num_received = s.num_received := by
  have hnone : s.subreqs.getD s.num_sent none = none := by
    cases h : s.subreqs.getD s.num_sent none with
    | none => rfl
    | some x => have := (h4 _ _ h).2; omega
  refine ⟨⟨h1, ?_, ?_, ?_, ?_, ?_, ?_⟩, rfl, rfl, rfl⟩
  · show (s.subreqs.set s.num_sent (some s.num_sent)).length = s.num_addrs
    rw [List.length_set]; exact h2
  · show 1 ≤ s.num_sent + 1
    omega
  · show s.num_sent + 1 ≤ s.num_addrs
    omega
  · intro i x hx
    change (s.subreqs.set s.num_sent (some s.num_sent)).getD i none = some x at hx
    show x = i ∧ i < s.num_sent + 1
    rw [getD_set_none] at hx
    by_cases hc : i = s.num_sent ∧ s.num_sent < s.subreqs.length
    · rw [if_pos hc] at hx
      have := Option.some.inj hx
      omega
    · rw [if_neg hc] at hx
      have := h4 i x hx
      omega
  · show s.num_received + outstanding (s.subreqs.set s.num_sent (some s.num_sent))
      = s.num_sent + 1
    rw [outstanding_set_some _ _ _ (by omega) hnone]
    omega
  · intro hw
    change decide (s.num_sent + 1 < s.num_addrs) = true at hw
    show s.num_sent + 1 < s.num_addrs
    exact of_decide_eq_true hw

theorem name_queries_send_ok (addrs : List sockaddr_storage) (h : addrs ≠ []) :
    name_queries_ok addrs (name_queries_send addrs) ∧ (name_queries_send addrs).req = none := by
  have hlen : 0 < addrs.length := List.length_pos.mpr h
  unfold name_queries_send
  obtain ⟨hok, hreq, _, _⟩ := name_queries_issue_ok addrs
    { addrs := addrs, num_addrs := addrs.length,
      subreqs := List.replicate addrs.length none,
      num_received := 0, num_sent := 0, received_index := 0,
      result_addrs := [], num_result_addrs := 0, flags := 0,
      wakeup := false, sent := [], req := none }
    rfl (by simp) hlen
    (by
      intro i x hx
      change (List.replicate addrs.length (none : Option Nat)).getD i none = some x at hx
      rw [getD_replicate_none] at hx
      exact Option.noConfusion hx)
    (by
      show 0 + outstanding (List.replicate addrs.length none) = 0
      rw [outstanding_replicate])
  exact ⟨hok, hreq⟩

theorem name_queries_pending (addrs : List sockaddr_storage) (s : name_queries_state)
    (hok : name_queries_ok addrs s) (subreq : Nat) (hmem : some subreq ∈ s.subreqs) :
    s.subreqs.getD subreq none = some subreq ∧ subreq < s.num_sent ∧
      find_subreq s.subreqs subreq s.num_sent 0 = subreq ∧ 1 ≤ outstanding s.subreqs := by
  obtain ⟨_, _, _, _, h5, _, _⟩ := hok
  obtain ⟨i, hi⟩ := getD_of_mem _ _ hmem
  obtain ⟨hx, hlt⟩ := h5 i subreq hi
  subst hx
  refine ⟨hi, hlt, ?_, ?_⟩
  · exact find_subreq_eq s.subreqs subreq (fun i x hx => (h5 i x hx).1) hi s.num_sent 0
      (Nat.zero_le _) (by omega)
  · have := outstanding_set_none s.subreqs subreq subreq hi
    omega

theorem name_queries_done_ok_eq (addrs : List sockaddr_storage) (s : name_queries_state)
    (hok : name_queries_ok addrs s) (subreq : Nat) (hmem : some subreq ∈ s.subreqs)
    (r : name_query_result) (hr : r.status = NT_STATUS_OK) :
    name_queries_done s subreq r =
      { s with result_addrs := r.addrs, num_result_addrs := r.num_addrs,
               flags := r.flags.getD s.flags,
               subreqs := s.subreqs.set subreq none,
               num_received := s.num_received + 1,
               received_index := subreq, req := some NT_STATUS_OK } := by
  obtain ⟨_, hlt, hfind, _⟩ := name_queries_pending addrs s hok subreq hmem
  unfold name_queries_done
  simp only [if_pos hr, hfind]
  rw [if_neg (by omega)]
  simp [hr]

theorem name_queries_done_failed_eq (addrs : List sockaddr_storage) (s : name_queries_state)
    (hok : name_queries_ok addrs s) (subreq : Nat) (hmem : some subreq ∈ s.subreqs)
    (r : name_query_result) (hr : r.status ≠ NT_STATUS_OK) :
    name_queries_done s subreq r =
      if s.num_received + 1 ≥ s.num_addrs then
        { s with subreqs := s.subreqs.set subreq none,
                 num_received := s.num_received + 1,
                 req := tevent_req_nterror s.req r.status }
      else
        { s with subreqs := s.subreqs.set subreq none,
                 num_received := s.num_received + 1 } := by
  obtain ⟨_, hlt, hfind, _⟩ := name_queries_pending addrs s hok subreq hmem
  unfold name_queries_done
  simp only [if_neg hr, hfind]
  rw [if_neg (by omega)]
  simp [hr]

theorem name_queries_ok_after_done (addrs : List sockaddr_storage) (s : name_queries_state)
    (hok : name_queries_ok addrs s) (subreq : Nat)
    (hget : s.subreqs.getD subreq none = some subreq) (t : name_queries_state)
    (h1 : t.num_addrs = s.num_addrs) (h2 : t.subreqs = s.subreqs.set subreq none)
    (h3 : t.num_received = s.num_received + 1) (h4 : t.num_sent = s.num_sent)
    (h5 : t.wakeup = s.wakeup) : name_queries_ok addrs t := by
  obtain ⟨k1, k2, k3, k4, k5, k6, k7⟩ := hok
  have hout := outstanding_set_none s.subreqs subreq subreq hget
  refine ⟨by rw [h1]; exact k1, by rw [h2, h1, List.length_set]; exact k2, by rw [h4]; exact k3,
    by rw [h4, h1]; exact k4, ?_, by rw [h2, h3, h4]; omega, by rw [h5, h4, h1]; exact k7⟩
  intro i x hx
  rw [h2, getD_set_none] at hx
  rw [h4]
  by_cases hc : i = subreq ∧ subreq < s.subreqs.length
  · rw [if_pos hc] at hx
    exact Option.noConfusion hx
  · rw [if_neg hc] at hx
    exact k5 i x hx

theorem name_queries_step_ended (s : name_queries_state) (e : name_queries_event)
    (status : NTSTATUS) (h : s.req = some status) : name_queries_step s e = s := by
  have hne : ¬ s.req = none := by rw [h]; exact fun c => Option.noConfusion c
  cases e with
  | done subreq r => simp only [name_queries_step]; rw [if_neg (fun c => hne c.1)]
  | next wakeup_ok => simp only [name_queries_step]; rw [if_neg (fun c => hne c.1)]

theorem name_queries_foldl_ended (events : List name_queries_event) (s : name_queries_state)
    (status : NTSTATUS) (h : s.req = some status) :
    events.foldl name_queries_step s = s := by
  induction events with
  | nil => rfl
  | cons e tl ih => rw [List.foldl_cons, name_queries_step_ended s e status h, ih]

theorem name_queries_snoc (addrs : List sockaddr_storage) (l : List name_queries_event)
    (a : name_queries_event) :
    name_queries addrs (l ++ [a]) = name_queries_step (name_queries addrs l) a := by
  unfold name_queries
  rw [List.foldl_append]
  rfl

theorem name_queries_failed_at_snoc (addrs : List sockaddr_storage)
    (l : List name_queries_event) (a : name_queries_event) (status : NTSTATUS)
    (h : name_queries_failed_at addrs l status) :
    name_queries_failed_at addrs (l ++ [a]) status := by
  obtain ⟨pre, subreq, r, post, h1, h2⟩ := h
  exact ⟨pre, subreq, r, post ++ [a], by rw [h1]; simp, h2⟩

/-- What holds after any events of a `name_queries` request for a non-empty
destination list when the wakeup requests end normally. -/
theorem name_queries_reach (addrs : List sockaddr_storage) (h0 : addrs ≠ [])
    (events : List name_queries_event) :
    (∀ ok, name_queries_event.next ok ∈ events → ok = true) →
    name_queries_ok addrs (name_queries addrs events) ∧
    ∀ status, (name_queries addrs events).req = some status → status ≠ NT_STATUS_OK →
      (name_queries addrs events).num_received = addrs.length ∧
      (name_queries addrs events).num_sent = addrs.length ∧
      name_queries_failed_at addrs events status := by
  induction events using List.reverseRecOn with
  | nil =>
    intro _
    obtain ⟨hok, hreq⟩ := name_queries_send_ok addrs h0
    refine ⟨hok, ?_⟩
    intro status hs _
    change (name_queries_send addrs).req = some status at hs
    rw [hreq] at hs
    exact Option.noConfusion hs
  | append_singleton l a ih =>
    intro hw
    obtain ⟨hok, hfail⟩ := ih (fun ok hmem => hw ok (List.mem_append_left _ hmem))
    rw [name_queries_snoc]
    cases hreq : (name_queries addrs l).req with
    | some st =>
      rw [name_queries_step_ended _ a st hreq]
      refine ⟨hok, ?_⟩
      intro status hs hne
      obtain ⟨f1, f2, f3⟩ := hfail status hs hne
      exact ⟨f1, f2, name_queries_failed_at_snoc addrs l a status f3⟩
    | none =>
      cases a with
      | done subreq r =>
        simp only [name_queries_step]
        by_cases hmem : some subreq ∈ (name_queries addrs l).subreqs
        · rw [if_pos ⟨hreq, hmem⟩]
          obtain ⟨hget, hlt, _, hout⟩ := name_queries_pending addrs _ hok subreq hmem
          obtain ⟨k1, k2, k3, k4, k5, k6, k7⟩ := hok
          by_cases hr : r.status = NT_STATUS_OK
          · rw [name_queries_done_ok_eq addrs _ ⟨k1, k2, k3, k4, k5, k6, k7⟩ subreq hmem r hr]
            refine ⟨name_queries_ok_after_done addrs _ ⟨k1, k2, k3, k4, k5, k6, k7⟩ subreq hget _
              rfl rfl rfl rfl rfl, ?_⟩
            intro status hs hne
            exact absurd (Option.some.inj hs).symm hne
          · rw [name_queries_done_failed_eq addrs _ ⟨k1, k2, k3, k4, k5, k6, k7⟩ subreq hmem r hr]
            by_cases hall : (name_queries addrs l).num_received + 1
                ≥ (name_queries addrs l).num_addrs
            · rw [if_pos hall]
              refine ⟨name_queries_ok_after_done addrs _ ⟨k1, k2, k3, k4, k5, k6, k7⟩ subreq hget _
                rfl rfl rfl rfl rfl, ?_⟩
              intro status hs _
              change tevent_req_nterror (name_queries addrs l).req r.status = some status at hs
              rw [hreq] at hs
              unfold tevent_req_nterror at hs
              rw [if_neg hr] at hs
              have hst := Option.some.inj hs
              refine ⟨?_, ?_, ⟨l, subreq, r, [], rfl, hreq, hmem, hst, ?_, ?_⟩⟩
              · show (name_queries addrs l).num_received + 1 = addrs.length
                omega
              · show (name_queries addrs l).num_sent = addrs.length
                omega
              · omega
              · omega
            · rw [if_neg hall]
              refine ⟨name_queries_ok_after_done addrs _ ⟨k1, k2, k3, k4, k5, k6, k7⟩ subreq hget _
                rfl rfl rfl rfl rfl, ?_⟩
              intro status hs _
              change (name_queries addrs l).req = some status at hs
              rw [hreq] at hs
              exact Option.noConfusion hs
        · rw [if_neg (fun c => hmem c.2)]
          refine ⟨hok, ?_⟩
          intro status hs _
          rw [hreq] at hs
          exact Option.noConfusion hs
      | next wakeup_ok =>
        simp only [name_queries_step]
        by_cases hwk : (name_queries addrs l).wakeup = true
        · rw [if_pos ⟨hreq, hwk⟩]
          have hokt : wakeup_ok = true := hw wakeup_ok (by simp)
          subst hokt
          obtain ⟨k1, k2, k3, k4, k5, k6, k7⟩ := hok
          have hnext : name_queries_next (name_queries addrs l) true
              = name_queries_issue { name_queries addrs l with wakeup := false } := by
            unfold name_queries_next
            simp
          rw [hnext]
          obtain ⟨i1, i2, _, _⟩ := name_queries_issue_ok addrs
            { name_queries addrs l with wakeup := false } k1 k2 (k7 hwk) k5 k6
          refine ⟨i1, ?_⟩
          intro status hs _
          rw [i2] at hs
          change (name_queries addrs l).req = some status at hs
          rw [hreq] at hs
          exact Option.noConfusion hs
        · rw [if_neg (fun c => hwk c.2)]
          refine ⟨hok, ?_⟩
          intro status hs _
          rw [hreq] at hs
          exact Option.noConfusion hs

theorem name_queries_succeeded_at_snoc (addrs : List sockaddr_storage)
    (l : List name_queries_event) (a : name_queries_event)
    (h : name_queries_succeeded_at addrs l) :
    name_queries_succeeded_at addrs (l ++ [a]) := by
  obtain ⟨pre, subreq, r, post, h1, h2⟩ := h
  exact ⟨pre, subreq, r, post ++ [a], by rw [h1]; simp, h2⟩

/-- What holds besides after any events of a `name_queries` request for a
non-empty destination list when the wakeup requests end normally: while the
request is in progress a name query is still to end, and a success is that of
a name query. -/
theorem name_queries_progress (addrs : List sockaddr_storage) (h0 : addrs ≠ [])
    (events : List name_queries_event) :
    (∀ ok, name_queries_event.next ok ∈ events → ok = true) →
    ((name_queries addrs events).req = none →
      (name_queries addrs events).num_received < addrs.length) ∧
    ((name_queries addrs events).req = some NT_STATUS_OK →
      name_queries_succeeded_at addrs events) := by
  induction events using List.reverseRecOn with
  | nil =>
    intro _
    constructor
    · intro _
      show 0 < addrs.length
      exact List.length_pos.mpr h0
    · intro hs
      exact Option.noConfusion hs
  | append_singleton l a ih =>
    intro hw
    have hwl : ∀ ok, name_queries_event.next ok ∈ l → ok = true :=
      fun ok hmem => hw ok (List.mem_append_left _ hmem)
    obtain ⟨hnum, hsucc⟩ := ih hwl
    have hok := (name_queries_reach addrs h0 l hwl).1
    rw [name_queries_snoc]
    cases hreq : (name_queries addrs l).req with
    | some st =>
      rw [name_queries_step_ended _ a st hreq]
      constructor
      · intro hs
        rw [hreq] at hs
        exact Option.noConfusion hs
      · intro hs
        exact name_queries_succeeded_at_snoc addrs l a (hsucc hs)
    | none =>
      cases a with
      | done subreq r =>
        simp only [name_queries_step]
        by_cases hmem : some subreq ∈ (name_queries addrs l).subreqs
        · rw [if_pos ⟨hreq, hmem⟩]
          by_cases hr : r.status = NT_STATUS_OK
          · rw [name_queries_done_ok_eq addrs _ hok subreq hmem r hr]
            constructor
            · intro hs
              exact Option.noConfusion hs
            · intro _
              exact ⟨l, subreq, r, [], rfl, hreq, hmem, hr⟩
          · rw [name_queries_done_failed_eq addrs _ hok subreq hmem r hr]
            by_cases hall : (name_queries addrs l).num_received + 1
                ≥ (name_queries addrs l).num_addrs
            · rw [if_pos hall]
              constructor
              · intro hs
                change tevent_req_nterror (name_queries addrs l).req r.status = none at hs
                unfold tevent_req_nterror at hs
                rw [if_neg hr] at hs
                exact Option.noConfusion hs
              · intro hs
                change tevent_req_nterror (name_queries addrs l).req r.status
                  = some NT_STATUS_OK at hs
                unfold tevent_req_nterror at hs
                rw [if_neg hr] at hs
                exact absurd (Option.some.inj hs) hr
            · rw [if_neg hall]
              constructor
              · intro _
                show (name_queries addrs l).num_received + 1 < addrs.length
                have k1 := hok.1
                omega
              · intro hs
                change (name_queries addrs l).req = some NT_STATUS_OK at hs
                rw [hreq] at hs
                exact Option.noConfusion hs
        · rw [if_neg (fun c => hmem c.2)]
          constructor
          · intro _
            exact hnum hreq
          · intro hs
            rw [hreq] at hs
            exact Option.noConfusion hs
      | next wakeup_ok =>
        simp only [name_queries_step]
        by_cases hwk : (name_queries addrs l).wakeup = true
        · rw [if_pos ⟨hreq, hwk⟩]
          have hokt : wakeup_ok = true := hw wakeup_ok (by simp)
          subst hokt
          obtain ⟨k1, k2, k3, k4, k5, k6, k7⟩ := hok
          have hnext : name_queries_next (name_queries addrs l) true
              = name_queries_issue { name_queries addrs l with wakeup := false } := by
            unfold name_queries_next
            simp
          rw [hnext]
          obtain ⟨_, i2, _, i4⟩ := name_queries_issue_ok addrs
            { name_queries addrs l with wakeup := false } k1 k2 (k7 hwk) k5 k6
          constructor
          · intro _
            rw [i4]
            exact hnum hreq
          · intro hs
            rw [i2] at hs
            change (name_queries addrs l).req = some NT_STATUS_OK at hs
            rw [hreq] at hs
            exact Option.noConfusion hs
        · rw [if_neg (fun c => hwk c.2)]
          constructor
          · intro _
            exact hnum hreq
          · intro hs
            rw [hreq] at hs
            exact Option.noConfusion hs

/-- C14: in a `name_queries` request for a non-empty destination list
whose wakeup requests end normally, (1) when a pending name query, whichever
it is, ends with success while the request is in progress, the request ends
with success at once and `name_queries_recv` returns the addresses of that
name query and, as `received_index`, its number, which is the index of its
destination; (2) when the request has ended with a failure, all `num_addrs`
name queries have been sent and have ended, and the status is that of the
name query that ended last; (3) when a pending name query ends without
success while the request is in progress, the request stays in progress if
fewer than `num_addrs` name queries have ended by then, and ends with the
status of that name query if it is the last of `num_addrs` to end; (4) a
request that has ended with success has done so because a pending name query
ended with success while the request was in progress; (5) while the request
is in progress, fewer than `num_addrs` name queries have ended, and the
request is in progress when it starts. -/
theorem name_queries_first_success_or_all_failed (addrs : List sockaddr_storage)
    (events : List name_queries_event) (h0 : addrs ≠ [])
    (hw : ∀ ok, name_queries_event.next ok ∈ events → ok = true) :
    (∀ pre subreq r post, events = pre ++ name_queries_event.done subreq r :: post →
      (name_queries addrs pre).req = none → some subreq ∈ (name_queries addrs pre).subreqs →
      r.status = NT_STATUS_OK →
      name_queries_recv (name_queries addrs events)
        = { status := NT_STATUS_OK, result_addrs := r.addrs, num_result_addrs := r.num_addrs,
            flags := some (r.flags.getD (name_queries addrs pre).flags),
            received_index := some subreq }) ∧
    (∀ status, (name_queries addrs events).req = some status → status ≠ NT_STATUS_OK →
      (name_queries_recv (name_queries addrs events)).status = status ∧
      (name_queries addrs events).num_sent = addrs.length ∧
      (name_queries addrs events).num_received = addrs.length ∧
      name_queries_failed_at addrs events status) ∧
    (∀ pre subreq r post, events = pre ++ name_queries_event.done subreq r :: post →
      (name_queries addrs pre).req = none → some subreq ∈ (name_queries addrs pre).subreqs →
      r.status ≠ NT_STATUS_OK →
      ((name_queries addrs pre).num_received + 1 < addrs.length →
        (name_queries addrs (pre ++ [name_queries_event.done subreq r])).req = none) ∧
      ((name_queries addrs pre).num_received + 1 = addrs.length →
        (name_queries addrs (pre ++ [name_queries_event.done subreq r])).req = some r.status ∧
        (name_queries addrs events).req = some r.status ∧
        (name_queries_recv (name_queries addrs events)).status = r.status)) ∧
    ((name_queries addrs events).req = some NT_STATUS_OK →
      name_queries_succeeded_at addrs events) ∧
    ((name_queries addrs events).req = none →
      (name_queries addrs events).num_received < addrs.length) ∧
    (name_queries addrs []).req = none := by
  refine ⟨?_, ?_, ?_, ?_, ?_, rfl⟩
  · intro pre subreq r post hev hreq hmem hr
    have hpre := (name_queries_reach addrs h0 pre
      (fun ok hm => hw ok (by rw [hev]; exact List.mem_append_left _ hm))).1
    have hrun : name_queries addrs events
        = post.foldl name_queries_step
            (name_queries_step (name_queries addrs pre) (name_queries_event.done subreq r)) := by
      rw [hev]
      unfold name_queries
      rw [List.foldl_append, List.foldl_cons]
    have hstep : name_queries_step (name_queries addrs pre) (name_queries_event.done subreq r)
        = name_queries_done (name_queries addrs pre) subreq r := by
      simp only [name_queries_step]
      rw [if_pos ⟨hreq, hmem⟩]
    rw [hrun, hstep, name_queries_done_ok_eq addrs _ hpre subreq hmem r hr,
      name_queries_foldl_ended post _ NT_STATUS_OK rfl]
    rfl
  · intro status hs hne
    obtain ⟨f1, f2, f3⟩ := (name_queries_reach addrs h0 events hw).2 status hs hne
    refine ⟨?_, f2, f1, f3⟩
    unfold name_queries_recv
    rw [hs]
    cases status <;> first | exact absurd rfl hne | rfl
  · intro pre subreq r post hev hreq hmem hr
    have hpre := (name_queries_reach addrs h0 pre
      (fun ok hm => hw ok (by rw [hev]; exact List.mem_append_left _ hm))).1
    have hrun : name_queries addrs events
        = post.foldl name_queries_step
            (name_queries_step (name_queries addrs pre) (name_queries_event.done subreq r)) := by
      rw [hev]
      unfold name_queries
      rw [List.foldl_append, List.foldl_cons]
    have hstep : name_queries_step (name_queries addrs pre) (name_queries_event.done subreq r)
        = name_queries_done (name_queries addrs pre) subreq r := by
      simp only [name_queries_step]
      rw [if_pos ⟨hreq, hmem⟩]
    have hnum := hpre.1
    have herr : tevent_req_nterror (name_queries addrs pre).req r.status = some r.status := by
      unfold tevent_req_nterror
      rw [if_neg hr]
    constructor
    · intro hlt
      rw [name_queries_snoc, hstep,
        name_queries_done_failed_eq addrs _ hpre subreq hmem r hr, if_neg (by omega)]
      exact hreq
    · intro hall
      have hlast : (name_queries_done (name_queries addrs pre) subreq r).req
          = some r.status := by
        rw [name_queries_done_failed_eq addrs _ hpre subreq hmem r hr, if_pos (by omega)]
        exact herr
      have hend : (name_queries addrs events).req = some r.status := by
        rw [hrun, hstep, name_queries_foldl_ended post _ r.status hlast]
        exact hlast
      refine ⟨?_, hend, ?_⟩
      · rw [name_queries_snoc, hstep]
        exact hlast
      · unfold name_queries_recv
        rw [hend]
        cases hst : r.status <;> first | exact absurd hst hr | rfl
  · exact (name_queries_progress addrs h0 events hw).2
  · exact (name_queries_progress addrs h0 events hw).1

/-- C14 at a concrete input, two destinations, the second queried after the
wakeup: when the first name query runs into its end time the request stays in
progress, and the answer 192.168.1.10 of the second then ends it with
success; when the second name query runs into its end time and the first
then gets a negative response, the request ends with that status. -/
theorem name_queries_first_success_or_all_failed_witness :
    (name_queries sample_destinations
        ([name_queries_event.next true] ++ [name_queries_event.done 0 timeout_outcome])).req
      = none ∧
    name_queries_recv (name_queries sample_destinations
        [name_queries_event.next true, name_queries_event.done 0 timeout_outcome,
         name_queries_event.done 1 found_outcome])
      = { status := NT_STATUS_OK,
          result_addrs := [{ ss_family := AF_INET, addr := [192, 168, 1, 10] }],
          num_result_addrs := 1, flags := some 0, received_index := some 1 } ∧
    (name_queries sample_destinations
        [name_queries_event.next true, name_queries_event.done 1 timeout_outcome,
         name_queries_event.done 0 not_found_outcome]).req = some NT_STATUS_NOT_FOUND :=
  ⟨((name_queries_first_success_or_all_failed sample_destinations
      [name_queries_event.next true, name_queries_event.done 0 timeout_outcome,
       name_queries_event.done 1 found_outcome] (by decide)
      (by intro ok h; simpa using h)).2.2.1
      [name_queries_event.next true] 0 timeout_outcome
      [name_queries_event.done 1 found_outcome] rfl (by decide) (by decide) (by decide)).1
      (by decide),
    (name_queries_first_success_or_all_failed sample_destinations
      [name_queries_event.next true, name_queries_event.done 0 timeout_outcome,
       name_queries_event.done 1 found_outcome] (by decide)
      (by intro ok h; simpa using h)).1
      [name_queries_event.next true, name_queries_event.done 0 timeout_outcome] 1 found_outcome []
      rfl (by decide) (by decide) rfl,
    (((name_queries_first_success_or_all_failed sample_destinations
      [name_queries_event.next true, name_queries_event.done 1 timeout_outcome,
       name_queries_event.done 0 not_found_outcome] (by decide)
      (by intro ok h; simpa using h)).2.2.1
      [name_queries_event.next true, name_queries_event.done 1 timeout_outcome] 0
      not_found_outcome [] rfl (by decide) (by decide) (by decide)).2 (by decide)).2.1⟩

/-! ## idmap_autorid: claims C29 and C30 -/

theorem uint32_of_lt (n : Nat) (h : n < 4294967296) : uint32 n = n := by
  unfold uint32
  exact Nat.mod_eq_of_lt h

theorem autorid_offset_lt (rangesize maxranges d rid : Nat) (hd : d < maxranges)
    (hrid : rid < rangesize) : rangesize * d + rid < rangesize * maxranges := by
  have h1 : rangesize * d + rangesize = rangesize * (d + 1) := by ring
  have h2 : rangesize * (d + 1) ≤ rangesize * maxranges := Nat.mul_le_mul_left _ hd
  omega

theorem autorid_div (rangesize d rid : Nat) (hrid : rid < rangesize) :
    (rangesize * d + rid) / rangesize = d := by
  have hpos : 0 < rangesize := by omega
  rw [Nat.add_comm, Nat.add_mul_div_left _ _ hpos, Nat.div_eq_of_lt hrid, Nat.zero_add]

theorem idmap_autorid_sid_to_id_eq (cfg : autorid_global_config) (d rid : Nat) (map : id_map)
    (hmax : cfg.minvalue + cfg.rangesize * cfg.maxranges < 4294967296)
    (hd : d < cfg.maxranges) (hrid : sid_peek_rid map.sid = some rid)
    (hlt : rid < cfg.rangesize) :
    idmap_autorid_sid_to_id cfg d map
      = some (NT_STATUS_OK,
          { map with id := cfg.minvalue + cfg.rangesize * d + rid,
                     status := id_mapping.ID_MAPPED }) := by
  have hoff := autorid_offset_lt cfg.rangesize cfg.maxranges d rid hd hlt
  unfold idmap_autorid_sid_to_id
  rw [hrid]
  simp only []
  rw [if_neg (by omega)]
  rw [uint32_of_lt (cfg.rangesize * d) (by omega),
    uint32_of_lt (cfg.minvalue + cfg.rangesize * d) (by omega),
    uint32_of_lt (cfg.minvalue + cfg.rangesize * d + rid) (by omega)]

theorem idmap_autorid_id_to_sid_eq (autorid_db : String → Option String)
    (string_to_sid : String → dom_sid) (cfg : autorid_global_config) (d rid : Nat)
    (map : id_map)
    (hmax : cfg.minvalue + cfg.rangesize * cfg.maxranges < 4294967296)
    (hd : d < cfg.maxranges) (hlt : rid < cfg.rangesize)
    (hid : map.id = cfg.minvalue + cfg.rangesize * d + rid) :
    idmap_autorid_id_to_sid autorid_db string_to_sid cfg map
      = some (match autorid_db (toString d) with
          | none =>
            { status := NT_STATUS_OK, map := { map with status := id_mapping.ID_UNKNOWN },
              fetched := [toString d] }
          | some data =>
            { status := NT_STATUS_OK,
              map := { map with sid := sid_compose (string_to_sid data) rid,
                                status := id_mapping.ID_MAPPED },
              fetched := [toString d] }) := by
  have hoff := autorid_offset_lt cfg.rangesize cfg.maxranges d rid hd hlt
  have hsub : map.id - cfg.minvalue = cfg.rangesize * d + rid := by omega
  have hdiv := autorid_div cfg.rangesize d rid hlt
  unfold idmap_autorid_id_to_sid
  rw [if_neg (by omega), uint32_of_lt (cfg.rangesize * cfg.maxranges) (by omega),
    uint32_of_lt (cfg.minvalue + cfg.rangesize * cfg.maxranges) hmax, if_neg (by omega),
    if_neg (by omega)]
  simp only []
  rw [hsub, uint32_of_lt (cfg.rangesize * d + rid) (by omega), hdiv]
  have hrid : uint32 (cfg.rangesize * d + rid - uint32 (d * cfg.rangesize)) = rid := by
    rw [uint32_of_lt (d * cfg.rangesize) (by rw [Nat.mul_comm]; omega), Nat.mul_comm d,
      Nat.add_sub_cancel_left]
    exact uint32_of_lt rid (by omega)
  rw [hrid]
  cases autorid_db (toString d) <;> rfl

/-- C29: for every configuration with `minvalue + rangesize*maxranges` below
2^32, every domain number `d < maxranges` and every SID whose RID `rid` is
below `rangesize` (so that `rangesize > 0`):
`idmap_autorid_sid_to_id` maps the SID to the id `minvalue + rangesize*d + rid`;
`idmap_autorid_id_to_sid` lets that id pass its range checks, computes the
range number `d`, fetches the record of range `d` and nothing else, and
composes the SID stored there with the RID `rid` (or reports `ID_UNKNOWN`
when range `d` has no record); and two pairs `(d, rid)` with the same id are
the same pair. -/
theorem idmap_autorid_round_trip (autorid_db : String → Option String)
    (string_to_sid : String → dom_sid) (cfg : autorid_global_config) (d rid : Nat)
    (map : id_map)
    (hmax : cfg.minvalue + cfg.rangesize * cfg.maxranges < 4294967296)
    (hd : d < cfg.maxranges) (hrid : sid_peek_rid map.sid = some rid)
    (hlt : rid < cfg.rangesize) :
    idmap_autorid_sid_to_id cfg d map
      = some (NT_STATUS_OK,
          { map with id := cfg.minvalue + cfg.rangesize * d + rid,
                     status := id_mapping.ID_MAPPED }) ∧
    autorid_range cfg (cfg.minvalue + cfg.rangesize * d + rid) = d ∧
    (∀ m : id_map, m.id = cfg.minvalue + cfg.rangesize * d + rid →
      idmap_autorid_id_to_sid autorid_db string_to_sid cfg m
        = some (match autorid_db (toString d) with
            | none =>
              { status := NT_STATUS_OK, map := { m with status := id_mapping.ID_UNKNOWN },
                fetched := [toString d] }
            | some data =>
              { status := NT_STATUS_OK,
                map := { m with sid := sid_compose (string_to_sid data) rid,
                                status := id_mapping.ID_MAPPED },
                fetched := [toString d] })) ∧
    (∀ (d2 rid2 : Nat) (map2 : id_map), d2 < cfg.maxranges →
      sid_peek_rid map2.sid = some rid2 → rid2 < cfg.rangesize →
      (idmap_autorid_sid_to_id cfg d map).map (fun r => r.2.id)
        = (idmap_autorid_sid_to_id cfg d2 map2).map (fun r => r.2.id) →
      d = d2 ∧ rid = rid2) := by
  have hoff := autorid_offset_lt cfg.rangesize cfg.maxranges d rid hd hlt
  refine ⟨idmap_autorid_sid_to_id_eq cfg d rid map hmax hd hrid hlt, ?_, ?_, ?_⟩
  · unfold autorid_range
    rw [show cfg.minvalue + cfg.rangesize * d + rid - cfg.minvalue = cfg.rangesize * d + rid by
      omega, uint32_of_lt _ (by omega)]
    exact autorid_div cfg.rangesize d rid hlt
  · intro m hm
    exact idmap_autorid_id_to_sid_eq autorid_db string_to_sid cfg d rid m hmax hd hlt hm
  · intro d2 rid2 map2 hd2 hrid2 hlt2 heq
    rw [idmap_autorid_sid_to_id_eq cfg d rid map hmax hd hrid hlt,
      idmap_autorid_sid_to_id_eq cfg d2 rid2 map2 hmax hd2 hrid2 hlt2] at heq
    simp only [Option.map_some', Option.some.injEq] at heq
    have h1 : cfg.rangesize * d + rid = cfg.rangesize * d2 + rid2 := by omega
    have h2 := autorid_div cfg.rangesize d rid hlt
    have h3 := autorid_div cfg.rangesize d2 rid2 hlt2
    rw [h1, h3] at h2
    subst h2
    exact ⟨rfl, by omega⟩

/-- C29 at a concrete input: ranges of 100 ids from 1000 on, the SID
S-1-5-21-7-42 of the domain with range number 1, whose SID S-1-5-21-7 is
stored under the key "1". -/
theorem idmap_autorid_round_trip_witness :
    idmap_autorid_sid_to_id ⟨1000, 100, 2⟩ 1 ⟨⟨[21, 7, 42]⟩, 0, id_mapping.ID_UNKNOWN⟩
      = some (NT_STATUS_OK, ⟨⟨[21, 7, 42]⟩, 1142, id_mapping.ID_MAPPED⟩) ∧
    idmap_autorid_id_to_sid (fun k => if k = "1" then some "S-1-5-21-7" else none)
        (fun _ => ⟨[21, 7]⟩) ⟨1000, 100, 2⟩ ⟨⟨[]⟩, 1142, id_mapping.ID_UNKNOWN⟩
      = some { status := NT_STATUS_OK, map := ⟨⟨[21, 7, 42]⟩, 1142, id_mapping.ID_MAPPED⟩,
               fetched := ["1"] } :=
  ⟨(idmap_autorid_round_trip (fun k => if k = "1" then some "S-1-5-21-7" else none)
      (fun _ => ⟨[21, 7]⟩) ⟨1000, 100, 2⟩ 1 42 ⟨⟨[21, 7, 42]⟩, 0, id_mapping.ID_UNKNOWN⟩
      (by decide) (by decide) (by decide) (by decide)).1,
   (idmap_autorid_round_trip (fun k => if k = "1" then some "S-1-5-21-7" else none)
      (fun _ => ⟨[21, 7]⟩) ⟨1000, 100, 2⟩ 1 42 ⟨⟨[21, 7, 42]⟩, 0, id_mapping.ID_UNKNOWN⟩
      (by decide) (by decide) (by decide) (by decide)).2.2.1
      ⟨⟨[]⟩, 1142, id_mapping.ID_UNKNOWN⟩ rfl⟩

/-- C30 fails on the code at the upper bound: for the id range 1000..5999 and
a `rangesize` of 2000, `idmap_autorid_initialize` sets up 2 ranges from 1000
on; the id 5000 = minvalue + rangesize*maxranges, which is inside the id
range of the domain, passes both range checks of `idmap_autorid_id_to_sid`
(the second one tests `>`), its range number is 2 = maxranges, and the record
"2" is fetched from the database although the id is outside [1000, 5000).
Every id below that bound that passes the checks has a range number below
`maxranges`. -/
theorem idmap_autorid_id_to_sid_upper_bound :
    idmap_autorid_config 1000 5999 2000 = some ⟨1000, 2000, 2⟩ ∧
    ¬ (5000 < (⟨1000, 2000, 2⟩ : autorid_global_config).minvalue) ∧
    ¬ (5000 > uint32 (1000 + uint32 (2000 * 2))) ∧
    autorid_range ⟨1000, 2000, 2⟩ 5000 = 2 ∧
    idmap_autorid_id_to_sid (fun _ => none) (fun _ => ⟨[]⟩) ⟨1000, 2000, 2⟩
        ⟨⟨[]⟩, 5000, id_mapping.ID_UNMAPPED⟩
      = some { status := NT_STATUS_OK, map := ⟨⟨[]⟩, 5000, id_mapping.ID_UNKNOWN⟩,
               fetched := ["2"] } ∧
    (∀ (cfg : autorid_global_config) (id : Nat), 0 < cfg.rangesize →
      cfg.minvalue + cfg.rangesize * cfg.maxranges < 4294967296 → cfg.minvalue ≤ id →
      id < cfg.minvalue + cfg.rangesize * cfg.maxranges →
      autorid_range cfg id < cfg.maxranges) := by
  refine ⟨by decide, by decide, by decide, by decide, by decide, ?_⟩
  intro cfg id hsize hmax hmin hlt
  unfold autorid_range
  rw [uint32_of_lt _ (by omega), Nat.div_lt_iff_lt_mul hsize, Nat.mul_comm]
  omega

/-! ## addr_compare and ip_service_compare: claims C23 and C27 -/

theorem foldl_max_eq (f : sockaddr_storage → Bool) (g : sockaddr_storage → Nat) :
    ∀ (l : List sockaddr_storage) (acc : Nat),
      l.foldl (fun acc pss => if f pss = true then max (g pss) acc else acc) acc
        = max (list_max ((l.filter f).map g)) acc := by
  intro l
  induction l with
  | nil => intro acc; simp [list_max]
  | cons x rest ih =>
    intro acc
    rw [List.foldl_cons, ih]
    by_cases hx : f x = true
    · rw [if_pos hx, List.filter_cons_of_pos hx]
      simp only [list_max, List.map_cons, List.foldr_cons]
      omega
    · rw [if_neg hx, List.filter_cons_of_neg hx]

theorem list_max_spec (l : List Nat) :
    (∀ m ∈ l, m ≤ list_max l) ∧ (l = [] ∧ list_max l = 0 ∨ list_max l ∈ l) := by
  induction l with
  | nil => exact ⟨fun m hm => absurd hm (List.not_mem_nil _), Or.inl ⟨rfl, rfl⟩⟩
  | cons x rest ih =>
    obtain ⟨ih1, ih2⟩ := ih
    have hmax : list_max (x :: rest) = max x (list_max rest) := rfl
    constructor
    · intro m hm
      rw [hmax]
      rcases List.mem_cons.mp hm with rfl | hm
      · exact Nat.le_max_left _ _
      · exact Nat.le_trans (ih1 m hm) (Nat.le_max_right _ _)
    · right
      rw [hmax]
      rcases Nat.le_total x (list_max rest) with h | h
      · rw [Nat.max_eq_right h]
        rcases ih2 with ⟨hnil, h0⟩ | hmem
        · have hx : x = 0 := by omega
          rw [h0, hx]; exact List.mem_cons_self _ _
        · exact List.mem_cons_of_mem _ hmem
      · rw [Nat.max_eq_left h]
        exact List.mem_cons_self _ _

theorem affinity_score_eq (ifs : Interfaces) (ss : sockaddr_storage) :
    affinity_score ifs ss
      = list_max (matching_bits ifs.n_bcast ss)
        + (if ifs.is_local ss then (if ss.ss_family = AF_INET then 32 else 128) else 0) := by
  have h := foldl_max_eq
    (fun pss => decide (pss.ss_family = ss.ss_family) && decide (iface_addr_len pss.ss_family ≠ 0))
    (fun pss => matching_len_bits (addr_bytes (iface_addr_len pss.ss_family) ss)
      (addr_bytes (iface_addr_len pss.ss_family) pss)) ifs.n_bcast 0
  have hfold : ifs.n_bcast.foldl
      (fun acc pss =>
        if pss.ss_family ≠ ss.ss_family then acc
        else if iface_addr_len pss.ss_family = 0 then acc
        else max (matching_len_bits (addr_bytes (iface_addr_len pss.ss_family) ss)
                    (addr_bytes (iface_addr_len pss.ss_family) pss)) acc) 0
      = list_max (matching_bits ifs.n_bcast ss) := by
    rw [Nat.max_eq_left (Nat.zero_le _)] at h
    unfold matching_bits
    rw [← h]
    congr 1
    funext acc pss
    by_cases h1 : pss.ss_family = ss.ss_family
    · by_cases h2 : iface_addr_len pss.ss_family = 0
      · simp [h1, h2]
      · simp [h1, h2]
    · simp [h1]
  unfold affinity_score local_bias
  rw [hfold]
  by_cases hl : ifs.is_local ss = true
  · simp only [hl, if_true]
    split <;> rfl
  · simp only [hl]
    rfl

/-- C23 as stated fails: the interface loop compares the two addresses with the
broadcast address of each interface, `iface_n_bcast(i)`, not with the
interface's own address. With one interface 192.168.1.10, broadcast
192.168.1.255, the address 192.168.1.11 shares 31 leading bits with the
interface's address and 192.168.1.254 shares 24, so the score of the claim
puts 192.168.1.11 first (difference -7); `addr_compare` returns 7 and puts
192.168.1.254 first. -/
theorem addr_compare_uses_broadcast_address :
    addr_compare
        (interfaces_of [⟨⟨AF_INET, [192, 168, 1, 10]⟩, ⟨AF_INET, [192, 168, 1, 255]⟩⟩]
          (fun _ => false))
        ⟨AF_INET, [192, 168, 1, 11]⟩ ⟨AF_INET, [192, 168, 1, 254]⟩ = 7 ∧
    (score_as_specified [⟨⟨AF_INET, [192, 168, 1, 10]⟩, ⟨AF_INET, [192, 168, 1, 255]⟩⟩]
        (fun _ => false) ⟨AF_INET, [192, 168, 1, 254]⟩ : Int)
      - (score_as_specified [⟨⟨AF_INET, [192, 168, 1, 10]⟩, ⟨AF_INET, [192, 168, 1, 255]⟩⟩]
        (fun _ => false) ⟨AF_INET, [192, 168, 1, 11]⟩ : Int) = -7 := by
  decide

/-- C23, amended: for two addresses of the same family, `addr_compare` returns
score(ss2) - score(ss1), where score(a) is the maximum, over the configured
interfaces of that family (IPv4 or IPv6), of the number of leading bits `a`
has in common with the broadcast address of the interface (0 when there is
no such interface), plus 32 for IPv4 or 128 otherwise when `iface_local`
accepts `a`; hence an address with a strictly greater score sorts strictly
earlier. -/
theorem addr_compare_score (ifs : Interfaces) (ss1 ss2 : sockaddr_storage)
    (hfam : ss1.ss_family = ss2.ss_family) :
    addr_compare ifs ss1 ss2 = (affinity_score ifs ss2 : Int) - (affinity_score ifs ss1 : Int) ∧
    (∀ a, affinity_score ifs a
      = list_max (matching_bits ifs.n_bcast a)
        + (if ifs.is_local a then (if a.ss_family = AF_INET then 32 else 128) else 0)) ∧
    (∀ a, (∀ m ∈ matching_bits ifs.n_bcast a, m ≤ list_max (matching_bits ifs.n_bcast a)) ∧
      (matching_bits ifs.n_bcast a = [] ∧ list_max (matching_bits ifs.n_bcast a) = 0 ∨
        list_max (matching_bits ifs.n_bcast a) ∈ matching_bits ifs.n_bcast a)) ∧
    (affinity_score ifs ss1 > affinity_score ifs ss2 → addr_compare ifs ss1 ss2 < 0) ∧
    (affinity_score ifs ss1 < affinity_score ifs ss2 → addr_compare ifs ss1 ss2 > 0) := by
  have h := addr_compare_same_family ifs ss1 ss2 hfam
  refine ⟨h, affinity_score_eq ifs, fun a => list_max_spec _, ?_, ?_⟩
  · intro hgt; rw [h]; omega
  · intro hlt; rw [h]; omega

/-- The amended C23 at a concrete input: the interface with broadcast address
192.168.1.255 and the addresses 192.168.1.11 and 192.168.1.254. -/
theorem addr_compare_score_witness :
    addr_compare ⟨[⟨AF_INET, [192, 168, 1, 255]⟩], fun _ => false⟩
        ⟨AF_INET, [192, 168, 1, 11]⟩ ⟨AF_INET, [192, 168, 1, 254]⟩
      = (affinity_score ⟨[⟨AF_INET, [192, 168, 1, 255]⟩], fun _ => false⟩
          ⟨AF_INET, [192, 168, 1, 254]⟩ : Int)
        - (affinity_score ⟨[⟨AF_INET, [192, 168, 1, 255]⟩], fun _ => false⟩
          ⟨AF_INET, [192, 168, 1, 11]⟩ : Int) :=
  (addr_compare_score ⟨[⟨AF_INET, [192, 168, 1, 255]⟩], fun _ => false⟩
    ⟨AF_INET, [192, 168, 1, 11]⟩ ⟨AF_INET, [192, 168, 1, 254]⟩ rfl).1

theorem sign_neg_of_opposite (x y : Int) (h1 : x < 0 ↔ 0 < y) (h2 : 0 < x ↔ y < 0) :
    Int.sign x = - Int.sign y := by
  rcases Int.lt_trichotomy x 0 with hx | hx | hx
  · rw [Int.sign_eq_neg_one_of_neg hx, Int.sign_eq_one_of_pos (h1.mp hx)]
  · have hy : y = 0 := by
      rcases Int.lt_trichotomy y 0 with hy | hy | hy
      · have := h2.mpr hy; omega
      · exact hy
      · have := h1.mpr hy; omega
    rw [hx, hy]
    rfl
  · rw [Int.sign_eq_one_of_pos hx, Int.sign_eq_neg_one_of_neg (h2.mp hx)]
    rfl

theorem ip_service_compare_neg_iff (ifs : Interfaces) (a b : ip_service)
    (ha : a.ss.ss_family = AF_INET ∨ a.ss.ss_family = AF_INET6)
    (hb : b.ss.ss_family = AF_INET ∨ b.ss.ss_family = AF_INET6) :
    (ip_service_compare ifs a b < 0 ↔
      (a.ss.ss_family = AF_INET ∧ b.ss.ss_family = AF_INET6) ∨
      (a.ss.ss_family = b.ss.ss_family ∧
        (affinity_score ifs b.ss < affinity_score ifs a.ss ∨
          (affinity_score ifs b.ss = affinity_score ifs a.ss ∧ a.port < b.port)))) ∧
    (0 < ip_service_compare ifs a b ↔
      (a.ss.ss_family = AF_INET6 ∧ b.ss.ss_family = AF_INET) ∨
      (a.ss.ss_family = b.ss.ss_family ∧
        (affinity_score ifs a.ss < affinity_score ifs b.ss ∨
          (affinity_score ifs b.ss = affinity_score ifs a.ss ∧ b.port < a.port)))) := by
  rw [ip_service_compare_order_aux]
  simp only [AF_INET, AF_INET6] at *
  constructor
  · split_ifs <;> omega
  · split_ifs <;> omega

/-- C27: for a fixed interface configuration and entries whose family is IPv4
or IPv6, `ip_service_compare` is a consistent ordering: the sign of
compare(a,b) is the opposite of the sign of compare(b,a), compare(a,a) = 0,
and compare(a,b) <= 0 together with compare(b,c) <= 0 implies
compare(a,c) <= 0. -/
theorem ip_service_compare_consistent (ifs : Interfaces) (a b c : ip_service)
    (ha : a.ss.ss_family = AF_INET ∨ a.ss.ss_family = AF_INET6)
    (hb : b.ss.ss_family = AF_INET ∨ b.ss.ss_family = AF_INET6)
    (hc : c.ss.ss_family = AF_INET ∨ c.ss.ss_family = AF_INET6) :
    Int.sign (ip_service_compare ifs a b) = - Int.sign (ip_service_compare ifs b a) ∧
    ip_service_compare ifs a a = 0 ∧
    (ip_service_compare ifs a b ≤ 0 → ip_service_compare ifs b c ≤ 0 →
      ip_service_compare ifs a c ≤ 0) := by
  obtain ⟨ab1, ab2⟩ := ip_service_compare_neg_iff ifs a b ha hb
  obtain ⟨ba1, ba2⟩ := ip_service_compare_neg_iff ifs b a hb ha
  obtain ⟨bc1, bc2⟩ := ip_service_compare_neg_iff ifs b c hb hc
  obtain ⟨ac1, ac2⟩ := ip_service_compare_neg_iff ifs a c ha hc
  refine ⟨?_, ?_, ?_⟩
  · apply sign_neg_of_opposite
    · rw [ab1, ba2]
      clear ab1 ab2 ba1 ba2 bc1 bc2 ac1 ac2
      simp only [AF_INET, AF_INET6] at ha hb ⊢
      omega
    · rw [ab2, ba1]
      clear ab1 ab2 ba1 ba2 bc1 bc2 ac1 ac2
      simp only [AF_INET, AF_INET6] at ha hb ⊢
      omega
  · rw [ip_service_compare_order_aux]
    simp
  · intro h1 h2
    by_contra h3
    have h1n : ¬ 0 < ip_service_compare ifs a b := by omega
    have h2n : ¬ 0 < ip_service_compare ifs b c := by omega
    have h3p : 0 < ip_service_compare ifs a c := by omega
    rw [ab2] at h1n
    rw [bc2] at h2n
    rw [ac2] at h3p
    clear ab1 ab2 ba1 ba2 bc1 bc2 ac1 ac2 h1 h2 h3
    generalize affinity_score ifs a.ss = sa at h1n h2n h3p
    generalize affinity_score ifs b.ss = sb at h1n h2n h3p
    generalize affinity_score ifs c.ss = sc at h1n h2n h3p
    simp only [AF_INET, AF_INET6] at ha hb hc h1n h2n h3p
    omega

/-- C27 at a concrete input: without interfaces, an IPv4 entry and an IPv6
entry compare as -1 and 1. -/
theorem ip_service_compare_consistent_witness :
    Int.sign (ip_service_compare ⟨[], fun _ => false⟩ ⟨⟨AF_INET, [10, 0, 0, 1]⟩, 389⟩
        ⟨⟨AF_INET6, [0xfe, 0x80, 0, 0, 0, 0, 0, 0, 0, 0, 0, 0, 0, 0, 0, 1]⟩, 389⟩)
      = - Int.sign (ip_service_compare ⟨[], fun _ => false⟩
        ⟨⟨AF_INET6, [0xfe, 0x80, 0, 0, 0, 0, 0, 0, 0, 0, 0, 0, 0, 0, 0, 1]⟩, 389⟩
        ⟨⟨AF_INET, [10, 0, 0, 1]⟩, 389⟩) :=
  (ip_service_compare_consistent ⟨[], fun _ => false⟩ ⟨⟨AF_INET, [10, 0, 0, 1]⟩, 389⟩
    ⟨⟨AF_INET6, [0xfe, 0x80, 0, 0, 0, 0, 0, 0, 0, 0, 0, 0, 0, 0, 0, 1]⟩, 389⟩
    ⟨⟨AF_INET, [10, 0, 0, 1]⟩, 389⟩ (Or.inl rfl) (Or.inr rfl) (Or.inl rfl)).1

/-! ## name_query_validator: claims C22 and C26 -/

/-- C22 as stated fails: the test for a negative response comes first and does
not look at the broadcast bit of the packet. A response with opcode 0,
rcode 3 and the broadcast bit set, to a unicast query, is accepted. -/
theorem name_query_validator_accepts_broadcast_bit :
    name_query_validator
        { negative_response with
          header := { negative_response.header with
            nm_flags := { negative_response.header.nm_flags with bcast := true } } }
        (name_query_send false)
      = some (true, { name_query_send false with validate_error := NT_STATUS_NOT_FOUND }) := by
  decide

/-- C22, amended: `name_query_validator` accepts a response only if its opcode
is 0. A response with opcode 0 and a non-zero rcode to a unicast (WINS) query
is accepted as a negative response, whatever its broadcast bit and answer
count, nothing but `validate_error` changes, and the query completes with
`NT_STATUS_NOT_FOUND`. Any other accepted response has rcode 0, a clear
broadcast bit and a non-zero answer count; every other response with non-zero
opcode, set broadcast bit, non-zero rcode or zero answer count is rejected
and leaves the state, so the collected addresses, as it was. A response that
passes these tests while `num_addrs + rdlength/6` is 0 is accepted with
`validate_error = NT_STATUS_NO_MEMORY` and nothing else changed. -/
theorem name_query_validator_accepts (p : packet_struct) (state : name_query_state) :
    (∀ state1, name_query_validator p state = some (true, state1) →
      p.header.opcode = 0 ∧
      ((state.bcast = false ∧ p.header.rcode ≠ 0) ∨
        (p.header.rcode = 0 ∧ p.header.nm_flags.bcast = false ∧ p.header.ancount ≠ 0))) ∧
    (p.header.opcode = 0 → state.bcast = false → p.header.rcode ≠ 0 →
      name_query_validator p state
        = some (true, { state with validate_error := NT_STATUS_NOT_FOUND }) ∧
      name_query_done { state with validate_error := NT_STATUS_NOT_FOUND } NT_STATUS_OK
        = some NT_STATUS_NOT_FOUND) ∧
    (¬ (p.header.opcode = 0 ∧ state.bcast = false ∧ p.header.rcode ≠ 0) →
      (p.header.opcode ≠ 0 ∨ p.header.nm_flags.bcast = true ∨ p.header.rcode ≠ 0 ∨
        p.header.ancount = 0) →
      name_query_validator p state = some (false, state)) ∧
    (∀ answers, ¬ (p.header.opcode = 0 ∧ state.bcast = false ∧ p.header.rcode ≠ 0) →
      ¬ (p.header.opcode ≠ 0 ∨ p.header.nm_flags.bcast = true ∨ p.header.rcode ≠ 0 ∨
        p.header.ancount = 0) →
      p.answers = some answers → state.num_addrs + answers.rdlength / 6 = 0 →
      name_query_validator p state
        = some (true, { state with validate_error := NT_STATUS_NO_MEMORY })) := by
  refine ⟨?_, ?_, ?_, ?_⟩
  · intro state1 h
    unfold name_query_validator at h
    by_cases hneg : p.header.opcode = 0 ∧ state.bcast = false ∧ p.header.rcode ≠ 0
    · exact ⟨hneg.1, Or.inl ⟨hneg.2.1, hneg.2.2⟩⟩
    · rw [if_neg hneg] at h
      by_cases hrej : p.header.opcode ≠ 0 ∨ p.header.nm_flags.bcast = true ∨
          p.header.rcode ≠ 0 ∨ p.header.ancount = 0
      · rw [if_pos hrej] at h
        simp at h
      · simp only [not_or, ne_eq, not_not, Bool.not_eq_true] at hrej
        exact ⟨hrej.1, Or.inr ⟨hrej.2.2.1, hrej.2.1, hrej.2.2.2⟩⟩
  · intro h1 h2 h3
    constructor
    · unfold name_query_validator
      rw [if_pos ⟨h1, h2, h3⟩]
    · simp [name_query_done, tevent_req_nterror]
  · intro hneg hrej
    unfold name_query_validator
    rw [if_neg hneg, if_pos hrej]
  · intro answers hneg hrej hans hzero
    unfold name_query_validator
    rw [if_neg hneg, if_neg hrej, hans]
    simp only [talloc_realloc, if_pos hzero]

theorem take_set_succ {α : Type} (l : List α) (i : Nat) (a : α) (h : i < l.length) :
    (l.set i a).take (i + 1) = l.take i ++ [a] := by
  induction l generalizing i with
  | nil => simp at h
  | cons x l ih =>
    cases i with
    | zero => simp
    | succ i =>
      simp only [List.set_cons_succ, List.take_succ_cons, List.cons_append]
      rw [ih i (by simpa using h)]

theorem talloc_realloc_length (addrs tmp_addrs : List sockaddr_storage) (n : Nat)
    (h : talloc_realloc addrs n = some tmp_addrs) : tmp_addrs.length = n := by
  unfold talloc_realloc at h
  by_cases hn : n = 0
  · rw [if_pos hn] at h
    exact Option.noConfusion h
  · rw [if_neg hn] at h
    rw [← Option.some.inj h]
    simp only [List.length_append, List.length_take, List.length_replicate]
    omega

theorem talloc_realloc_take (addrs tmp_addrs : List sockaddr_storage) (n k : Nat)
    (h : talloc_realloc addrs n = some tmp_addrs) (hk : k ≤ n) :
    tmp_addrs.take k = addrs.take k ++ List.replicate (k - addrs.length) default := by
  unfold talloc_realloc at h
  by_cases hn : n = 0
  · rw [if_pos hn] at h
    exact Option.noConfusion h
  · rw [if_neg hn] at h
    rw [← Option.some.inj h, List.take_append_eq_append_take, List.take_take,
      Nat.min_eq_left hk, List.length_take, List.take_replicate]
    congr 2
    omega

theorem already_got_false (state : name_query_state) (addr : sockaddr_storage)
    (h : ¬ already_got state addr = true) :
    ∀ x ∈ collected state, sockaddr_equal addr x = false := by
  intro x hx
  unfold already_got at h
  rw [List.any_eq_true] at h
  cases hs : sockaddr_equal addr x with
  | false => rfl
  | true => exact absurd ⟨x, hx, hs⟩ h

theorem name_query_validator_loop_ok (Q : sockaddr_storage → Prop) (rdata : List Nat) :
    ∀ (n i : Nat) (state : name_query_state) (got : Bool),
      state.num_addrs + n ≤ state.addrs.length → collected_ok Q state →
      (∀ k, i ≤ k → k < i + n →
        Q (in_addr_to_sockaddr_storage { s_addr := bytes_at rdata (2 + k * 6) 4 })) →
      collected_ok Q (name_query_validator_loop rdata n i (state, got)).1 := by
  intro n
  induction n with
  | zero => intro i state got _ hok _; exact hok
  | succ n ih =>
    intro i state got hroom hok hQ
    rw [name_query_validator_loop]
    by_cases hgot : already_got state
        (in_addr_to_sockaddr_storage { s_addr := bytes_at rdata (2 + i * 6) 4 }) = true
    · rw [if_pos hgot]
      exact ih (i + 1) state _ (by omega) hok (fun k h1 h2 => hQ k (by omega) (by omega))
    · rw [if_neg hgot]
      apply ih (i + 1) _ _ _ _ (fun k h1 h2 => hQ k (by omega) (by omega))
      · show state.num_addrs + 1 + n ≤ (state.addrs.set state.num_addrs _).length
        rw [List.length_set]; omega
      · obtain ⟨h1, h2, h3⟩ := hok
        have hcol : collected
            { state with
              addrs := state.addrs.set state.num_addrs
                (in_addr_to_sockaddr_storage { s_addr := bytes_at rdata (2 + i * 6) 4 }),
              num_addrs := state.num_addrs + 1 }
            = collected state
              ++ [in_addr_to_sockaddr_storage { s_addr := bytes_at rdata (2 + i * 6) 4 }] :=
          take_set_succ state.addrs state.num_addrs _ (by omega)
        refine ⟨?_, ?_, ?_⟩
        · show state.num_addrs + 1 ≤ (state.addrs.set state.num_addrs _).length
          rw [List.length_set]; omega
        · rw [hcol, List.pairwise_append]
          refine ⟨h2, List.pairwise_singleton _ _, ?_⟩
          intro x hx y hy
          rw [List.mem_singleton] at hy
          rw [hy]
          exact already_got_false state _ hgot x hx
        · intro a ha
          rw [hcol, List.mem_append, List.mem_singleton] at ha
          rcases ha with ha | ha
          · exact h3 a ha
          · rw [ha]
            exact ⟨rfl, hQ i (Nat.le_refl _) (by omega)⟩

theorem collected_ok_realloc (Q : sockaddr_storage → Prop) (state : name_query_state) (n : Nat)
    (tmp_addrs : List sockaddr_storage)
    (hre : talloc_realloc state.addrs (state.num_addrs + n) = some tmp_addrs)
    (hok : collected_ok Q state) :
    collected_ok Q { state with addrs := tmp_addrs } := by
  obtain ⟨h1, h2, h3⟩ := hok
  have hcol : collected { state with addrs := tmp_addrs } = collected state := by
    show tmp_addrs.take state.num_addrs = state.addrs.take state.num_addrs
    rw [talloc_realloc_take _ _ _ _ hre (Nat.le_add_right _ _), Nat.sub_eq_zero_of_le h1]
    simp
  refine ⟨?_, by rw [hcol]; exact h2, by rw [hcol]; exact h3⟩
  show state.num_addrs ≤ tmp_addrs.length
  rw [talloc_realloc_length _ _ _ hre]
  omega

theorem name_query_validator_ok (Q : sockaddr_storage → Prop) (p : packet_struct)
    (state : name_query_state) (hok : collected_ok Q state)
    (hQ : p.header.opcode = 0 → p.header.rcode = 0 → ∀ a ∈ answer_addrs p, Q a)
    (accepted : Bool) (state1 : name_query_state)
    (h : name_query_validator p state = some (accepted, state1)) : collected_ok Q state1 := by
  unfold name_query_validator at h
  by_cases hneg : p.header.opcode = 0 ∧ state.bcast = false ∧ p.header.rcode ≠ 0
  · rw [if_pos hneg] at h
    have hs : state1 = { state with validate_error := NT_STATUS_NOT_FOUND } :=
      (congrArg Prod.snd (Option.some.inj h)).symm
    rw [hs]
    exact hok
  · rw [if_neg hneg] at h
    by_cases hrej : p.header.opcode ≠ 0 ∨ p.header.nm_flags.bcast = true ∨
        p.header.rcode ≠ 0 ∨ p.header.ancount = 0
    · rw [if_pos hrej] at h
      have hs : state1 = state := (congrArg Prod.snd (Option.some.inj h)).symm
      rw [hs]
      exact hok
    · rw [if_neg hrej] at h
      simp only [not_or, ne_eq, not_not] at hrej
      cases hans : p.answers with
      | none =>
        rw [hans] at h
        exact Option.noConfusion h
      | some answers =>
        rw [hans] at h
        simp only [] at h
        cases hre : talloc_realloc state.addrs (state.num_addrs + answers.rdlength / 6) with
        | none =>
          rw [hre] at h
          have hs : state1 = { state with validate_error := NT_STATUS_NO_MEMORY } :=
            (congrArg Prod.snd (Option.some.inj h)).symm
          rw [hs]
          exact hok
        | some tmp_addrs =>
          rw [hre] at h
          have hloop := name_query_validator_loop_ok Q answers.rdata (answers.rdlength / 6) 0
            { state with addrs := tmp_addrs } false
            (by
              show state.num_addrs + answers.rdlength / 6 ≤ tmp_addrs.length
              rw [talloc_realloc_length _ _ _ hre])
            (collected_ok_realloc Q state _ tmp_addrs hre hok)
            (by
              intro k _ hk
              apply hQ hrej.1 hrej.2.2.1
              unfold answer_addrs
              rw [hans]
              exact List.mem_map.mpr ⟨k, List.mem_range.mpr (by omega), rfl⟩)
          have hs : state1 =
              { (name_query_validator_loop answers.rdata (answers.rdlength / 6) 0
                  ({ state with addrs := tmp_addrs }, false)).1 with
                flags := add_flags_back
                  (name_query_validator_loop answers.rdata (answers.rdlength / 6) 0
                    ({ state with addrs := tmp_addrs }, false)).1.flags p.header } := by
            simp only [] at h
            split at h
            · exact (congrArg Prod.snd (Option.some.inj h)).symm
            · exact (congrArg Prod.snd (Option.some.inj h)).symm
          rw [hs]
          exact hloop

theorem name_query_validate_all_ok (Q : sockaddr_storage → Prop) :
    ∀ (packets : List packet_struct) (state state1 : name_query_state),
      (∀ p ∈ packets, p.header.opcode = 0 → p.header.rcode = 0 → ∀ a ∈ answer_addrs p, Q a) →
      collected_ok Q state → name_query_validate_all packets state = some state1 →
      collected_ok Q state1 := by
  intro packets
  induction packets with
  | nil =>
    intro state state1 _ hok h
    rw [name_query_validate_all] at h
    rw [← Option.some.inj h]
    exact hok
  | cons p rest ih =>
    intro state state1 hQ hok h
    rw [name_query_validate_all] at h
    cases hv : name_query_validator p state with
    | none =>
      rw [hv] at h
      exact Option.noConfusion h
    | some r =>
      rw [hv] at h
      exact ih r.2 state1 (fun q hq => hQ q (List.mem_cons_of_mem _ hq))
        (name_query_validator_ok Q p state hok (hQ p (List.mem_cons_self _ _)) r.1 r.2 hv) h

theorem already_got_nothing (state : name_query_state) (addr : sockaddr_storage)
    (h : state.num_addrs = 0) : already_got state addr = false := by
  unfold already_got
  rw [h, List.take_zero]
  rfl

theorem name_query_validator_loop_pos (rdata : List Nat) :
    ∀ (n i : Nat) (state : name_query_state) (got : Bool),
      1 ≤ state.num_addrs ∨ 1 ≤ n →
      1 ≤ (name_query_validator_loop rdata n i (state, got)).1.num_addrs := by
  intro n
  induction n with
  | zero =>
    intro i state got h
    rcases h with h | h
    · exact h
    · omega
  | succ n ih =>
    intro i state got _
    rw [name_query_validator_loop]
    by_cases hgot : already_got state
        (in_addr_to_sockaddr_storage { s_addr := bytes_at rdata (2 + i * 6) 4 }) = true
    · rw [if_pos hgot]
      apply ih
      left
      by_cases h0 : state.num_addrs = 0
      · rw [already_got_nothing state _ h0] at hgot
        exact Bool.noConfusion hgot
      · omega
    · rw [if_neg hgot]
      apply ih
      left
      show 1 ≤ state.num_addrs + 1
      omega

theorem name_query_validator_null (p : packet_struct) (state : name_query_state)
    (hnull : state.num_addrs = 0 → state.addrs = []) (accepted : Bool)
    (state1 : name_query_state) (h : name_query_validator p state = some (accepted, state1)) :
    state1.num_addrs = 0 → state1.addrs = [] := by
  unfold name_query_validator at h
  by_cases hneg : p.header.opcode = 0 ∧ state.bcast = false ∧ p.header.rcode ≠ 0
  · rw [if_pos hneg] at h
    have hs : state1 = { state with validate_error := NT_STATUS_NOT_FOUND } :=
      (congrArg Prod.snd (Option.some.inj h)).symm
    rw [hs]
    exact hnull
  · rw [if_neg hneg] at h
    by_cases hrej : p.header.opcode ≠ 0 ∨ p.header.nm_flags.bcast = true ∨
        p.header.rcode ≠ 0 ∨ p.header.ancount = 0
    · rw [if_pos hrej] at h
      have hs : state1 = state := (congrArg Prod.snd (Option.some.inj h)).symm
      rw [hs]
      exact hnull
    · rw [if_neg hrej] at h
      cases hans : p.answers with
      | none =>
        rw [hans] at h
        exact Option.noConfusion h
      | some answers =>
        rw [hans] at h
        simp only [] at h
        cases hre : talloc_realloc state.addrs (state.num_addrs + answers.rdlength / 6) with
        | none =>
          rw [hre] at h
          have hs : state1 = { state with validate_error := NT_STATUS_NO_MEMORY } :=
            (congrArg Prod.snd (Option.some.inj h)).symm
          rw [hs]
          exact hnull
        | some tmp_addrs =>
          rw [hre] at h
          have hn : state.num_addrs + answers.rdlength / 6 ≠ 0 := by
            intro h0
            unfold talloc_realloc at hre
            rw [if_pos h0] at hre
            exact Option.noConfusion hre
          have hpos := name_query_validator_loop_pos answers.rdata (answers.rdlength / 6) 0
            { state with addrs := tmp_addrs } false
            (by
              show 1 ≤ state.num_addrs ∨ 1 ≤ answers.rdlength / 6
              omega)
          have hs : state1.num_addrs =
              (name_query_validator_loop answers.rdata (answers.rdlength / 6) 0
                ({ state with addrs := tmp_addrs }, false)).1.num_addrs := by
            simp only [] at h
            split at h
            · exact (congrArg (fun r => r.2.num_addrs) (Option.some.inj h)).symm
            · exact (congrArg (fun r => r.2.num_addrs) (Option.some.inj h)).symm
          intro h0
          omega

theorem name_query_validate_all_null :
    ∀ (packets : List packet_struct) (state state1 : name_query_state),
      (state.num_addrs = 0 → state.addrs = []) →
      name_query_validate_all packets state = some state1 →
      state1.num_addrs = 0 → state1.addrs = [] := by
  intro packets
  induction packets with
  | nil =>
    intro state state1 hnull h
    rw [name_query_validate_all] at h
    rw [← Option.some.inj h]
    exact hnull
  | cons p rest ih =>
    intro state state1 hnull h
    rw [name_query_validate_all] at h
    cases hv : name_query_validator p state with
    | none =>
      rw [hv] at h
      exact Option.noConfusion h
    | some r =>
      rw [hv] at h
      exact ih r.2 state1 (name_query_validator_null p state hnull r.1 r.2 hv) h

theorem sockaddr_equal_symm (a b : sockaddr_storage) :
    sockaddr_equal a b = sockaddr_equal b a := by
  have h : ∀ x y, sockaddr_equal x y = true → sockaddr_equal y x = true := by
    intro x y hxy
    rw [sockaddr_equal_iff] at hxy ⊢
    obtain ⟨hf, hrest⟩ := hxy
    refine ⟨hf.symm, ?_⟩
    rcases hrest with ⟨h6, hb⟩ | ⟨h4, hb⟩
    · exact Or.inl ⟨hf ▸ h6, hb.symm⟩
    · exact Or.inr ⟨hf ▸ h4, hb.symm⟩
  cases hab : sockaddr_equal a b with
  | true => exact (h a b hab).symm
  | false =>
    cases hba : sockaddr_equal b a with
    | true => rw [h b a hba] at hab; exact Bool.noConfusion hab
    | false => rfl

/-- C26: after any sequence of responses processed by `name_query_validator`,
from the state `name_query_send` creates on, `num_addrs` does not exceed the
allocated length of `addrs`, no two of the collected addresses
`addrs[0..num_addrs)` are equal (as `sockaddr_equal` compares, and as
values), and every collected address is in the answer data of a processed
response with opcode 0 and rcode 0. As long as no address is collected
`addrs` is null, so that a reallocation to no entries has nothing to free. -/
theorem name_query_validator_collects (bcast : Bool) (packets : List packet_struct)
    (state : name_query_state)
    (h : name_query_validate_all packets (name_query_send bcast) = some state) :
    state.num_addrs ≤ state.addrs.length ∧
    (collected state).Pairwise
      (fun x y => sockaddr_equal x y = false ∧ sockaddr_equal y x = false) ∧
    (collected state).Nodup ∧
    (∀ a ∈ collected state, ∃ p ∈ packets,
      p.header.opcode = 0 ∧ p.header.rcode = 0 ∧ a ∈ answer_addrs p) ∧
    (state.num_addrs = 0 → state.addrs = []) := by
  have hstart : collected_ok
      (fun a => ∃ p ∈ packets, p.header.opcode = 0 ∧ p.header.rcode = 0 ∧ a ∈ answer_addrs p)
      (name_query_send bcast) :=
    ⟨Nat.le_refl _, List.Pairwise.nil, fun a ha => absurd ha (List.not_mem_nil _)⟩
  obtain ⟨h1, h2, h3⟩ := name_query_validate_all_ok _ packets (name_query_send bcast) state
    (fun p hp h0 hr a ha => ⟨p, hp, h0, hr, ha⟩) hstart h
  refine ⟨h1, ?_, ?_, fun a ha => (h3 a ha).2,
    name_query_validate_all_null packets (name_query_send bcast) state (fun _ => rfl) h⟩
  · exact h2.imp (fun hxy => ⟨by rw [sockaddr_equal_symm]; exact hxy, hxy⟩)
  · refine List.Pairwise.imp_of_mem ?_ h2
    intro x y hx _ hxy hne
    have hself : sockaddr_equal y x = true := by
      rw [hne, sockaddr_equal_iff]
      exact ⟨rfl, Or.inr ⟨(h3 y (hne ▸ hx)).1, rfl⟩⟩
    rw [hself] at hxy
    exact Bool.noConfusion hxy

/-- C26 at a concrete input: a broadcast query gets one response with records
for 10.0.0.1, 10.0.0.1 and 10.0.0.2; two addresses are collected in an array
of three. -/
theorem name_query_validator_collects_witness :
    name_query_validate_all [positive_response] (name_query_send true)
      = some { bcast := true, validate_error := NT_STATUS_OK, flags := 216,
               addrs := [⟨AF_INET, [10, 0, 0, 1]⟩, ⟨AF_INET, [10, 0, 0, 2]⟩, default],
               num_addrs := 2 } ∧
    (collected { bcast := true, validate_error := NT_STATUS_OK, flags := 216,
                 addrs := [⟨AF_INET, [10, 0, 0, 1]⟩, ⟨AF_INET, [10, 0, 0, 2]⟩, default],
                 num_addrs := 2 }).Nodup :=
  ⟨by decide,
   (name_query_validator_collects true [positive_response]
      { bcast := true, validate_error := NT_STATUS_OK, flags := 216,
        addrs := [⟨AF_INET, [10, 0, 0, 1]⟩, ⟨AF_INET, [10, 0, 0, 2]⟩, default],
        num_addrs := 2 } (by decide)).2.2.1⟩

/-! ## name_queries: claim C24 -/

theorem name_queries_step_sent (s : name_queries_state) (e : name_queries_event)
    (h : s.sent = List.range s.num_sent) :
    (name_queries_step s e).sent = List.range (name_queries_step s e).num_sent := by
  have hissue : ∀ t : name_queries_state, t.sent = List.range t.num_sent →
      (name_queries_issue t).sent = List.range (name_queries_issue t).num_sent := by
    intro t ht
    show t.sent ++ [t.num_sent] = List.range (t.num_sent + 1)
    rw [List.range_succ, ht]
  cases e with
  | done subreq r =>
    simp only [name_queries_step]
    split
    · unfold name_queries_done
      simp only []
      split_ifs <;> exact h
    · exact h
  | next wakeup_ok =>
    simp only [name_queries_step]
    split
    · unfold name_queries_next
      split
      · exact h
      · exact hissue _ h
    · exact h

theorem name_queries_sent_range (addrs : List sockaddr_storage)
    (events : List name_queries_event) :
    (name_queries addrs events).sent = List.range (name_queries addrs events).num_sent := by
  induction events using List.reverseRecOn with
  | nil => rfl
  | append_singleton l a ih =>
    rw [name_queries_snoc]
    exact name_queries_step_sent _ a ih

/-- C24 fails on the code for `num_addrs = 0`: with an IPv6 interface only,
`name_resolve_bcast_send` hands `name_queries_send` an empty destination
list, and `name_queries_send` sends a name query to `addrs[0]` all the same:
afterwards `num_sent` is 1 with `num_addrs` 0 and the index 0 sent to is not
below `num_addrs`. For every non-empty destination list, whatever happens
(the wakeups ending normally), `num_received <= num_sent <= num_addrs` and
the indices sent to are 0, 1, ..., `num_sent - 1`, each once. -/
theorem name_queries_send_no_destination :
    (name_resolve_bcast_send false
        ⟨[⟨AF_INET6, [0xfe, 0x80, 0, 0, 0, 0, 0, 0, 0, 0, 0, 0, 0, 0, 0xff, 0xff]⟩],
          fun _ => false⟩).2
      = some (name_queries_send []) ∧
    (name_queries_send []).num_addrs = 0 ∧
    (name_queries_send []).num_sent = 1 ∧
    (name_queries_send []).sent = [0] ∧
    (∀ (addrs : List sockaddr_storage) (events : List name_queries_event), addrs ≠ [] →
      (∀ ok, name_queries_event.next ok ∈ events → ok = true) →
      (name_queries addrs events).num_received ≤ (name_queries addrs events).num_sent ∧
      (name_queries addrs events).num_sent ≤ (name_queries addrs events).num_addrs ∧
      (name_queries addrs events).num_addrs = addrs.length ∧
      (name_queries addrs events).sent = List.range (name_queries addrs events).num_sent) := by
  refine ⟨by decide, by decide, by decide, by decide, ?_⟩
  intro addrs events h0 hw
  obtain ⟨k1, _, _, k4, _, k6, _⟩ := (name_queries_reach addrs h0 events hw).1
  exact ⟨by omega, k4, k1, name_queries_sent_range addrs events⟩

/-! ## regdb_key_exists: claim C28 -/

/-- C25 fails on the code for a repeated `*`: with `password server = * *` for
the own workgroup and an auto lookup that finds two domain controllers, the
first loop of `get_dc_list` counts 2 + 1 = 3 addresses, the second loop
copies the two entries of the auto lookup for the first `*` and again for
the second `*`, and the fourth entry is written to `return_iplist[3]` of an
array of 3. -/
theorem get_dc_list_repeated_star :
    dc_sample_env.next_token_talloc (dc_pserver dc_sample_env (dc_sample "* *") "EXAMPLE")
      = ["*", "*"] ∧
    dc_count dc_sample_env "EXAMPLE" none "wins" ["*", "*"]
        { num_addresses := 0, done_auto_lookup := false, auto_ip_list := [], auto_count := 0 }
      = { num_addresses := 3, done_auto_lookup := true,
          auto_ip_list := [⟨⟨AF_INET, [10, 0, 0, 1]⟩, 0⟩, ⟨⟨AF_INET, [10, 0, 0, 2]⟩, 0⟩],
          auto_count := 2 } ∧
    get_dc_list dc_sample_env (dc_sample "* *") "EXAMPLE" none dc_lookup_type.DC_NORMAL_LOOKUP
      = Except.error { index := 3, size := 3 } :=
  ⟨by decide, by decide, rfl⟩

end Samba
